import Mathlib

/-!
Shallow embedding of the awap-2025 game engine (src/src/game_constants.py,
units.py, buildings.py, map.py, game_state.py, robot_controller.py, game.py)
and proofs about the claims of its specification.

Conventions of the embedding:
* Python dicts keyed by entity id become association lists `List (Nat × α)`;
  insertion appends at the end (Python dicts preserve insertion order),
  value mutation maps over the list, deletion filters the key out.
* Python `int` becomes `Int`; monetary amounts and time pools, which mix with
  float constants (0.5, 0.75, 0.01), become `Rat` (those constants are exact).
* Functions that may raise return `Except Exn _`; a Python function that can
  fall off the end without `return` (returning `None`) returns `Option Bool`,
  with `none` for Python `None` and `some b` for a real boolean.
* 2-d Python lists indexed `[x][y]` become `List (List _)`; every access in
  the modelled code paths is guarded by `in_bounds`, so the out-of-range
  default of `List.getD` is never exercised there.
-/

namespace Awap

/-- Python exceptions that the modelled code can raise. -/
inductive Exn where
  | gameException (msg : String)
  | indexError
  | attributeError
deriving DecidableEq, Repr

/-- Python truthiness of an `Option Bool` (`None` is falsy). -/
def truthy : Option Bool → Bool
  | none => false
  | some b => b

deriving instance DecidableEq for Except

/-- game_constants.py: class Team. -/
inductive Team where
  | BLUE
  | RED
deriving DecidableEq, Repr

/-- game_constants.py: class Tile (movement cost is attached below). -/
inductive Tile where
  | ERROR
  | MOUNTAIN
  | GRASS
  | SAND
  | WATER
  | BRIDGE
deriving DecidableEq, Repr

/-- Movement cost attached to each Tile value in game_constants.py. -/
def Tile.movement_cost : Tile → Int
  | .ERROR => 0
  | .MOUNTAIN => 2
  | .GRASS => 1
  | .SAND => 2
  | .WATER => 1
  | .BRIDGE => 1

/-- game_constants.py: class Direction. -/
inductive Direction where
  | UP
  | DOWN
  | LEFT
  | RIGHT
  | UP_LEFT
  | UP_RIGHT
  | DOWN_LEFT
  | DOWN_RIGHT
  | STAY
deriving DecidableEq, Repr

/-- The dx displacement of a Direction. -/
def Direction.dx : Direction → Int
  | .UP => 0
  | .DOWN => 0
  | .LEFT => -1
  | .RIGHT => 1
  | .UP_LEFT => -1
  | .UP_RIGHT => 1
  | .DOWN_LEFT => -1
  | .DOWN_RIGHT => 1
  | .STAY => 0

/-- The dy displacement of a Direction. -/
def Direction.dy : Direction → Int
  | .UP => 1
  | .DOWN => -1
  | .LEFT => 0
  | .RIGHT => 0
  | .UP_LEFT => 1
  | .UP_RIGHT => 1
  | .DOWN_LEFT => -1
  | .DOWN_RIGHT => -1
  | .STAY => 0

/-- game_constants.py: class GameConstants. -/
def STARTING_BALANCE : Rat := 10

def PASSIVE_COINS_PER_TURN : Rat := 1

def FARM_COINS_PER_TURN : Rat := 1

def INITIAL_TIME_POOL : Rat := 10

def ADDITIONAL_TIME_PER_TURN : Rat := 1 / 100

def SELL_HEALTH_PERCENT : Rat := 3 / 4

def BUILDING_SELL_DISCOUNT : Rat := 1 / 2

def UNIT_SELL_DISCOUNT : Rat := 1 / 2

/-- game_constants.py: class BuildingType (the six enum values). -/
inductive BuildingType where
  | MAIN_CASTLE
  | PORT
  | EXPLORER_BUILDING
  | FARM_1
  | FARM_2
  | FARM_3
deriving DecidableEq, Repr

/-- The per-archetype constants attached to each BuildingType value. -/
structure BuildingStats where
  health : Int
  cost : Rat
  attack_range : Int
  damage_range : Int
  cooldown : Int
  damage : Int
  defense : Int
  actions_per_turn : Int
  spawnable : Bool
  placeable_tiles : List Tile
deriving DecidableEq, Repr

/-- The BuildingType constant table of game_constants.py, with the
`placeable_tiles is None` default already resolved to `[GRASS, SAND]`
as the enum constructor does. -/
def BuildingType.stats : BuildingType → BuildingStats
  | .MAIN_CASTLE => ⟨30, -1, 0, 1, 0, 0, 0, 1, true, [.GRASS, .SAND]⟩
  | .PORT => ⟨20, 10, 0, 1, 0, 0, 0, 1, true, [.WATER, .BRIDGE]⟩
  | .EXPLORER_BUILDING => ⟨20, 30, 0, 0, 1, 0, 0, 0, false, [.GRASS, .SAND]⟩
  | .FARM_1 => ⟨10, 3, 0, 1, 0, 0, 0, 1, true, [.GRASS, .SAND]⟩
  | .FARM_2 => ⟨15, 5, 0, 1, 0, 0, 0, 1, true, [.GRASS, .SAND]⟩
  | .FARM_3 => ⟨20, 7, 0, 1, 0, 0, 0, 1, true, [.GRASS, .SAND]⟩

def BuildingType.health (b : BuildingType) : Int := b.stats.health

def BuildingType.cost (b : BuildingType) : Rat := b.stats.cost

def BuildingType.spawnable (b : BuildingType) : Bool := b.stats.spawnable

def BuildingType.placeable_tiles (b : BuildingType) : List Tile := b.stats.placeable_tiles

def BuildingType.actions_per_turn (b : BuildingType) : Int := b.stats.actions_per_turn

/-- game_constants.py: class UnitType (the seventeen enum values). -/
inductive UnitType where
  | KNIGHT
  | WARRIOR
  | SWORDSMAN
  | DEFENDER
  | CATAPULT
  | SAILOR
  | RAIDER
  | CAPTAIN
  | GALLEY
  | EXPLORER
  | ENGINEER
  | LAND_HEALER_1
  | WATER_HEALER_1
  | LAND_HEALER_2
  | WATER_HEALER_2
  | LAND_HEALER_3
  | WATER_HEALER_3
deriving DecidableEq, Repr

/-- The per-archetype constants attached to each UnitType value. -/
structure UnitStats where
  health : Int
  cost : Rat
  attack_range : Int
  cooldown : Int
  damage : Int
  defense : Int
  actions_per_turn : Int
  move_range : Int
  damage_range : Int
  heal_amount : Int
  spawnable_buildings : Option (List BuildingType)
  walkable_tiles : List Tile
deriving DecidableEq, Repr

/-- The UnitType constant table of game_constants.py, with the
`walkable_tiles is None` default already resolved to `[GRASS, SAND, BRIDGE]`
as the enum constructor does (`spawnable_buildings` keeps `none` = "all"). -/
def UnitType.stats : UnitType → UnitStats
  | .KNIGHT => ⟨10, 1, 1, 1, 1, 1, 1, 1, 0, 0, none, [.GRASS, .SAND, .BRIDGE]⟩
  | .WARRIOR => ⟨10, 2, 1, 1, 2, 2, 1, 1, 0, 0, none, [.GRASS, .SAND, .BRIDGE]⟩
  | .SWORDSMAN => ⟨10, 4, 1, 1, 3, 3, 1, 1, 0, 0, none, [.GRASS, .SAND, .BRIDGE]⟩
  | .DEFENDER => ⟨15, 3, 1, 1, 1, 2, 1, 1, 0, 0, none, [.GRASS, .SAND, .BRIDGE]⟩
  | .CATAPULT => ⟨10, 4, 10, 1, 1, 2, 1, 1, 0, 0, none, [.GRASS, .SAND, .BRIDGE]⟩
  | .SAILOR => ⟨10, 1, 1, 1, 1, 1, 1, 1, 0, 0, some [.PORT], [.WATER, .BRIDGE]⟩
  | .RAIDER => ⟨10, 2, 1, 1, 2, 2, 1, 1, 0, 0, some [.PORT], [.WATER, .BRIDGE]⟩
  | .CAPTAIN => ⟨10, 4, 1, 1, 3, 3, 1, 1, 0, 0, some [.PORT], [.WATER, .BRIDGE]⟩
  | .GALLEY => ⟨10, 1, 1, 1, 1, 1, 1, 1, 0, 0, some [.PORT], [.WATER, .BRIDGE]⟩
  | .EXPLORER =>
      ⟨1, 10, 0, 1, 0, 0, 1, 2, 0, 0, some [.MAIN_CASTLE],
        [.GRASS, .SAND, .BRIDGE, .MOUNTAIN, .WATER]⟩
  | .ENGINEER => ⟨5, 2, 0, 0, 0, 0, 1, 1, 0, 0, none, [.GRASS, .SAND, .BRIDGE, .WATER]⟩
  | .LAND_HEALER_1 => ⟨10, 3, 2, 1, 0, 1, 1, 2, 1, 5, none, [.GRASS, .SAND, .BRIDGE]⟩
  | .WATER_HEALER_1 => ⟨10, 3, 2, 1, 0, 1, 1, 2, 1, 5, some [.PORT], [.WATER, .BRIDGE]⟩
  | .LAND_HEALER_2 => ⟨10, 4, 2, 1, 0, 1, 1, 2, 1, 6, none, [.GRASS, .SAND, .BRIDGE]⟩
  | .WATER_HEALER_2 => ⟨10, 4, 2, 1, 0, 1, 1, 2, 1, 6, some [.PORT], [.WATER, .BRIDGE]⟩
  | .LAND_HEALER_3 => ⟨10, 5, 2, 1, 0, 1, 1, 2, 1, 7, none, [.GRASS, .SAND, .BRIDGE]⟩
  | .WATER_HEALER_3 => ⟨10, 5, 2, 1, 0, 1, 1, 2, 1, 7, some [.PORT], [.WATER, .BRIDGE]⟩

def UnitType.health (u : UnitType) : Int := u.stats.health

def UnitType.cost (u : UnitType) : Rat := u.stats.cost

def UnitType.attack_range (u : UnitType) : Int := u.stats.attack_range

def UnitType.damage (u : UnitType) : Int := u.stats.damage

def UnitType.defense (u : UnitType) : Int := u.stats.defense

def UnitType.actions_per_turn (u : UnitType) : Int := u.stats.actions_per_turn

def UnitType.move_range (u : UnitType) : Int := u.stats.move_range

def UnitType.damage_range (u : UnitType) : Int := u.stats.damage_range

def UnitType.heal_amount (u : UnitType) : Int := u.stats.heal_amount

def UnitType.spawnable_buildings (u : UnitType) : Option (List BuildingType) :=
  u.stats.spawnable_buildings

def UnitType.walkable_tiles (u : UnitType) : List Tile := u.stats.walkable_tiles

/-- units.py: class Unit (named `Unit'` because `Unit` is taken by Lean's core). -/
structure Unit' where
  id : Nat
  team : Team
  type : UnitType
  x : Int
  y : Int
  turn_actions_remaining : Int
  turn_movement_remaining : Int
  attack_range : Int
  health : Int
  damage : Int
  defense : Int
  damage_range : Int
  level : Int
  walkable_tiles : List Tile
deriving DecidableEq, Repr

/-- units.py: Unit.__init__; `uid` is the value drawn from the process-wide
unit id counter by `Unit.increment`. The unit cannot move and cannot act
on the turn of its spawn (both per-turn budgets start at 0). -/
def Unit'.create (uid : Nat) (team : Team) (type : UnitType) (x y : Int)
    (level : Int) : Unit' :=
  { id := uid
    team := team
    type := type
    x := x
    y := y
    turn_actions_remaining := 0
    turn_movement_remaining := 0
    attack_range := type.attack_range
    health := type.health
    damage := type.damage
    defense := type.defense
    damage_range := type.damage_range
    level := level
    walkable_tiles := type.walkable_tiles }

/-- buildings.py: class Building. -/
structure Building where
  id : Nat
  team : Team
  type : BuildingType
  x : Int
  y : Int
  health : Int
  damage : Int
  defense : Int
  attack_range : Int
  damage_range : Int
  turn_actions_remaining : Int
  level : Int
  spawnable : Bool
  placeable_tiles : List Tile
deriving DecidableEq, Repr

/-- buildings.py: Building.__init__; `bid` is the value drawn from the
process-wide building id counter by `Building.increment`. The `spawnable`
keyword parameter of the source constructor is ignored: the source assigns
`self.spawnable = type.spawnable`. The action budget starts at 0. -/
def Building.create (bid : Nat) (team : Team) (type : BuildingType) (x y : Int)
    (level : Int) : Building :=
  { id := bid
    team := team
    type := type
    x := x
    y := y
    health := type.stats.health
    damage := type.stats.damage
    defense := type.stats.defense
    attack_range := type.stats.attack_range
    damage_range := type.stats.damage_range
    turn_actions_remaining := 0
    level := level
    spawnable := type.spawnable
    placeable_tiles := type.placeable_tiles }

/-! Association-list counterparts of the Python dict operations used by the
engine (dicts preserve insertion order; new keys are appended at the end). -/

/-- `unit_id in d` -/
def acontains (l : List (Nat × α)) (k : Nat) : Bool :=
  l.any (fun p => p.1 == k)

/-- `d[k]` as an `Option` (the modelled paths only index present keys). -/
def alookup : List (Nat × α) → Nat → Option α
  | [], _ => none
  | p :: rest, k => if p.1 == k then some p.2 else alookup rest k

/-- `d[k] = v` for a fresh key `k` (appends, as dict insertion does). -/
def ainsert (l : List (Nat × α)) (k : Nat) (v : α) : List (Nat × α) :=
  l ++ [(k, v)]

/-- In-place mutation of the value stored at key `k`. -/
def aupdate : List (Nat × α) → Nat → (α → α) → List (Nat × α)
  | [], _, _ => []
  | p :: rest, k, f =>
    if p.1 == k then (p.1, f p.2) :: aupdate rest k f
    else p :: aupdate rest k f

/-- `del d[k]` (keeps the order of the remaining entries). -/
def aerase (l : List (Nat × α)) (k : Nat) : List (Nat × α) :=
  l.filter (fun p => p.1 != k)

/-- `d.values()` in iteration order. -/
def avalues (l : List (Nat × α)) : List α :=
  l.map Prod.snd

/-! Width × height boolean grids indexed `[x][y]` like the Python
`List[List[bool]]` placeable maps. Every access in the modelled code paths is
guarded by an `in_bounds` check, so the defaults below are never exercised
there (Python would wrap a negative index and raise past-the-end). -/

/-- `grid[x][y]` -/
def gridGet (g : List (List Bool)) (x y : Int) : Bool :=
  (g.getD x.toNat []).getD y.toNat true

/-- `grid[x][y] = b` -/
def gridSet (g : List (List Bool)) (x y : Int) (b : Bool) : List (List Bool) :=
  g.set x.toNat ((g.getD x.toNat []).set y.toNat b)

/-- `[[True] * height] * width` as built in GameState.__init__. -/
def trueGrid (width height : Int) : List (List Bool) :=
  List.replicate width.toNat (List.replicate height.toNat true)

/-- map.py: class Map. -/
structure Map where
  width : Int
  height : Int
  tiles : List (List Tile)
  blue_castle_loc : Int × Int
  red_castle_loc : Int × Int
deriving DecidableEq, Repr

/-- map.py: Map.in_bounds. -/
def Map.in_bounds (m : Map) (x y : Int) : Bool :=
  decide (0 ≤ x) && decide (x < m.width) && decide (0 ≤ y) && decide (y < m.height)

/-- `self.tiles[x][y]` (always guarded by `in_bounds` in the modelled paths). -/
def Map.tileAt (m : Map) (x y : Int) : Tile :=
  (m.tiles.getD x.toNat []).getD y.toNat Tile.ERROR

/-- `self.tiles[x][y] = t` (used by build_bridge). -/
def Map.setTile (m : Map) (x y : Int) (t : Tile) : Map :=
  { m with tiles := m.tiles.set x.toNat ((m.tiles.getD x.toNat []).set y.toNat t) }

/-- map.py: Map.is_tile_type. -/
def Map.is_tile_type (m : Map) (x y : Int) (tile_type : Tile) : Bool :=
  if ¬ m.in_bounds x y then false
  else m.tileAt x y == tile_type

/-- game_state.py: class GameState (the pygame rendering fields are omitted;
the per-team dicts become one field per team; the process-wide `Unit` and
`Building` id counters of units.py / buildings.py are carried here, starting
at 0 as they do in a fresh process running one game). -/
structure GameState where
  map : Map
  balance_blue : Rat
  balance_red : Rat
  turn : Int
  building_placeable_map : List (List Bool)
  unit_placeable_map : List (List Bool)
  buildings_blue : List (Nat × Building)
  buildings_red : List (Nat × Building)
  units_blue : List (Nat × Unit')
  units_red : List (Nat × Unit')
  red_main_castle_id : Nat
  blue_main_castle_id : Nat
  time_remaining_blue : Rat
  time_remaining_red : Rat
  unit_id_counter : Nat
  building_id_counter : Nat
deriving DecidableEq, Repr

/-- `self.units[team]` -/
def GameState.units (s : GameState) : Team → List (Nat × Unit')
  | .BLUE => s.units_blue
  | .RED => s.units_red

/-- `self.buildings[team]` -/
def GameState.buildings (s : GameState) : Team → List (Nat × Building)
  | .BLUE => s.buildings_blue
  | .RED => s.buildings_red

/-- `self.balance[team]` -/
def GameState.balance (s : GameState) : Team → Rat
  | .BLUE => s.balance_blue
  | .RED => s.balance_red

/-- `self.main_castle_ids[team]` -/
def GameState.main_castle_ids (s : GameState) : Team → Nat
  | .BLUE => s.blue_main_castle_id
  | .RED => s.red_main_castle_id

/-- `self.time_remaining[team]` -/
def GameState.time_remaining (s : GameState) : Team → Rat
  | .BLUE => s.time_remaining_blue
  | .RED => s.time_remaining_red

/-- `self.units[team] = l` -/
def GameState.setUnits (s : GameState) : Team → List (Nat × Unit') → GameState
  | .BLUE, l => { s with units_blue := l }
  | .RED, l => { s with units_red := l }

/-- `self.buildings[team] = l` -/
def GameState.setBuildings (s : GameState) : Team → List (Nat × Building) → GameState
  | .BLUE, l => { s with buildings_blue := l }
  | .RED, l => { s with buildings_red := l }

/-- `self.balance[team] = q` -/
def GameState.setBalance (s : GameState) : Team → Rat → GameState
  | .BLUE, q => { s with balance_blue := q }
  | .RED, q => { s with balance_red := q }

/-- `self.time_remaining[team] = q` -/
def GameState.setTime (s : GameState) : Team → Rat → GameState
  | .BLUE, q => { s with time_remaining_blue := q }
  | .RED, q => { s with time_remaining_red := q }

/-- game_state.py: GameState.__init__ on a map (the red main castle is
constructed first, then the blue one, so with fresh counters the red castle
receives building id 0 and the blue castle building id 1). The castle tiles
are NOT marked in `building_placeable_map`, exactly as in the source. -/
def GameState.init (map : Map) : GameState :=
  let red_main_castle :=
    Building.create 0 .RED .MAIN_CASTLE map.red_castle_loc.1 map.red_castle_loc.2 1
  let blue_main_castle :=
    Building.create 1 .BLUE .MAIN_CASTLE map.blue_castle_loc.1 map.blue_castle_loc.2 1
  { map := map
    balance_blue := STARTING_BALANCE
    balance_red := STARTING_BALANCE
    turn := 0
    building_placeable_map := trueGrid map.width map.height
    unit_placeable_map := trueGrid map.width map.height
    buildings_blue := [(blue_main_castle.id, blue_main_castle)]
    buildings_red := [(red_main_castle.id, red_main_castle)]
    units_blue := []
    units_red := []
    red_main_castle_id := red_main_castle.id
    blue_main_castle_id := blue_main_castle.id
    time_remaining_blue := INITIAL_TIME_POOL
    time_remaining_red := INITIAL_TIME_POOL
    unit_id_counter := 0
    building_id_counter := 2 }

/-- game_state.py: GameState.get_opposite_team. -/
def GameState.get_opposite_team (_s : GameState) (team : Team) : Team :=
  match team with
  | .BLUE => .RED
  | .RED => .BLUE

/-- game_state.py: GameState.get_team_of_unit (checks RED before BLUE). -/
def GameState.get_team_of_unit (s : GameState) (unit_id : Nat) : Option Team :=
  if acontains (s.units .RED) unit_id then some .RED
  else if acontains (s.units .BLUE) unit_id then some .BLUE
  else none

/-- game_state.py: GameState.get_team_of_building (checks RED before BLUE). -/
def GameState.get_team_of_building (s : GameState) (building_id : Nat) : Option Team :=
  if acontains (s.buildings .RED) building_id then some .RED
  else if acontains (s.buildings .BLUE) building_id then some .BLUE
  else none

/-- game_state.py: GameState.get_unit_from_id. -/
def GameState.get_unit_from_id (s : GameState) (unit_id : Nat) : Option Unit' :=
  match s.get_team_of_unit unit_id with
  | none => none
  | some team => alookup (s.units team) unit_id

/-- game_state.py: GameState.get_building_from_id. -/
def GameState.get_building_from_id (s : GameState) (building_id : Nat) : Option Building :=
  match s.get_team_of_building building_id with
  | none => none
  | some team => alookup (s.buildings team) building_id

/-- In-place mutation of the live unit object returned by get_unit_from_id
(the source mutates attributes of the aliased dict entry). -/
def GameState.mutate_unit (s : GameState) (unit_id : Nat) (f : Unit' → Unit') : GameState :=
  match s.get_team_of_unit unit_id with
  | none => s
  | some team => s.setUnits team (aupdate (s.units team) unit_id f)

/-- In-place mutation of the live building object returned by
get_building_from_id. -/
def GameState.mutate_building (s : GameState) (building_id : Nat)
    (f : Building → Building) : GameState :=
  match s.get_team_of_building building_id with
  | none => s
  | some team => s.setBuildings team (aupdate (s.buildings team) building_id f)

/-- game_state.py: GameState.is_building_placeable. -/
def GameState.is_building_placeable (s : GameState) (building_type : BuildingType)
    (x y : Int) : Bool :=
  if ¬ s.map.in_bounds x y then false
  else if ¬ gridGet s.building_placeable_map x y then false
  else if ¬ (building_type.placeable_tiles.contains (s.map.tileAt x y)) then false
  else true

/-- game_state.py: GameState.is_unit_placeable. -/
def GameState.is_unit_placeable (s : GameState) (unit_type : UnitType)
    (x y : Int) : Bool :=
  if ¬ s.map.in_bounds x y then false
  else if ¬ gridGet s.unit_placeable_map x y then false
  else if ¬ (unit_type.walkable_tiles.contains (s.map.tileAt x y)) then false
  else true

/-- game_state.py: GameState.place_unit. -/
def GameState.place_unit (s : GameState) (team : Team) (unit_type : UnitType)
    (x y : Int) (level : Int) : Bool × GameState :=
  if ¬ s.is_unit_placeable unit_type x y then (false, s)
  else
    let new_unit := Unit'.create s.unit_id_counter team unit_type x y level
    let s := { s with unit_id_counter := s.unit_id_counter + 1 }
    let s := s.setUnits team (ainsert (s.units team) new_unit.id new_unit)
    let s := { s with unit_placeable_map := gridSet s.unit_placeable_map x y false }
    (true, s)

/-- game_state.py: GameState.spawn_unit. -/
def GameState.spawn_unit (s : GameState) (team : Team) (unit_type : UnitType)
    (spawn_building_id : Nat) (level : Int) : Bool × GameState :=
  match s.get_building_from_id spawn_building_id with
  | none => (false, s)
  | some spawn_building => s.place_unit team unit_type spawn_building.x spawn_building.y level

/-- game_state.py: GameState.place_building. -/
def GameState.place_building (s : GameState) (team : Team)
    (building_type : BuildingType) (x y : Int) (level : Int) : Bool × GameState :=
  if building_type == .MAIN_CASTLE then (false, s)
  else if ¬ s.is_building_placeable building_type x y then (false, s)
  else
    let new_building := Building.create s.building_id_counter team building_type x y level
    let s := { s with building_id_counter := s.building_id_counter + 1 }
    let s := s.setBuildings team (ainsert (s.buildings team) new_building.id new_building)
    let s := { s with building_placeable_map := gridSet s.building_placeable_map x y false }
    (true, s)

/-- game_state.py: GameState.delete_unit (documented precondition: the id is
present for this team; the impossible missing case leaves the state unchanged
where Python would raise a KeyError). -/
def GameState.delete_unit (s : GameState) (team : Team) (unit_id : Nat) : GameState :=
  match alookup (s.units team) unit_id with
  | none => s
  | some u =>
    let s := { s with unit_placeable_map := gridSet s.unit_placeable_map u.x u.y true }
    s.setUnits team (aerase (s.units team) unit_id)

/-- game_state.py: GameState.delete_building (same precondition remark). -/
def GameState.delete_building (s : GameState) (team : Team) (building_id : Nat) : GameState :=
  match alookup (s.buildings team) building_id with
  | none => s
  | some b =>
    let s := { s with building_placeable_map := gridSet s.building_placeable_map b.x b.y true }
    s.setBuildings team (aerase (s.buildings team) building_id)

/-- game_state.py: GameState.damage_unit. Its docstring promises
"Return True if killed, False otherwise", but the source only has an explicit
`return False` on the invalid-id path; both the killed and the survived path
fall off the end of the function and return Python `None` (modelled as
`none`). -/
def GameState.damage_unit (s : GameState) (unit_id : Nat) (dmg : Int) :
    Except Exn (Option Bool × GameState) :=
  if dmg < 0 then .error (.gameException "damage must be non-negative")
  else
    match s.get_team_of_unit unit_id with
    | none => .ok (some false, s)
    | some team =>
      let s := s.setUnits team
        (aupdate (s.units team) unit_id (fun u => { u with health := u.health - dmg }))
      match alookup (s.units team) unit_id with
      | none => .ok (none, s)
      | some u =>
        if u.health ≤ 0 then .ok (none, s.delete_unit team unit_id)
        else .ok (none, s)

/-- game_state.py: GameState.damage_building (this one does return its
booleans on every path). -/
def GameState.damage_building (s : GameState) (building_id : Nat) (dmg : Int) :
    Except Exn (Bool × GameState) :=
  if dmg < 0 then .error (.gameException "damage must be non-negative")
  else
    match s.get_team_of_building building_id with
    | none => .ok (false, s)
    | some team =>
      let s := s.setBuildings team
        (aupdate (s.buildings team) building_id (fun b => { b with health := b.health - dmg }))
      match alookup (s.buildings team) building_id with
      | none => .ok (false, s)
      | some b =>
        if b.health ≤ 0 then .ok (true, s.delete_building team building_id)
        else .ok (false, s)

/-- game_state.py: GameState.sell_unit; raises GameException when the id is
not present in this team's dict. -/
def GameState.sell_unit (s : GameState) (team : Team) (unit_id : Nat) :
    Except Exn (Bool × GameState) :=
  match alookup (s.units team) unit_id with
  | none => .error (.gameException "unit_id not valid")
  | some u =>
    if (u.health : Rat) < SELL_HEALTH_PERCENT * (u.type.health : Rat) then .ok (false, s)
    else
      let s := s.setBalance team (s.balance team + u.type.cost * UNIT_SELL_DISCOUNT)
      .ok (true, s.delete_unit team unit_id)

/-- game_state.py: GameState.sell_building; raises GameException when the id
is not present in this team's dict. Note: no main-castle exemption, and the
refund uses UNIT_SELL_DISCOUNT exactly as the source does. -/
def GameState.sell_building (s : GameState) (team : Team) (building_id : Nat) :
    Except Exn (Bool × GameState) :=
  match alookup (s.buildings team) building_id with
  | none => .error (.gameException "building_id not valid")
  | some b =>
    if (b.health : Rat) < SELL_HEALTH_PERCENT * (b.type.health : Rat) then .ok (false, s)
    else
      let s := s.setBalance team (s.balance team + b.type.cost * UNIT_SELL_DISCOUNT)
      .ok (true, s.delete_building team building_id)

/-- The per-turn budget reset start_turn applies to every unit. -/
def resetUnitBudgets (u : Unit') : Unit' :=
  { u with turn_actions_remaining := u.type.actions_per_turn
           turn_movement_remaining := u.type.move_range }

/-- The per-turn budget reset start_turn applies to every building. -/
def resetBuildingBudgets (b : Building) : Building :=
  { b with turn_actions_remaining := b.type.actions_per_turn }

/-- Is the building one of the farm types collected in `self.FARMS`? -/
def isFarm (b : Building) : Bool :=
  b.type == .FARM_1 || b.type == .FARM_2 || b.type == .FARM_3

/-- game_state.py: GameState.start_turn: bump the turn counter, reset every
unit's and building's per-turn budgets to the archetype allowances, add
passive income to both balances, then one farm income per farm building. -/
def GameState.start_turn (s : GameState) : GameState :=
  let resetU := fun (u : Unit') =>
    { u with turn_actions_remaining := u.type.actions_per_turn
             turn_movement_remaining := u.type.move_range }
  let resetB := fun (b : Building) =>
    { b with turn_actions_remaining := b.type.actions_per_turn }
  let s := { s with turn := s.turn + 1 }
  let s := { s with
    units_blue := s.units_blue.map (fun (p : Nat × Unit') => (p.1, resetU p.2))
    units_red := s.units_red.map (fun (p : Nat × Unit') => (p.1, resetU p.2))
    buildings_blue := s.buildings_blue.map (fun (p : Nat × Building) => (p.1, resetB p.2))
    buildings_red := s.buildings_red.map (fun (p : Nat × Building) => (p.1, resetB p.2)) }
  let s := s.setBalance .RED (s.balance .RED + PASSIVE_COINS_PER_TURN)
  let s := s.setBalance .BLUE (s.balance .BLUE + PASSIVE_COINS_PER_TURN)
  let farmIncome := fun (bs : List (Nat × Building)) =>
    ((avalues bs).filter isFarm).foldl (fun q _ => q + FARM_COINS_PER_TURN) 0
  let s := s.setBalance .RED (s.balance .RED + farmIncome (s.buildings .RED))
  s.setBalance .BLUE (s.balance .BLUE + farmIncome (s.buildings .BLUE))

/-! robot_controller.py: class RobotController. Each method becomes a function
whose first argument is the controller's private team and whose last argument
is the shared game state. -/

namespace RobotController

/-- robot_controller.py: RobotController.get_enemy_team. -/
def get_enemy_team (team : Team) : Team :=
  match team with
  | .BLUE => .RED
  | .RED => .BLUE

/-- robot_controller.py: RobotController.get_chebyshev_distance. -/
def get_chebyshev_distance (x1 y1 x2 y2 : Int) : Int :=
  max |x1 - x2| |y1 - y2|

/-- robot_controller.py: RobotController.chebyshev_distance_valid. -/
def chebyshev_distance_valid (x1 y1 x2 y2 radius : Int) : Bool :=
  if get_chebyshev_distance x1 y1 x2 y2 ≤ radius then true else false

/-- robot_controller.py: RobotController.can_spawn_unit. Note that no check
of the building's `turn_actions_remaining` appears anywhere in it. -/
def can_spawn_unit (team : Team) (unit_type : UnitType) (building_id : Nat)
    (s : GameState) : Bool :=
  match s.get_building_from_id building_id with
  | none => false
  | some building =>
    if building.team ≠ team then false
    else if (match unit_type.spawnable_buildings with
             | none => false
             | some bs => ! bs.contains building.type) then false
    else if ¬ building.spawnable then false
    else if ¬ s.is_unit_placeable unit_type building.x building.y then false
    else if s.balance team < unit_type.cost then false
    else true

/-- robot_controller.py: RobotController.can_build_building. -/
def can_build_building (team : Team) (building_type : BuildingType) (x y : Int)
    (s : GameState) : Bool :=
  if ¬ s.map.in_bounds x y then false
  else if ¬ building_type.placeable_tiles.contains (s.map.tileAt x y) then false
  else if ¬ s.is_building_placeable building_type x y then false
  else if s.balance team < building_type.cost then false
  else true

/-- robot_controller.py: RobotController.spawn_unit (the level argument of
GameState.spawn_unit takes its default value 1). -/
def spawn_unit (team : Team) (unit_type : UnitType) (building_id : Nat)
    (s : GameState) : Bool × GameState :=
  if ¬ can_spawn_unit team unit_type building_id s then (false, s)
  else
    match s.spawn_unit team unit_type building_id 1 with
    | (false, s) => (false, s)
    | (true, s) => (true, s.setBalance team (s.balance team - unit_type.cost))

/-- robot_controller.py: RobotController.build_building. -/
def build_building (team : Team) (building_type : BuildingType) (x y : Int)
    (s : GameState) : Bool × GameState :=
  if ¬ can_build_building team building_type x y s then (false, s)
  else
    match s.place_building team building_type x y 1 with
    | (false, s) => (false, s)
    | (true, s) => (true, s.setBalance team (s.balance team - building_type.cost))

/-- robot_controller.py: RobotController.sell_unit (a direct delegation). -/
def sell_unit (team : Team) (unit_id : Nat) (s : GameState) :
    Except Exn (Bool × GameState) :=
  s.sell_unit team unit_id

/-- robot_controller.py: RobotController.sell_building (a direct delegation;
no main-castle exemption exists on this path). -/
def sell_building (team : Team) (building_id : Nat) (s : GameState) :
    Except Exn (Bool × GameState) :=
  s.sell_building team building_id

/-- robot_controller.py: RobotController.disband_unit. -/
def disband_unit (team : Team) (unit_id : Nat) (s : GameState) : Bool × GameState :=
  if ¬ acontains (s.units team) unit_id then (false, s)
  else (true, s.delete_unit team unit_id)

/-- robot_controller.py: RobotController.destroy_building (this one does
refuse the caller's own main castle). -/
def destroy_building (team : Team) (building_id : Nat) (s : GameState) :
    Bool × GameState :=
  if ¬ acontains (s.buildings team) building_id then (false, s)
  else if building_id == s.main_castle_ids team then (false, s)
  else (true, s.delete_building team building_id)

/-- robot_controller.py: RobotController.can_unit_attack_unit. -/
def can_unit_attack_unit (team : Team) (attacking_unit_id target_unit_id : Nat)
    (s : GameState) : Bool :=
  if ¬ acontains (s.units team) attacking_unit_id then false
  else if ¬ acontains (s.units (get_enemy_team team)) target_unit_id then false
  else
    match s.get_unit_from_id attacking_unit_id, s.get_unit_from_id target_unit_id with
    | none, _ => false
    | _, none => false
    | some attacking_unit, some target_unit =>
      if attacking_unit.turn_actions_remaining ≤ 0 then false
      else if ¬ chebyshev_distance_valid attacking_unit.x attacking_unit.y
          target_unit.x target_unit.y attacking_unit.attack_range then false
      else true

/-- robot_controller.py: RobotController.can_unit_attack_building. -/
def can_unit_attack_building (team : Team) (attacking_unit_id target_building_id : Nat)
    (s : GameState) : Bool :=
  if ¬ acontains (s.units team) attacking_unit_id then false
  else if ¬ acontains (s.buildings (get_enemy_team team)) target_building_id then false
  else
    match s.get_unit_from_id attacking_unit_id, s.get_building_from_id target_building_id with
    | none, _ => false
    | _, none => false
    | some attacking_unit, some target_building =>
      if attacking_unit.turn_actions_remaining ≤ 0 then false
      else if ¬ chebyshev_distance_valid attacking_unit.x attacking_unit.y
          target_building.x target_building.y attacking_unit.attack_range then false
      else true

/-- robot_controller.py: RobotController.can_unit_attack_location. -/
def can_unit_attack_location (team : Team) (attacking_unit_id : Nat) (x y : Int)
    (s : GameState) : Bool :=
  if ¬ acontains (s.units team) attacking_unit_id then false
  else if ¬ s.map.in_bounds x y then false
  else
    match s.get_unit_from_id attacking_unit_id with
    | none => false
    | some attacking_unit =>
      if attacking_unit.turn_actions_remaining ≤ 0 then false
      else if ¬ chebyshev_distance_valid attacking_unit.x attacking_unit.y
          x y attacking_unit.attack_range then false
      else true

/-- robot_controller.py: RobotController.can_building_attack_unit. -/
def can_building_attack_unit (team : Team) (attacking_building_id target_unit_id : Nat)
    (s : GameState) : Bool :=
  if ¬ acontains (s.buildings team) attacking_building_id then false
  else if ¬ acontains (s.units (get_enemy_team team)) target_unit_id then false
  else
    match s.get_building_from_id attacking_building_id, s.get_unit_from_id target_unit_id with
    | none, _ => false
    | _, none => false
    | some attacking_building, some target_unit =>
      if attacking_building.turn_actions_remaining ≤ 0 then false
      else if ¬ chebyshev_distance_valid attacking_building.x attacking_building.y
          target_unit.x target_unit.y attacking_building.attack_range then false
      else true

/-- robot_controller.py: RobotController.can_building_attack_location. -/
def can_building_attack_location (team : Team) (attacking_building_id : Nat) (x y : Int)
    (s : GameState) : Bool :=
  if ¬ acontains (s.buildings team) attacking_building_id then false
  else if ¬ s.map.in_bounds x y then false
  else
    match s.get_building_from_id attacking_building_id with
    | none => false
    | some attacking_building =>
      if attacking_building.turn_actions_remaining ≤ 0 then false
      else if ¬ chebyshev_distance_valid attacking_building.x attacking_building.y
          x y attacking_building.attack_range then false
      else true

/-- The damaging pass of unit_attack_location over the collected enemy unit
ids: `dead_units` collects the indices `i` for which damage_unit returned a
truthy value (it never does, because damage_unit always returns None). -/
def damage_units_pass (dmg : Int) (ids : List Nat) (s : GameState) :
    Except Exn (List Nat × GameState) :=
  (List.range ids.length).foldlM
    (fun (acc : List Nat × GameState) i => do
      let unit_id_hit := ids.getD i 0
      let (r, s') ← acc.2.damage_unit unit_id_hit dmg
      if truthy r then pure (acc.1 ++ [i], s') else pure (acc.1, s'))
    ([], s)

/-- The damaging pass of unit_attack_location over the collected enemy
building ids (damage_building does return real booleans). -/
def damage_buildings_pass (dmg : Int) (ids : List Nat) (s : GameState) :
    Except Exn (List Nat × GameState) :=
  (List.range ids.length).foldlM
    (fun (acc : List Nat × GameState) i => do
      let building_id_hit := ids.getD i 0
      let (r, s') ← acc.2.damage_building building_id_hit dmg
      if r then pure (acc.1 ++ [i], s') else pure (acc.1, s'))
    ([], s)

/-- `for i in dead: del hit[i]` — Python list deletion by the indices that
were recorded against the ORIGINAL list; each deletion shifts the later
elements down, and an index that is now past the end raises IndexError. -/
def del_indices (dead : List Nat) (l : List Nat) : Except Exn (List Nat) :=
  dead.foldlM
    (fun cur i =>
      if i < cur.length then pure (cur.take i ++ cur.drop (i + 1))
      else .error .indexError)
    l

/-- The unit retaliation loop of unit_attack_location. Returns `some r` when
the source hits an early `return r` and `none` when the loop runs to the end.
A collected enemy id that no longer resolves (the entity died in the damage
pass but, damage_unit never reporting a kill, was never removed from the hit
list) takes the `return False` branch. -/
def retaliate_units (attacking_unit_id : Nat) :
    List Nat → GameState → Except Exn (Option (Option Bool) × GameState)
  | [], s => .ok (none, s)
  | enemy_unit_id :: rest, s =>
    match s.get_unit_from_id enemy_unit_id with
    | none => .ok (some (some false), s)
    | some enemy_unit => do
      let (r, s') ← s.damage_unit attacking_unit_id enemy_unit.defense
      if truthy r then .ok (some (some true), s')
      else retaliate_units attacking_unit_id rest s'

/-- The building retaliation loop of unit_attack_location (same shape). -/
def retaliate_buildings (attacking_unit_id : Nat) :
    List Nat → GameState → Except Exn (Option (Option Bool) × GameState)
  | [], s => .ok (none, s)
  | enemy_building_id :: rest, s =>
    match s.get_building_from_id enemy_building_id with
    | none => .ok (some (some false), s)
    | some enemy_building => do
      let (r, s') ← s.damage_unit attacking_unit_id enemy_building.defense
      if truthy r then .ok (some (some true), s')
      else retaliate_buildings attacking_unit_id rest s'

/-- robot_controller.py: RobotController.unit_attack_location: collect every
enemy unit and building within the attacker's damage radius of (x, y),
consume one action, damage the collected targets, drop the reported kills
from the hit lists, then let the survivors retaliate in collection order. -/
def unit_attack_location (team : Team) (attacking_unit_id : Nat) (x y : Int)
    (s : GameState) : Except Exn (Option Bool × GameState) :=
  if ¬ can_unit_attack_location team attacking_unit_id x y s then .ok (some false, s)
  else
    let enemy_team := get_enemy_team team
    match s.get_unit_from_id attacking_unit_id with
    | none => .ok (some false, s)
    | some attacking_unit => do
      let opponent_units_hit : List Nat :=
        (avalues (s.units enemy_team)).filterMap (fun u =>
          if chebyshev_distance_valid u.x u.y x y attacking_unit.damage_range
          then some u.id else none)
      let opponent_buildings_hit : List Nat :=
        (avalues (s.buildings enemy_team)).filterMap (fun b =>
          if chebyshev_distance_valid b.x b.y x y attacking_unit.damage_range
          then some b.id else none)
      let s := s.mutate_unit attacking_unit_id (fun u =>
        { u with turn_actions_remaining := u.turn_actions_remaining - 1 })
      let (dead_units, s) ← damage_units_pass attacking_unit.damage opponent_units_hit s
      let opponent_units_hit ← del_indices dead_units opponent_units_hit
      let (dead_buildings, s) ←
        damage_buildings_pass attacking_unit.damage opponent_buildings_hit s
      let opponent_buildings_hit ← del_indices dead_buildings opponent_buildings_hit
      let (r1, s) ← retaliate_units attacking_unit_id opponent_units_hit s
      match r1 with
      | some res => pure (res, s)
      | none =>
        let (r2, s) ← retaliate_buildings attacking_unit_id opponent_buildings_hit s
        match r2 with
        | some res => pure (res, s)
        | none => pure (some true, s)

/-- robot_controller.py: RobotController.unit_attack_unit. -/
def unit_attack_unit (team : Team) (attacking_unit_id target_unit_id : Nat)
    (s : GameState) : Except Exn (Option Bool × GameState) :=
  if ¬ can_unit_attack_unit team attacking_unit_id target_unit_id s then .ok (some false, s)
  else
    match s.get_unit_from_id target_unit_id with
    | none => .ok (some false, s)
    | some target_unit => unit_attack_location team attacking_unit_id target_unit.x target_unit.y s

/-- robot_controller.py: RobotController.unit_attack_building. -/
def unit_attack_building (team : Team) (attacking_unit_id target_building_id : Nat)
    (s : GameState) : Except Exn (Option Bool × GameState) :=
  if ¬ can_unit_attack_building team attacking_unit_id target_building_id s then
    .ok (some false, s)
  else
    match s.get_building_from_id target_building_id with
    | none => .ok (some false, s)
    | some target_building =>
      unit_attack_location team attacking_unit_id target_building.x target_building.y s

/-- The damaging loop of building_attack_location: Python iterates over
`range(len(hit))` while deleting reported kills from `hit` in place, so a
read past the shrunken end raises IndexError (in practice damage_unit never
reports a kill, so no deletion ever happens). -/
def building_damage_pass (dmg : Int) (ids : List Nat) (s : GameState) :
    Except Exn (List Nat × GameState) :=
  (List.range ids.length).foldlM
    (fun (acc : List Nat × GameState) i => do
      if h : i < acc.1.length then
        let unit_id_hit := acc.1.get ⟨i, h⟩
        let (r, s') ← acc.2.damage_unit unit_id_hit dmg
        if truthy r then pure (acc.1.take i ++ acc.1.drop (i + 1), s')
        else pure (acc.1, s')
      else .error .indexError)
    (ids, s)

/-- robot_controller.py: RobotController.building_attack_location — only
enemy units are collected and damaged, and there is no retaliation. -/
def building_attack_location (team : Team) (attacking_building_id : Nat) (x y : Int)
    (s : GameState) : Except Exn (Option Bool × GameState) :=
  if ¬ can_building_attack_location team attacking_building_id x y s then
    .ok (some false, s)
  else
    let enemy_team := get_enemy_team team
    match s.get_building_from_id attacking_building_id with
    | none => .ok (some false, s)
    | some attacking_building => do
      let opponent_units_hit : List Nat :=
        (avalues (s.units enemy_team)).filterMap (fun u =>
          if chebyshev_distance_valid u.x u.y x y attacking_building.damage_range
          then some u.id else none)
      let s := s.mutate_building attacking_building_id (fun b =>
        { b with turn_actions_remaining := b.turn_actions_remaining - 1 })
      let (_, s) ← building_damage_pass attacking_building.damage opponent_units_hit s
      pure (some true, s)

/-- robot_controller.py: RobotController.building_attack_unit. -/
def building_attack_unit (team : Team) (attacking_building_id target_unit_id : Nat)
    (s : GameState) : Except Exn (Option Bool × GameState) :=
  if ¬ can_building_attack_unit team attacking_building_id target_unit_id s then
    .ok (some false, s)
  else
    match s.get_unit_from_id target_unit_id with
    | none => .ok (some false, s)
    | some target_unit =>
      building_attack_location team attacking_building_id target_unit.x target_unit.y s

/-- robot_controller.py: RobotController.new_location. -/
def new_location (x y : Int) (direction : Direction) : Int × Int :=
  (x + direction.dx, y + direction.dy)

/-- robot_controller.py: RobotController.can_move_unit_in_direction. -/
def can_move_unit_in_direction (team : Team) (unit_id : Nat) (direction : Direction)
    (s : GameState) : Bool :=
  if ¬ acontains (s.units team) unit_id then false
  else
    match s.get_unit_from_id unit_id with
    | none => false
    | some unit =>
      let (dest_x, dest_y) := new_location unit.x unit.y direction
      if ¬ s.map.in_bounds dest_x dest_y then false
      else
        let dest_tile := s.map.tileAt dest_x dest_y
        if ¬ unit.walkable_tiles.contains dest_tile then false
        else if (!(direction == .STAY)) && !(gridGet s.unit_placeable_map dest_x dest_y) then false
        else if unit.turn_movement_remaining - dest_tile.movement_cost < 0 then false
        else true

/-- robot_controller.py: RobotController.move_unit_in_direction. -/
def move_unit_in_direction (team : Team) (unit_id : Nat) (direction : Direction)
    (s : GameState) : Bool × GameState :=
  if ¬ can_move_unit_in_direction team unit_id direction s then (false, s)
  else
    match s.get_unit_from_id unit_id with
    | none => (false, s)
    | some unit =>
      let (dest_x, dest_y) := new_location unit.x unit.y direction
      let dest_tile := s.map.tileAt dest_x dest_y
      let s := s.mutate_unit unit_id (fun u =>
        { u with turn_movement_remaining := u.turn_movement_remaining - dest_tile.movement_cost })
      let s := { s with unit_placeable_map := gridSet s.unit_placeable_map unit.x unit.y true }
      let s := s.mutate_unit unit_id (fun u => { u with x := dest_x, y := dest_y })
      let s := { s with unit_placeable_map := gridSet s.unit_placeable_map dest_x dest_y false }
      (true, s)

/-- robot_controller.py: RobotController.can_explore. -/
def can_explore (team : Team) (explorer_unit_id explore_building_id : Nat)
    (s : GameState) : Bool :=
  if ¬ acontains (s.units team) explorer_unit_id then false
  else
    match s.get_unit_from_id explorer_unit_id with
    | none => false
    | some explorer =>
      if explorer.type ≠ .EXPLORER then false
      else
        match s.get_building_from_id explore_building_id with
        | none => false
        | some building =>
          if building.type ≠ .EXPLORER_BUILDING then false
          else if ¬ (explorer.x == building.x && explorer.y == building.y) then false
          else true

/-- `self.__game_state.balance[team] // 2` — Python floor division. -/
def floordiv2 (q : Rat) : Rat :=
  ((q / 2).floor : Int)

/-- robot_controller.py: RobotController.explore_for_gold. -/
def explore_for_gold (team : Team) (explorer_unit_id explore_building_id : Nat)
    (s : GameState) : Bool × GameState :=
  if ¬ can_explore team explorer_unit_id explore_building_id s then (false, s)
  else
    match disband_unit team explorer_unit_id s with
    | (false, s) => (false, s)
    | (true, s) => (true, s.setBalance team (s.balance team + floordiv2 (s.balance team)))

/-- robot_controller.py: RobotController.explore_for_health (the explorer is
disbanded before the target is validated, exactly as in the source). -/
def explore_for_health (team : Team) (explorer_unit_id explore_building_id target_unit_id : Nat)
    (s : GameState) : Bool × GameState :=
  if ¬ can_explore team explorer_unit_id explore_building_id s then (false, s)
  else
    match disband_unit team explorer_unit_id s with
    | (false, s) => (false, s)
    | (true, s) =>
      if ¬ acontains (s.units team) target_unit_id then (false, s)
      else
        match s.get_unit_from_id target_unit_id with
        | none => (false, s)
        | some _ =>
          (true, s.mutate_unit target_unit_id (fun u =>
            { u with health := ⌈(u.type.health : Rat) * (3 / 2)⌉ }))

/-- robot_controller.py: RobotController.explore_for_attack. -/
def explore_for_attack (team : Team) (explorer_unit_id explore_building_id target_unit_id : Nat)
    (s : GameState) : Bool × GameState :=
  if ¬ can_explore team explorer_unit_id explore_building_id s then (false, s)
  else
    match disband_unit team explorer_unit_id s with
    | (false, s) => (false, s)
    | (true, s) =>
      if ¬ acontains (s.units team) target_unit_id then (false, s)
      else
        match s.get_unit_from_id target_unit_id with
        | none => (false, s)
        | some _ =>
          (true, s.mutate_unit target_unit_id (fun u => { u with damage := u.damage + 2 }))

/-- robot_controller.py: RobotController.explore_for_defense. -/
def explore_for_defense (team : Team) (explorer_unit_id explore_building_id target_unit_id : Nat)
    (s : GameState) : Bool × GameState :=
  if ¬ can_explore team explorer_unit_id explore_building_id s then (false, s)
  else
    match disband_unit team explorer_unit_id s with
    | (false, s) => (false, s)
    | (true, s) =>
      if ¬ acontains (s.units team) target_unit_id then (false, s)
      else
        match s.get_unit_from_id target_unit_id with
        | none => (false, s)
        | some _ =>
          (true, s.mutate_unit target_unit_id (fun u => { u with defense := u.defense + 2 }))

/-- robot_controller.py: RobotController.can_build_bridge. -/
def can_build_bridge (team : Team) (engineer_id : Nat) (s : GameState) : Bool :=
  if ¬ acontains (s.units team) engineer_id then false
  else
    match s.get_unit_from_id engineer_id with
    | none => false
    | some engineer =>
      if engineer.type ≠ .ENGINEER then false
      else if ¬ s.map.is_tile_type engineer.x engineer.y .WATER then false
      else true

/-- robot_controller.py: RobotController.build_bridge. -/
def build_bridge (team : Team) (engineer_id : Nat) (s : GameState) : Bool × GameState :=
  if ¬ can_build_bridge team engineer_id s then (false, s)
  else
    match s.get_unit_from_id engineer_id with
    | none => (false, s)
    | some engineer =>
      let s := { s with map := s.map.setTile engineer.x engineer.y .BRIDGE }
      match disband_unit team engineer_id s with
      | (false, s) => (false, s)
      | (true, s) => (true, s)

/-- robot_controller.py: RobotController.can_heal_unit. After both ids
validate (the healer in the caller's team, the target in the ENEMY team —
that membership test is what the source performs), the source evaluates
`UnitType.LAND_HEALER`, an enum member that does not exist (the enum defines
LAND_HEALER_1/2/3 only), so Python raises AttributeError there; the
action-budget and range checks below that line are unreachable. -/
def can_heal_unit (team : Team) (healer_id target_unit_id : Nat) (s : GameState) :
    Except Exn Bool :=
  if ¬ acontains (s.units team) healer_id then .ok false
  else if ¬ acontains (s.units (get_enemy_team team)) target_unit_id then .ok false
  else
    match s.get_unit_from_id healer_id, s.get_unit_from_id target_unit_id with
    | none, _ => .ok false
    | _, none => .ok false
    | some _, some _ => .error .attributeError

/-- robot_controller.py: RobotController.heal_unit. It does NOT call
can_heal_unit; it repeats only the id checks, consumes one healer action and
sets the target's health to `max(type.health, health + heal_amount)` (the
max is the source's inverted clamp), then falls off the end returning None. -/
def heal_unit (team : Team) (healer_id target_unit_id : Nat) (s : GameState) :
    Option Bool × GameState :=
  if ¬ acontains (s.units team) healer_id then (some false, s)
  else if ¬ acontains (s.units (get_enemy_team team)) target_unit_id then (some false, s)
  else
    match s.get_unit_from_id healer_id, s.get_unit_from_id target_unit_id with
    | none, _ => (some false, s)
    | _, none => (some false, s)
    | some healer_unit, some _ =>
      let s := s.mutate_unit healer_id (fun u =>
        { u with turn_actions_remaining := u.turn_actions_remaining - 1 })
      let s := s.mutate_unit target_unit_id (fun u =>
        { u with health := max u.type.health (u.health + healer_unit.type.heal_amount) })
      (none, s)

end RobotController

/-! game.py: class Game — the turn scheduler. Only the decision logic is
modelled; rendering and replay-file output are out of scope. -/

/-- What the player's callback does when Game.call_player_code runs it:
either the `Thread(target=player.play_turn, ...)` construction itself raises
(e.g. the attribute does not exist) and is caught by the surrounding
try/except, or the callback runs on the spawned thread for `elapsed` seconds
and possibly raises inside that thread. -/
inductive CallbackRun where
  | attrError
  | runs (raisesDuringRun : Bool) (elapsed : Rat)
deriving DecidableEq, Repr

/-- game.py: Game.call_player_code, as a function of the callback's behavior
and the team's current time pool; returns (success, new time pool).
An exception raised inside the spawned thread is swallowed by Python's
threading machinery: `thread.join` returns normally and `thread.is_alive()`
is False, so a raising run is indistinguishable from a clean one of the same
duration. `join(pool)` waits at most `pool` seconds, so the measured
`func_time` is `min elapsed pool` and the thread is still alive afterwards
iff `elapsed > pool`. -/
def call_player_code (run : CallbackRun) (pool : Rat) : Bool × Rat :=
  match run with
  | .attrError => (false, pool)
  | .runs _ elapsed =>
    let func_time := if elapsed ≤ pool then elapsed else pool
    let is_alive := decide (elapsed > pool)
    if is_alive || decide (func_time > pool) then (false, 0)
    else (true, pool - func_time)

/-- The health of a team's main castle (read only on branches where the
castle is known to be present; 0 stands for the unreachable missing case). -/
def castle_health (s : GameState) (team : Team) : Int :=
  match alookup (s.buildings team) (s.main_castle_ids team) with
  | some b => b.health
  | none => 0

/-- A team's `total_balance` in Game.calculate_winner: ledger balance plus
archetype cost summed over living units and buildings. -/
def total_balance (s : GameState) (team : Team) : Rat :=
  s.balance team + ((avalues (s.units team)).map (fun u => u.type.cost)).sum
    + ((avalues (s.buildings team)).map (fun b => b.type.cost)).sum

/-- game.py: Game.calculate_winner (the replay bookkeeping is dropped). -/
def calculate_winner (s : GameState) : Team :=
  let blue_lose := ¬ acontains (s.buildings .BLUE) s.blue_main_castle_id
  let red_lose := ¬ acontains (s.buildings .RED) s.red_main_castle_id
  if blue_lose ∧ ¬ red_lose then .RED
  else if red_lose ∧ ¬ blue_lose then .BLUE
  else if ¬ blue_lose ∧ ¬ red_lose ∧ castle_health s .BLUE ≠ castle_health s .RED then
    (if castle_health s .BLUE > castle_health s .RED then Team.BLUE else Team.RED)
  else if total_balance s .BLUE > total_balance s .RED then .BLUE
  else if total_balance s .BLUE < total_balance s .RED then .RED
  else .RED

/-- game.py: the winner-deciding tail of Game.run_turn, as a function of the
two call_player_code success flags and the state after both calls: both
failed → cascade; exactly one failed → the other side wins immediately;
otherwise a missing main castle routes to the cascade, else the game goes
on (`none`). -/
def run_turn_outcome (blue_success red_success : Bool) (s : GameState) : Option Team :=
  if ¬ blue_success ∧ ¬ red_success then some (calculate_winner s)
  else if ¬ blue_success then some .RED
  else if ¬ red_success then some .BLUE
  else if ¬ acontains (s.buildings .BLUE) s.blue_main_castle_id
      ∨ ¬ acontains (s.buildings .RED) s.red_main_castle_id then
    some (calculate_winner s)
  else none

/-! The gateway operations named by the occupancy and id-uniqueness claims,
as one datatype, together with the state each one leaves behind (`none` when
the Python call would propagate an exception). -/

inductive GatewayOp where
  | spawn (ut : UnitType) (building_id : Nat)
  | build (bt : BuildingType) (x y : Int)
  | move (unit_id : Nat) (dir : Direction)
  | attackUnit (a t : Nat)
  | attackBuilding (a t : Nat)
  | attackLocation (a : Nat) (x y : Int)
  | bAttackUnit (a t : Nat)
  | bAttackLocation (a : Nat) (x y : Int)
  | sellU (uid : Nat)
  | sellB (bid : Nat)
  | disband (uid : Nat)
  | destroy (bid : Nat)
  | exploreGold (e b : Nat)
  | exploreHealth (e b t : Nat)
  | exploreAttack (e b t : Nat)
  | exploreDefense (e b t : Nat)
  | bridge (e : Nat)
deriving DecidableEq, Repr

/-- Run one gateway operation on behalf of `team`; `none` when the source
would propagate an exception out of the call (GameException from the sells,
IndexError from the hit-list deletions) rather than return. -/
def applyOp (team : Team) (op : GatewayOp) (s : GameState) : Option GameState :=
  match op with
  | .spawn ut bid => some (RobotController.spawn_unit team ut bid s).2
  | .build bt x y => some (RobotController.build_building team bt x y s).2
  | .move uid dir => some (RobotController.move_unit_in_direction team uid dir s).2
  | .attackUnit a t =>
    match RobotController.unit_attack_unit team a t s with
    | .ok p => some p.2
    | .error _ => none
  | .attackBuilding a t =>
    match RobotController.unit_attack_building team a t s with
    | .ok p => some p.2
    | .error _ => none
  | .attackLocation a x y =>
    match RobotController.unit_attack_location team a x y s with
    | .ok p => some p.2
    | .error _ => none
  | .bAttackUnit a t =>
    match RobotController.building_attack_unit team a t s with
    | .ok p => some p.2
    | .error _ => none
  | .bAttackLocation a x y =>
    match RobotController.building_attack_location team a x y s with
    | .ok p => some p.2
    | .error _ => none
  | .sellU uid =>
    match RobotController.sell_unit team uid s with
    | .ok p => some p.2
    | .error _ => none
  | .sellB bid =>
    match RobotController.sell_building team bid s with
    | .ok p => some p.2
    | .error _ => none
  | .disband uid => some (RobotController.disband_unit team uid s).2
  | .destroy bid => some (RobotController.destroy_building team bid s).2
  | .exploreGold e b => some (RobotController.explore_for_gold team e b s).2
  | .exploreHealth e b t => some (RobotController.explore_for_health team e b t s).2
  | .exploreAttack e b t => some (RobotController.explore_for_attack team e b t s).2
  | .exploreDefense e b t => some (RobotController.explore_for_defense team e b t s).2
  | .bridge e => some (RobotController.build_bridge team e s).2

/-! Quantities the invariants talk about. -/

/-- All living units, both teams. -/
def unitsAll (s : GameState) : List Unit' :=
  avalues s.units_blue ++ avalues s.units_red

/-- All living buildings, both teams. -/
def buildingsAll (s : GameState) : List Building :=
  avalues s.buildings_blue ++ avalues s.buildings_red

/-- The unit ids (dict keys) live in the registry, both teams. -/
def unitIds (s : GameState) : List Nat :=
  (s.units_blue ++ s.units_red).map Prod.fst

/-- The building ids (dict keys) live in the registry, both teams. -/
def buildingIds (s : GameState) : List Nat :=
  (s.buildings_blue ++ s.buildings_red).map Prod.fst

/-- How many living units stand on tile (x, y). -/
def unitCountAt (s : GameState) (x y : Int) : Nat :=
  (unitsAll s).countP (fun u => u.x == x && u.y == y)

/-- How many living buildings stand on tile (x, y). -/
def buildingCountAt (s : GameState) (x y : Int) : Nat :=
  (buildingsAll s).countP (fun b => b.x == x && b.y == y)

/-- The representation and occupancy invariant of a game state: the two
placeable grids have the map's dimensions, entity positions are in bounds,
dict keys are globally distinct, below the corresponding id counter and equal
to the stored entity's own id; the unit occupancy grid reflects the unit
registry exactly; the building occupancy grid reflects the building registry
exactly AWAY from the two castle tiles (the castles are inserted at game
start without marking their tiles, so no exact statement holds there). -/
structure StateWF (s : GameState) : Prop where
  ugrid_len : s.unit_placeable_map.length = s.map.width.toNat
  ugrid_rows : ∀ row ∈ s.unit_placeable_map, row.length = s.map.height.toNat
  bgrid_len : s.building_placeable_map.length = s.map.width.toNat
  bgrid_rows : ∀ row ∈ s.building_placeable_map, row.length = s.map.height.toNat
  upos_bounds : ∀ u ∈ unitsAll s, s.map.in_bounds u.x u.y = true
  bpos_bounds : ∀ b ∈ buildingsAll s, s.map.in_bounds b.x b.y = true
  ukeys_nodup : (unitIds s).Nodup
  bkeys_nodup : (buildingIds s).Nodup
  ukeys_lt : ∀ k ∈ unitIds s, k < s.unit_id_counter
  bkeys_lt : ∀ k ∈ buildingIds s, k < s.building_id_counter
  ukey_eq_id : ∀ p ∈ s.units_blue ++ s.units_red, Prod.fst p = (Prod.snd p).id
  bkey_eq_id : ∀ p ∈ s.buildings_blue ++ s.buildings_red, Prod.fst p = (Prod.snd p).id
  u_exact : ∀ i : Nat, i < s.map.width.toNat → ∀ j : Nat, j < s.map.height.toNat →
    (gridGet s.unit_placeable_map i j = false ↔ unitCountAt s i j = 1)
  u_atmost : ∀ i : Nat, i < s.map.width.toNat → ∀ j : Nat, j < s.map.height.toNat →
    unitCountAt s i j ≤ 1
  b_exact : ∀ i : Nat, i < s.map.width.toNat → ∀ j : Nat, j < s.map.height.toNat →
    ((i : Int), (j : Int)) ≠ s.map.blue_castle_loc →
    ((i : Int), (j : Int)) ≠ s.map.red_castle_loc →
    (gridGet s.building_placeable_map i j = false ↔ buildingCountAt s i j = 1)
  b_atmost : ∀ i : Nat, i < s.map.width.toNat → ∀ j : Nat, j < s.map.height.toNat →
    ((i : Int), (j : Int)) ≠ s.map.blue_castle_loc →
    ((i : Int), (j : Int)) ≠ s.map.red_castle_loc →
    buildingCountAt s i j ≤ 1

/-- How one engine step may evolve the id space: both allocation counters
only grow, and any id live afterwards was either live before or freshly
allocated at or above the old counter — together with key distinctness this
is what makes ids never reused within a game. -/
def IdEvo (s s' : GameState) : Prop :=
  s.unit_id_counter ≤ s'.unit_id_counter ∧
  s.building_id_counter ≤ s'.building_id_counter ∧
  (∀ k ∈ unitIds s', k ∈ unitIds s ∨ s.unit_id_counter ≤ k) ∧
  (∀ k ∈ buildingIds s', k ∈ buildingIds s ∨ s.building_id_counter ≤ k)

/-! Concrete test fixtures used by the counterexample and witness theorems. -/

/-- A 2×2 all-grass test map: blue castle at (0,0), red castle at (1,1). -/
def map2 : Map :=
  { width := 2
    height := 2
    tiles := [[.GRASS, .GRASS], [.GRASS, .GRASS]]
    blue_castle_loc := (0, 0)
    red_castle_loc := (1, 1) }

/-- The game state right after GameState.init on map2. -/
def s0 : GameState := GameState.init map2

/-- s0 plus a blue KNIGHT (unit id 0) at (0,1) and a red EXPLORER (unit id 1,
1 max health) at (1,0), after start_turn has granted the first turn's
budgets. -/
def sKill : GameState :=
  (((s0.place_unit .BLUE .KNIGHT 0 1 1).2).place_unit .RED .EXPLORER 1 0 1).2.start_turn

/-- s0 plus a blue LAND_HEALER_1 (unit id 0) at (0,1) and a red KNIGHT
(unit id 1) at (1,0) at its full health of 10, after start_turn. -/
def sHeal : GameState :=
  (((s0.place_unit .BLUE .LAND_HEALER_1 0 1 1).2).place_unit .RED .KNIGHT 1 0 1).2.start_turn

/-- s0 plus a lone blue KNIGHT (unit id 0) at (0,1), after start_turn. -/
def sLone : GameState :=
  ((s0.place_unit .BLUE .KNIGHT 0 1 1).2).start_turn

/-- The blue knight exactly as stored in sLone. -/
def loneKnight : Unit' :=
  { Unit'.create 0 .BLUE .KNIGHT 0 1 1 with
      turn_actions_remaining := 1
      turn_movement_remaining := 1 }

/-- s0 after blue builds a FARM_1 at (0, 1); the new farm has building id 2
and an action budget of 0. -/
def sFarm : GameState :=
  (RobotController.build_building .BLUE .FARM_1 0 1 s0).2

/-- s0 plus a just-placed blue KNIGHT (unit id 0) at (0,1), BEFORE any
start_turn: its budgets are still the creation-time zeros. -/
def sFresh : GameState :=
  (s0.place_unit .BLUE .KNIGHT 0 1 1).2

/-!
## Theorems

First some general helper lemmas (Rat arithmetic is opaque to the kernel, so
evaluations whose control flow crosses a balance comparison factor that
comparison out into a hypothesis discharged by norm_num), then the claim
theorems.
-/

/-- Unfolding lemma for a sell_building call that passes the health
threshold. -/
theorem sell_building_ok (s : GameState) (team : Team) (bid : Nat) (b : Building)
    (h : alookup (s.buildings team) bid = some b)
    (hh : ¬ ((b.health : Rat) < SELL_HEALTH_PERCENT * (b.type.health : Rat))) :
    RobotController.sell_building team bid s =
      .ok (true, (s.setBalance team
        (s.balance team + b.type.cost * UNIT_SELL_DISCOUNT)).delete_building team bid) := by
  unfold RobotController.sell_building GameState.sell_building
  rw [h]
  dsimp only
  rw [if_neg hh]

/-- Binding an ok value in the Except monad just applies the continuation. -/
theorem except_bind_ok {α β : Type} (a : α) (f : α → Except Exn β) :
    (Except.ok a >>= f) = f a := rfl

/-- The damage pass over an empty hit list does nothing. -/
theorem damage_units_pass_nil (d : Int) (s : GameState) :
    RobotController.damage_units_pass d [] s = .ok ([], s) := rfl

/-- The building damage pass over an empty hit list does nothing. -/
theorem damage_buildings_pass_nil (d : Int) (s : GameState) :
    RobotController.damage_buildings_pass d [] s = .ok ([], s) := rfl

/-- Deleting no indices returns the list unchanged. -/
theorem del_indices_nil (l : List Nat) :
    RobotController.del_indices [] l = .ok l := rfl

/-- Unit retaliation over an empty list falls through. -/
theorem retaliate_units_nil (a : Nat) (s : GameState) :
    RobotController.retaliate_units a [] s = .ok (none, s) := rfl

/-- Building retaliation over an empty list falls through. -/
theorem retaliate_buildings_nil (a : Nat) (s : GameState) :
    RobotController.retaliate_buildings a [] s = .ok (none, s) := rfl

/-- Looking a key up after mapping a function over the stored values. -/
theorem alookup_mapval {α β : Type} (l : List (Nat × α)) (k : Nat) (f : α → β) :
    alookup (l.map (fun p => (p.1, f p.2))) k = (alookup l k).map f := by
  induction l with
  | nil => rfl
  | cons p rest ih =>
    by_cases h : (p.1 == k) = true
    · rw [List.map_cons, alookup, alookup]
      simp only [if_pos h]
      rfl
    · rw [List.map_cons, alookup, alookup]
      simp only [if_neg h]
      exact ih

/-- start_turn rewrites each team's unit dict by the per-turn budget reset. -/
theorem start_turn_units (s : GameState) (team : Team) :
    (s.start_turn).units team = (s.units team).map (fun p =>
      (p.1, resetUnitBudgets p.2)) := by
  cases team <;> rfl

/-- start_turn rewrites each team's building dict by the action reset. -/
theorem start_turn_buildings (s : GameState) (team : Team) :
    (s.start_turn).buildings team = (s.buildings team).map (fun p =>
      (p.1, resetBuildingBudgets p.2)) := by
  cases team <;> rfl

/-- Every tile any unit archetype may walk on costs at least 1 movement. -/
theorem walkable_cost_pos :
    ∀ ut : UnitType, ∀ t ∈ ut.walkable_tiles, 1 ≤ t.movement_cost := by
  intro ut
  cases ut <;> decide

/-! ### Association-list and grid toolbox for the invariant proofs -/

/-- countP respects pointwise-equal predicates. -/
theorem countP_congr' {α : Type} {l : List α} {p q : α → Bool}
    (h : ∀ a ∈ l, p a = q a) : l.countP p = l.countP q := by
  induction l with
  | nil => rfl
  | cons a rest ih =>
    rw [List.countP_cons, List.countP_cons, h a (List.mem_cons_self a rest),
      ih (fun b hb => h b (List.mem_cons_of_mem a hb))]

/-- avalues of a cons. -/
theorem avalues_cons {α : Type} (q : Nat × α) (l : List (Nat × α)) :
    avalues (q :: l) = q.2 :: avalues l := rfl

/-- aupdate keeps the key list unchanged. -/
theorem aupdate_keys {α : Type} (l : List (Nat × α)) (k : Nat) (f : α → α) :
    (aupdate l k f).map Prod.fst = l.map Prod.fst := by
  induction l with
  | nil => rfl
  | cons p rest ih =>
    by_cases h : (p.1 == k) = true <;>
      simp only [aupdate, h, if_pos, if_neg, Bool.false_eq_true, if_false,
        List.map_cons, ih]

/-- aupdate does not change a countP over the values when the predicate is
blind to what f changes. -/
theorem aupdate_countP {α : Type} (l : List (Nat × α)) (k : Nat) (f : α → α)
    (p : α → Bool) (hp : ∀ a, p (f a) = p a) :
    (avalues (aupdate l k f)).countP p = (avalues l).countP p := by
  induction l with
  | nil => rfl
  | cons q rest ih =>
    by_cases h : (q.1 == k) = true
    · rw [aupdate, if_pos h, avalues_cons, avalues_cons, List.countP_cons,
        List.countP_cons, ih, hp]
    · rw [aupdate, if_neg h, avalues_cons, avalues_cons, List.countP_cons,
        List.countP_cons, ih]

/-- aupdate preserves membership of values up to f. -/
theorem mem_avalues_aupdate {α : Type} {l : List (Nat × α)} {k : Nat} {f : α → α}
    {v : α} (h : v ∈ avalues (aupdate l k f)) :
    v ∈ avalues l ∨ ∃ w ∈ avalues l, v = f w := by
  induction l with
  | nil => cases h
  | cons q rest ih =>
    by_cases hk : (q.1 == k) = true
    · rw [aupdate, if_pos hk, avalues_cons] at h
      rcases List.mem_cons.mp h with h | h
      · exact Or.inr ⟨q.2, List.mem_cons_self _ _, h⟩
      · rcases ih h with h' | ⟨w, hw, hw'⟩
        · exact Or.inl (List.mem_cons_of_mem _ h')
        · exact Or.inr ⟨w, List.mem_cons_of_mem _ hw, hw'⟩
    · rw [aupdate, if_neg hk, avalues_cons] at h
      rcases List.mem_cons.mp h with h | h
      · exact Or.inl (h ▸ List.mem_cons_self _ _)
      · rcases ih h with h' | ⟨w, hw, hw'⟩
        · exact Or.inl (List.mem_cons_of_mem _ h')
        · exact Or.inr ⟨w, List.mem_cons_of_mem _ hw, hw'⟩

/-- Looking up the updated key. -/
theorem alookup_aupdate_self {α : Type} (l : List (Nat × α)) (k : Nat) (f : α → α) :
    alookup (aupdate l k f) k = (alookup l k).map f := by
  induction l with
  | nil => rfl
  | cons q rest ih =>
    by_cases h : (q.1 == k) = true
    · rw [aupdate, if_pos h, alookup, if_pos h, alookup, if_pos h]
      rfl
    · rw [aupdate, if_neg h, alookup, if_neg h, alookup, if_neg h, ih]

/-- The values of an appended fresh entry. -/
theorem avalues_ainsert {α : Type} (l : List (Nat × α)) (k : Nat) (v : α) :
    avalues (ainsert l k v) = avalues l ++ [v] := by
  simp [avalues, ainsert]

/-- The keys of an appended fresh entry. -/
theorem keys_ainsert {α : Type} (l : List (Nat × α)) (k : Nat) (v : α) :
    (ainsert l k v).map Prod.fst = l.map Prod.fst ++ [k] := by
  simp [ainsert]

/-- A successful alookup exhibits the pair in the list. -/
theorem alookup_mem {α : Type} {l : List (Nat × α)} {k : Nat} {v : α}
    (h : alookup l k = some v) : (k, v) ∈ l := by
  induction l with
  | nil => cases h
  | cons q rest ih =>
    by_cases hk : (q.1 == k) = true
    · rw [alookup, if_pos hk] at h
      have h1 : q.1 = k := beq_iff_eq.mp hk
      have h2 : q.2 = v := Option.some.inj h
      have hq : (k, v) = q := by rw [← h1, ← h2]
      rw [hq]
      exact List.mem_cons_self _ _
    · rw [alookup, if_neg hk] at h
      exact List.mem_cons_of_mem _ (ih h)

/-- An alookup miss means the key is on no entry. -/
theorem alookup_none {α : Type} {l : List (Nat × α)} {k : Nat}
    (h : alookup l k = none) : ∀ q ∈ l, q.1 ≠ k := by
  induction l with
  | nil => intro q hq; cases hq
  | cons q rest ih =>
    by_cases hk : (q.1 == k) = true
    · rw [alookup, if_pos hk] at h
      cases h
    · rw [alookup, if_neg hk] at h
      intro a ha
      rcases List.mem_cons.mp ha with ha | ha
      · subst ha
        exact fun hEq => hk (beq_iff_eq.mpr hEq)
      · exact ih h a ha

/-- Erasing a key that a nodup-keyed list stores as value v removes exactly
that one value from any countP over the values. -/
theorem aerase_countP {α : Type} {l : List (Nat × α)} {k : Nat} {v : α}
    (p : α → Bool)
    (hnd : (l.map Prod.fst).Nodup) (hv : alookup l k = some v) :
    (avalues l).countP p
      = (avalues (aerase l k)).countP p + (if p v = true then 1 else 0) := by
  induction l with
  | nil => cases hv
  | cons q rest ih =>
    rw [List.map_cons, List.nodup_cons] at hnd
    by_cases h : (q.1 == k) = true
    · have hqk : q.1 = k := beq_iff_eq.mp h
      have hqv : q.2 = v := by
        rw [alookup, if_pos h] at hv
        exact Option.some.inj hv
      have hrest : aerase rest k = rest := by
        apply List.filter_eq_self.mpr
        intro a ha
        have hne : a.1 ≠ q.1 := by
          intro hEq
          exact hnd.1 (hEq ▸ List.mem_map_of_mem Prod.fst ha)
        have hak : a.1 ≠ k := fun hEq => hne (hEq.trans hqk.symm)
        simpa [bne_iff_ne] using hak
      have hq1 : (q.1 != k) = false := by simp [bne_iff_ne, hqk]
      have heq : aerase (q :: rest) k = rest := by
        rw [aerase, List.filter_cons, hq1]
        exact hrest
      rw [heq, avalues_cons, List.countP_cons, hqv]
    · have hv' : alookup rest k = some v := by
        rwa [alookup, if_neg h] at hv
      have hne : q.1 ≠ k := fun hEq => h (beq_iff_eq.mpr hEq)
      have hq1 : (q.1 != k) = true := bne_iff_ne.mpr hne
      have heq : aerase (q :: rest) k = q :: aerase rest k := by
        rw [aerase, List.filter_cons, hq1]
        rfl
      rw [heq, avalues_cons, avalues_cons, List.countP_cons, List.countP_cons,
        ih hnd.2 hv']
      ring

/-- The keys of an erased list form a sublist of the original keys. -/
theorem aerase_keys_sublist {α : Type} (l : List (Nat × α)) (k : Nat) :
    List.Sublist ((aerase l k).map Prod.fst) (l.map Prod.fst) :=
  List.Sublist.map Prod.fst (List.filter_sublist l)

/-- The values of an erased list form a sublist of the original values. -/
theorem aerase_values_sublist {α : Type} (l : List (Nat × α)) (k : Nat) :
    List.Sublist (avalues (aerase l k)) (avalues l) :=
  List.Sublist.map Prod.snd (List.filter_sublist l)

/-- getD of a just-set in-range index. -/
theorem getD_set_self {α : Type} (l : List α) (i : Nat) (a d : α)
    (h : i < l.length) : (l.set i a).getD i d = a := by
  rw [List.getD_eq_getElem?_getD, List.getElem?_set_self h]
  rfl

/-- getD of another index after a set. -/
theorem getD_set_ne {α : Type} (l : List α) (i j : Nat) (a d : α)
    (h : i ≠ j) : (l.set i a).getD j d = l.getD j d := by
  rw [List.getD_eq_getElem?_getD, List.getElem?_set_ne h,
    ← List.getD_eq_getElem?_getD]

/-- getD out of a replicate. -/
theorem getD_replicate' {α : Type} (n i : Nat) (a d : α) :
    (List.replicate n a).getD i d = if i < n then a else d := by
  rw [List.getD_eq_getElem?_getD, List.getElem?_replicate]
  by_cases h : i < n <;> simp [h]

/-- Setting a grid cell does not change the number of rows. -/
theorem gridSet_length (g : List (List Bool)) (x y : Int) (b : Bool) :
    (gridSet g x y b).length = g.length := by
  simp [gridSet]

/-- Every row of an updated grid keeps the uniform row length. -/
theorem gridSet_row_length (g : List (List Bool)) (x y : Int) (b : Bool) (n : Nat)
    (h : ∀ row ∈ g, row.length = n) :
    ∀ row ∈ gridSet g x y b, row.length = n := by
  intro row hrow
  unfold gridSet at hrow
  by_cases hl : x.toNat < g.length
  · rcases List.mem_or_eq_of_mem_set hrow with h1 | h1
    · exact h row h1
    · subst h1
      rw [List.length_set]
      have hget : g.getD x.toNat [] = g[x.toNat] := by
        rw [List.getD_eq_getElem?_getD, List.getElem?_eq_getElem hl]
        rfl
      rw [hget]
      exact h _ (List.getElem_mem hl)
  · rw [List.set_eq_of_length_le (by omega)] at hrow
    exact h row hrow

/-- Reading back the cell just set (both coordinates in range). -/
theorem gridGet_gridSet_self (g : List (List Bool)) (x y : Int) (b : Bool)
    (hlen : x.toNat < g.length)
    (hrow : y.toNat < (g.getD x.toNat []).length) :
    gridGet (gridSet g x y b) x y = b := by
  unfold gridGet gridSet
  rw [getD_set_self _ _ _ _ hlen, getD_set_self _ _ _ _ hrow]

/-- Reading any other cell after a set (cells compared as Nat indices). -/
theorem gridGet_gridSet_ne (g : List (List Bool)) (x y x' y' : Int) (b : Bool)
    (h : x'.toNat ≠ x.toNat ∨ y'.toNat ≠ y.toNat) :
    gridGet (gridSet g x y b) x' y' = gridGet g x' y' := by
  unfold gridGet gridSet
  by_cases hx : x'.toNat = x.toNat
  · have hy : y'.toNat ≠ y.toNat := by
      rcases h with h | h
      · exact absurd hx h
      · exact h
    rw [hx]
    by_cases hl : x.toNat < g.length
    · rw [getD_set_self _ _ _ _ hl, getD_set_ne _ _ _ _ _ (Ne.symm hy)]
    · rw [List.set_eq_of_length_le (by omega)]
  · rw [getD_set_ne _ _ _ _ _ (fun hEq => hx hEq.symm)]

/-- Every cell of the all-free grid reads True. -/
theorem gridGet_trueGrid (w h : Int) (x y : Int) :
    gridGet (trueGrid w h) x y = true := by
  unfold gridGet trueGrid
  rw [getD_replicate']
  by_cases hw : x.toNat < w.toNat
  · rw [if_pos hw, getD_replicate']
    by_cases hh : y.toNat < h.toNat
    · rw [if_pos hh]
    · rw [if_neg hh]
  · rw [if_neg hw]
    rfl

/-- Membership after an aupdate. -/
theorem mem_aupdate {α : Type} {l : List (Nat × α)} {k : Nat} {f : α → α}
    {p : Nat × α} (h : p ∈ aupdate l k f) :
    p ∈ l ∨ ∃ q ∈ l, p = (q.1, f q.2) := by
  induction l with
  | nil => cases h
  | cons q rest ih =>
    by_cases hk : (q.1 == k) = true
    · rw [aupdate, if_pos hk] at h
      rcases List.mem_cons.mp h with h | h
      · exact Or.inr ⟨q, List.mem_cons_self _ _, h⟩
      · rcases ih h with h' | ⟨r, hr, hr'⟩
        · exact Or.inl (List.mem_cons_of_mem _ h')
        · exact Or.inr ⟨r, List.mem_cons_of_mem _ hr, hr'⟩
    · rw [aupdate, if_neg hk] at h
      rcases List.mem_cons.mp h with h | h
      · exact Or.inl (by rw [h]; exact List.mem_cons_self _ _)
      · rcases ih h with h' | ⟨r, hr, hr'⟩
        · exact Or.inl (List.mem_cons_of_mem _ h')
        · exact Or.inr ⟨r, List.mem_cons_of_mem _ hr, hr'⟩

/-- in_bounds unpacked. -/
theorem in_bounds_iff (m : Map) (x y : Int) :
    m.in_bounds x y = true ↔ 0 ≤ x ∧ x < m.width ∧ 0 ≤ y ∧ y < m.height := by
  simp [Map.in_bounds, Bool.and_eq_true, decide_eq_true_eq, and_assoc]

/-- IdEvo is reflexive. -/
theorem idEvo_refl (s : GameState) : IdEvo s s :=
  ⟨Nat.le_refl _, Nat.le_refl _, fun k hk => Or.inl hk, fun k hk => Or.inl hk⟩

/-- IdEvo composes. -/
theorem idEvo_trans {s s₁ s₂ : GameState} (h1 : IdEvo s s₁) (h2 : IdEvo s₁ s₂) :
    IdEvo s s₂ := by
  obtain ⟨a1, b1, c1, d1⟩ := h1
  obtain ⟨a2, b2, c2, d2⟩ := h2
  refine ⟨Nat.le_trans a1 a2, Nat.le_trans b1 b2, ?_, ?_⟩
  · intro k hk
    rcases c2 k hk with h | h
    · exact c1 k h
    · exact Or.inr (Nat.le_trans a1 h)
  · intro k hk
    rcases d2 k hk with h | h
    · exact d1 k h
    · exact Or.inr (Nat.le_trans b1 h)

/-- IdEvo for a step that leaves ids and counters in place. -/
theorem idEvo_of_same {s s' : GameState}
    (h1 : unitIds s' = unitIds s) (h2 : buildingIds s' = buildingIds s)
    (h3 : s'.unit_id_counter = s.unit_id_counter)
    (h4 : s'.building_id_counter = s.building_id_counter) : IdEvo s s' := by
  refine ⟨Nat.le_of_eq h3.symm, Nat.le_of_eq h4.symm, ?_, ?_⟩
  · intro k hk
    exact Or.inl (h1 ▸ hk)
  · intro k hk
    exact Or.inl (h2 ▸ hk)

/-- Updating a stored blue unit in place, by a function that moves neither
the position nor the id, preserves the state invariant. -/
theorem wf_update_ub (s : GameState) (k : Nat) (f : Unit' → Unit')
    (hf : ∀ a, (f a).x = a.x ∧ (f a).y = a.y ∧ (f a).id = a.id)
    (h : StateWF s) :
    StateWF { s with units_blue := aupdate s.units_blue k f } ∧
    IdEvo s { s with units_blue := aupdate s.units_blue k f } := by
  have hp : ∀ (x y : Int) (a : Unit'),
      (((f a).x == x) && ((f a).y == y)) = ((a.x == x) && (a.y == y)) := by
    intro x y a
    rw [(hf a).1, (hf a).2.1]
  have hkeys : unitIds { s with units_blue := aupdate s.units_blue k f } = unitIds s := by
    unfold unitIds
    dsimp only
    rw [List.map_append, aupdate_keys, ← List.map_append]
  have hcnt : ∀ x y : Int,
      unitCountAt { s with units_blue := aupdate s.units_blue k f } x y
        = unitCountAt s x y := by
    intro x y
    unfold unitCountAt unitsAll
    dsimp only
    rw [List.countP_append, List.countP_append, aupdate_countP _ _ _ _ (hp x y)]
  refine ⟨⟨h.ugrid_len, h.ugrid_rows, h.bgrid_len, h.bgrid_rows, ?_, h.bpos_bounds,
      ?_, h.bkeys_nodup, ?_, h.bkeys_lt, ?_, h.bkey_eq_id, ?_, ?_, h.b_exact,
      h.b_atmost⟩, ?_⟩
  · intro u hu
    rcases List.mem_append.mp hu with hu | hu
    · rcases mem_avalues_aupdate hu with hu' | ⟨w, hw, hw'⟩
      · exact h.upos_bounds u (List.mem_append_left _ hu')
      · have hb := h.upos_bounds w (List.mem_append_left _ hw)
        rw [hw']
        show s.map.in_bounds (f w).x (f w).y = true
        rw [(hf w).1, (hf w).2.1]
        exact hb
    · exact h.upos_bounds u (List.mem_append_right _ hu)
  · rw [hkeys]
    exact h.ukeys_nodup
  · rw [hkeys]
    exact h.ukeys_lt
  · intro p hp'
    rcases List.mem_append.mp hp' with hp' | hp'
    · rcases mem_aupdate hp' with hp'' | ⟨q, hq, hq'⟩
      · exact h.ukey_eq_id p (List.mem_append_left _ hp'')
      · rw [hq']
        show q.1 = (f q.2).id
        rw [(hf q.2).2.2]
        exact h.ukey_eq_id q (List.mem_append_left _ hq)
    · exact h.ukey_eq_id p (List.mem_append_right _ hp')
  · intro i hi j hj
    rw [hcnt]
    exact h.u_exact i hi j hj
  · intro i hi j hj
    rw [hcnt]
    exact h.u_atmost i hi j hj
  · exact idEvo_of_same hkeys rfl rfl rfl

/-- The red-team counterpart of wf_update_ub. -/
theorem wf_update_ur (s : GameState) (k : Nat) (f : Unit' → Unit')
    (hf : ∀ a, (f a).x = a.x ∧ (f a).y = a.y ∧ (f a).id = a.id)
    (h : StateWF s) :
    StateWF { s with units_red := aupdate s.units_red k f } ∧
    IdEvo s { s with units_red := aupdate s.units_red k f } := by
  have hp : ∀ (x y : Int) (a : Unit'),
      (((f a).x == x) && ((f a).y == y)) = ((a.x == x) && (a.y == y)) := by
    intro x y a
    rw [(hf a).1, (hf a).2.1]
  have hkeys : unitIds { s with units_red := aupdate s.units_red k f } = unitIds s := by
    unfold unitIds
    dsimp only
    rw [List.map_append, List.map_append, aupdate_keys]
  have hcnt : ∀ x y : Int,
      unitCountAt { s with units_red := aupdate s.units_red k f } x y
        = unitCountAt s x y := by
    intro x y
    unfold unitCountAt unitsAll
    dsimp only
    rw [List.countP_append, List.countP_append, aupdate_countP _ _ _ _ (hp x y)]
  refine ⟨⟨h.ugrid_len, h.ugrid_rows, h.bgrid_len, h.bgrid_rows, ?_, h.bpos_bounds,
      ?_, h.bkeys_nodup, ?_, h.bkeys_lt, ?_, h.bkey_eq_id, ?_, ?_, h.b_exact,
      h.b_atmost⟩, ?_⟩
  · intro u hu
    rcases List.mem_append.mp hu with hu | hu
    · exact h.upos_bounds u (List.mem_append_left _ hu)
    · rcases mem_avalues_aupdate hu with hu' | ⟨w, hw, hw'⟩
      · exact h.upos_bounds u (List.mem_append_right _ hu')
      · have hb := h.upos_bounds w (List.mem_append_right _ hw)
        rw [hw']
        show s.map.in_bounds (f w).x (f w).y = true
        rw [(hf w).1, (hf w).2.1]
        exact hb
  · rw [hkeys]
    exact h.ukeys_nodup
  · rw [hkeys]
    exact h.ukeys_lt
  · intro p hp'
    rcases List.mem_append.mp hp' with hp' | hp'
    · exact h.ukey_eq_id p (List.mem_append_left _ hp')
    · rcases mem_aupdate hp' with hp'' | ⟨q, hq, hq'⟩
      · exact h.ukey_eq_id p (List.mem_append_right _ hp'')
      · rw [hq']
        show q.1 = (f q.2).id
        rw [(hf q.2).2.2]
        exact h.ukey_eq_id q (List.mem_append_right _ hq)
  · intro i hi j hj
    rw [hcnt]
    exact h.u_exact i hi j hj
  · intro i hi j hj
    rw [hcnt]
    exact h.u_atmost i hi j hj
  · exact idEvo_of_same hkeys rfl rfl rfl

/-- The row a valid index selects in a uniform grid has the uniform length. -/
theorem grid_row_len (g : List (List Bool)) (n m : Nat) (i : Nat)
    (hlen : g.length = n) (hrows : ∀ row ∈ g, row.length = m) (hi : i < n) :
    (g.getD i []).length = m := by
  have hlt : i < g.length := by omega
  have hget : g.getD i [] = g[i] := by
    rw [List.getD_eq_getElem?_getD, List.getElem?_eq_getElem hlt]
    rfl
  rw [hget]
  exact hrows _ (List.getElem_mem hlt)

/-- The core argument for deleting one unit: a state that differs from a
well-formed one by freeing the deleted unit's grid cell and dropping exactly
that unit (a subset of pairs, one less in every tile count at its tile)
is well-formed again. -/
theorem wf_delete_unit_general (s s' : GameState) (u : Unit')
    (hmap : s'.map = s.map)
    (hug : s'.unit_placeable_map = gridSet s.unit_placeable_map u.x u.y true)
    (hbg : s'.building_placeable_map = s.building_placeable_map)
    (hbb : s'.buildings_blue = s.buildings_blue)
    (hbr : s'.buildings_red = s.buildings_red)
    (huc : s'.unit_id_counter = s.unit_id_counter)
    (hbc : s'.building_id_counter = s.building_id_counter)
    (hids : List.Sublist (unitIds s') (unitIds s))
    (hpairs : ∀ p ∈ s'.units_blue ++ s'.units_red, p ∈ s.units_blue ++ s.units_red)
    (hcnt : ∀ x y : Int, unitCountAt s x y
      = unitCountAt s' x y + (if ((u.x == x) && (u.y == y)) = true then 1 else 0))
    (humem : u ∈ unitsAll s)
    (h : StateWF s) :
    StateWF s' ∧ IdEvo s s' := by
  have hball : buildingsAll s' = buildingsAll s := by
    unfold buildingsAll
    rw [hbb, hbr]
  have hbids : buildingIds s' = buildingIds s := by
    unfold buildingIds
    rw [hbb, hbr]
  have hbcnt : ∀ x y : Int, buildingCountAt s' x y = buildingCountAt s x y := by
    intro x y
    unfold buildingCountAt
    rw [hball]
  have hvals : ∀ v ∈ unitsAll s', v ∈ unitsAll s := by
    intro v hv
    unfold unitsAll avalues at hv ⊢
    rw [← List.map_append] at hv ⊢
    rcases List.mem_map.mp hv with ⟨p, hp, hpv⟩
    exact List.mem_map.mpr ⟨p, hpairs p hp, hpv⟩
  have hub := h.upos_bounds u humem
  rw [in_bounds_iff] at hub
  obtain ⟨hx0, hxw, hy0, hyh⟩ := hub
  refine ⟨⟨?_, ?_, ?_, ?_, ?_, ?_, ?_, ?_, ?_, ?_, ?_, ?_, ?_, ?_, ?_, ?_⟩, ?_⟩
  · rw [hug, hmap, gridSet_length]
    exact h.ugrid_len
  · rw [hug, hmap]
    exact gridSet_row_length _ u.x u.y true _ h.ugrid_rows
  · rw [hbg, hmap]
    exact h.bgrid_len
  · rw [hbg, hmap]
    exact h.bgrid_rows
  · intro v hv
    rw [hmap]
    exact h.upos_bounds v (hvals v hv)
  · intro b hb
    rw [hmap]
    rw [hball] at hb
    exact h.bpos_bounds b hb
  · exact List.Nodup.sublist hids h.ukeys_nodup
  · rw [hbids]
    exact h.bkeys_nodup
  · intro k hk
    rw [huc]
    exact h.ukeys_lt k (hids.subset hk)
  · intro k hk
    rw [hbids] at hk
    rw [hbc]
    exact h.bkeys_lt k hk
  · intro p hp
    exact h.ukey_eq_id p (hpairs p hp)
  · intro p hp
    rw [hbb, hbr] at hp
    exact h.bkey_eq_id p hp
  · intro i hi j hj
    rw [hmap] at hi hj
    by_cases hxy : ((i : Int) = u.x ∧ (j : Int) = u.y)
    · obtain ⟨hix, hjy⟩ := hxy
      have hgt : gridGet s'.unit_placeable_map i j = true := by
        rw [hug, hix, hjy]
        refine gridGet_gridSet_self _ _ _ _ ?_ ?_
        · rw [h.ugrid_len]
          omega
        · rw [grid_row_len _ _ _ _ h.ugrid_len h.ugrid_rows (by omega)]
          omega
      have hpos : 0 < unitCountAt s i j := by
        apply List.countP_pos_iff.mpr
        refine ⟨u, humem, ?_⟩
        simp [← hix, ← hjy]
      have hone : unitCountAt s i j = 1 := by
        have := h.u_atmost i hi j hj
        omega
      have hite : (if ((u.x == (i : Int)) && (u.y == (j : Int))) = true then 1 else 0)
          = 1 := by
        simp [← hix, ← hjy]
      have hzero : unitCountAt s' i j = 0 := by
        have := hcnt i j
        omega
      rw [hgt, hzero]
      simp
    · have hne : ((i : Int)).toNat ≠ (u.x).toNat ∨ ((j : Int)).toNat ≠ (u.y).toNat := by
        by_cases hxx : (i : Int) = u.x
        · refine Or.inr ?_
          have hyy : (j : Int) ≠ u.y := fun hEq => hxy ⟨hxx, hEq⟩
          omega
        · refine Or.inl ?_
          omega
      have hgeq : gridGet s'.unit_placeable_map i j = gridGet s.unit_placeable_map i j := by
        rw [hug]
        exact gridGet_gridSet_ne _ u.x u.y i j true hne
      have hite : (if ((u.x == (i : Int)) && (u.y == (j : Int))) = true then 1 else 0)
          = 0 := by
        have : ¬ (((u.x == (i : Int)) && (u.y == (j : Int))) = true) := by
          intro hT
          simp only [Bool.and_eq_true, beq_iff_eq] at hT
          exact hxy ⟨hT.1.symm, hT.2.symm⟩
        rw [if_neg this]
      have hceq : unitCountAt s' i j = unitCountAt s i j := by
        have := hcnt i j
        omega
      rw [hgeq, hceq]
      exact h.u_exact i hi j hj
  · intro i hi j hj
    rw [hmap] at hi hj
    have := hcnt i j
    have := h.u_atmost i hi j hj
    omega
  · intro i hi j hj hcb hcr
    rw [hmap] at hi hj hcb hcr
    rw [hbg, hbcnt]
    exact h.b_exact i hi j hj hcb hcr
  · intro i hi j hj hcb hcr
    rw [hmap] at hi hj hcb hcr
    rw [hbcnt]
    exact h.b_atmost i hi j hj hcb hcr
  · exact ⟨Nat.le_of_eq huc.symm, Nat.le_of_eq hbc.symm,
      fun k hk => Or.inl (hids.subset hk),
      fun k hk => Or.inl (hbids ▸ hk)⟩

/-- Deleting a unit preserves the state invariant. -/
theorem wf_delete_unit (s : GameState) (team : Team) (k : Nat)
    (h : StateWF s) :
    StateWF (s.delete_unit team k) ∧ IdEvo s (s.delete_unit team k) := by
  have hnd : ((s.units_blue.map Prod.fst).Nodup ∧ (s.units_red.map Prod.fst).Nodup) := by
    have := h.ukeys_nodup
    unfold unitIds at this
    rw [List.map_append] at this
    exact ⟨(List.nodup_append.mp this).1, (List.nodup_append.mp this).2.1⟩
  unfold GameState.delete_unit
  cases team
  case BLUE =>
    cases hu : alookup (s.units Team.BLUE) k with
    | none => exact ⟨h, idEvo_refl s⟩
    | some u =>
      have hu' : alookup s.units_blue k = some u := hu
      have humem : u ∈ unitsAll s := by
        apply List.mem_append_left
        exact List.mem_map.mpr ⟨(k, u), alookup_mem hu', rfl⟩
      show StateWF { s with unit_placeable_map := gridSet s.unit_placeable_map u.x u.y true,
                            units_blue := aerase s.units_blue k } ∧
        IdEvo s { s with unit_placeable_map := gridSet s.unit_placeable_map u.x u.y true,
                         units_blue := aerase s.units_blue k }
      apply wf_delete_unit_general s
        { s with unit_placeable_map := gridSet s.unit_placeable_map u.x u.y true,
                 units_blue := aerase s.units_blue k } u rfl rfl rfl rfl rfl rfl rfl
        ?_ ?_ ?_ humem h
      · show List.Sublist ((aerase s.units_blue k ++ s.units_red).map Prod.fst)
          ((s.units_blue ++ s.units_red).map Prod.fst)
        rw [List.map_append, List.map_append]
        exact List.Sublist.append_right (aerase_keys_sublist _ _) _
      · intro p hp
        rcases List.mem_append.mp hp with hp | hp
        · exact List.mem_append_left _ (List.mem_of_mem_filter hp)
        · exact List.mem_append_right _ hp
      · intro x y
        show (avalues (s.units_blue) ++ avalues (s.units_red)).countP _
          = (avalues (aerase s.units_blue k) ++ avalues (s.units_red)).countP _ + _
        rw [List.countP_append, List.countP_append,
          aerase_countP _ hnd.1 hu']
        ring
  case RED =>
    cases hu : alookup (s.units Team.RED) k with
    | none => exact ⟨h, idEvo_refl s⟩
    | some u =>
      have hu' : alookup s.units_red k = some u := hu
      have humem : u ∈ unitsAll s := by
        apply List.mem_append_right
        exact List.mem_map.mpr ⟨(k, u), alookup_mem hu', rfl⟩
      show StateWF { s with unit_placeable_map := gridSet s.unit_placeable_map u.x u.y true,
                            units_red := aerase s.units_red k } ∧
        IdEvo s { s with unit_placeable_map := gridSet s.unit_placeable_map u.x u.y true,
                         units_red := aerase s.units_red k }
      apply wf_delete_unit_general s
        { s with unit_placeable_map := gridSet s.unit_placeable_map u.x u.y true,
                 units_red := aerase s.units_red k } u rfl rfl rfl rfl rfl rfl rfl
        ?_ ?_ ?_ humem h
      · show List.Sublist ((s.units_blue ++ aerase s.units_red k).map Prod.fst)
          ((s.units_blue ++ s.units_red).map Prod.fst)
        rw [List.map_append, List.map_append]
        exact List.Sublist.append_left (aerase_keys_sublist _ _) _
      · intro p hp
        rcases List.mem_append.mp hp with hp | hp
        · exact List.mem_append_left _ hp
        · exact List.mem_append_right _ (List.mem_of_mem_filter hp)
      · intro x y
        show (avalues (s.units_blue) ++ avalues (s.units_red)).countP _
          = (avalues (s.units_blue) ++ avalues (aerase s.units_red k)).countP _ + _
        rw [List.countP_append, List.countP_append,
          aerase_countP _ hnd.2 hu']
        ring

/-- The core argument for inserting one freshly created unit on a free,
in-bounds tile: marking the tile and appending the unit (whose id is the
current counter, with the counter bumped) is well-formed again. -/
theorem wf_insert_unit_general (s s' : GameState) (v : Unit')
    (hmap : s'.map = s.map)
    (hug : s'.unit_placeable_map = gridSet s.unit_placeable_map v.x v.y false)
    (hbg : s'.building_placeable_map = s.building_placeable_map)
    (hbb : s'.buildings_blue = s.buildings_blue)
    (hbr : s'.buildings_red = s.buildings_red)
    (huc : s'.unit_id_counter = s.unit_id_counter + 1)
    (hbc : s'.building_id_counter = s.building_id_counter)
    (hvid : v.id = s.unit_id_counter)
    (hperm : List.Perm (unitIds s') (v.id :: unitIds s))
    (hpairs : ∀ p ∈ s'.units_blue ++ s'.units_red,
      p ∈ s.units_blue ++ s.units_red ∨ p = (v.id, v))
    (hcnt : ∀ a b : Int, unitCountAt s' a b
      = unitCountAt s a b + (if ((v.x == a) && (v.y == b)) = true then 1 else 0))
    (hfree : gridGet s.unit_placeable_map v.x v.y = true)
    (hbounds : s.map.in_bounds v.x v.y = true)
    (h : StateWF s) :
    StateWF s' ∧ IdEvo s s' := by
  have hball : buildingsAll s' = buildingsAll s := by
    unfold buildingsAll
    rw [hbb, hbr]
  have hbids : buildingIds s' = buildingIds s := by
    unfold buildingIds
    rw [hbb, hbr]
  have hbcnt : ∀ a b : Int, buildingCountAt s' a b = buildingCountAt s a b := by
    intro a b
    unfold buildingCountAt
    rw [hball]
  have hvals : ∀ w ∈ unitsAll s', w ∈ unitsAll s ∨ w = v := by
    intro w hw
    unfold unitsAll avalues at hw ⊢
    rw [← List.map_append] at hw ⊢
    rcases List.mem_map.mp hw with ⟨p, hp, hpv⟩
    rcases hpairs p hp with hp' | hp'
    · exact Or.inl (List.mem_map.mpr ⟨p, hp', hpv⟩)
    · right
      rw [← hpv, hp']
  have hvb := hbounds
  rw [in_bounds_iff] at hvb
  obtain ⟨hx0, hxw, hy0, hyh⟩ := hvb
  have hnotmem : v.id ∉ unitIds s := by
    intro hmem
    have := h.ukeys_lt v.id hmem
    omega
  refine ⟨⟨?_, ?_, ?_, ?_, ?_, ?_, ?_, ?_, ?_, ?_, ?_, ?_, ?_, ?_, ?_, ?_⟩, ?_⟩
  · rw [hug, hmap, gridSet_length]
    exact h.ugrid_len
  · rw [hug, hmap]
    exact gridSet_row_length _ v.x v.y false _ h.ugrid_rows
  · rw [hbg, hmap]
    exact h.bgrid_len
  · rw [hbg, hmap]
    exact h.bgrid_rows
  · intro w hw
    rw [hmap]
    rcases hvals w hw with hw' | hw'
    · exact h.upos_bounds w hw'
    · rw [hw']
      exact hbounds
  · intro b hb
    rw [hmap]
    rw [hball] at hb
    exact h.bpos_bounds b hb
  · rw [List.Perm.nodup_iff hperm]
    exact List.nodup_cons.mpr ⟨hnotmem, h.ukeys_nodup⟩
  · rw [hbids]
    exact h.bkeys_nodup
  · intro k hk
    rw [huc]
    rcases List.mem_cons.mp ((List.Perm.mem_iff hperm).mp hk) with hk' | hk'
    · omega
    · have := h.ukeys_lt k hk'
      omega
  · intro k hk
    rw [hbids] at hk
    rw [hbc]
    exact h.bkeys_lt k hk
  · intro p hp
    rcases hpairs p hp with hp' | hp'
    · exact h.ukey_eq_id p hp'
    · rw [hp']
  · intro p hp
    rw [hbb, hbr] at hp
    exact h.bkey_eq_id p hp
  · intro i hi j hj
    rw [hmap] at hi hj
    by_cases hxy : ((i : Int) = v.x ∧ (j : Int) = v.y)
    · obtain ⟨hix, hjy⟩ := hxy
      have hgf : gridGet s'.unit_placeable_map i j = false := by
        rw [hug, hix, hjy]
        refine gridGet_gridSet_self _ _ _ _ ?_ ?_
        · rw [h.ugrid_len]
          omega
        · rw [grid_row_len _ _ _ _ h.ugrid_len h.ugrid_rows (by omega)]
          omega
      have hzero : unitCountAt s i j = 0 := by
        have hiff := h.u_exact i hi j hj
        have hle := h.u_atmost i hi j hj
        rw [hix, hjy] at hiff hle ⊢
        have : ¬ (gridGet s.unit_placeable_map v.x v.y = false) := by
          rw [hfree]
          simp
        have : ¬ (unitCountAt s v.x v.y = 1) := fun hc => this (hiff.mpr hc)
        omega
      have hone : unitCountAt s' i j = 1 := by
        have := hcnt i j
        rw [hix, hjy] at this ⊢
        simp only [beq_self_eq_true, Bool.and_self, if_pos] at this
        rw [hix, hjy] at hzero
        omega
      rw [hgf, hone]
      simp
    · have hne : ((i : Int)).toNat ≠ (v.x).toNat ∨ ((j : Int)).toNat ≠ (v.y).toNat := by
        by_cases hxx : (i : Int) = v.x
        · refine Or.inr ?_
          have hyy : (j : Int) ≠ v.y := fun hEq => hxy ⟨hxx, hEq⟩
          omega
        · exact Or.inl (by omega)
      have hgeq : gridGet s'.unit_placeable_map i j = gridGet s.unit_placeable_map i j := by
        rw [hug]
        exact gridGet_gridSet_ne _ v.x v.y i j false hne
      have hite : (if ((v.x == (i : Int)) && (v.y == (j : Int))) = true then 1 else 0)
          = 0 := by
        have : ¬ (((v.x == (i : Int)) && (v.y == (j : Int))) = true) := by
          intro hT
          simp only [Bool.and_eq_true, beq_iff_eq] at hT
          exact hxy ⟨hT.1.symm, hT.2.symm⟩
        rw [if_neg this]
      have hceq : unitCountAt s' i j = unitCountAt s i j := by
        have := hcnt i j
        omega
      rw [hgeq, hceq]
      exact h.u_exact i hi j hj
  · intro i hi j hj
    rw [hmap] at hi hj
    have hle := h.u_atmost i hi j hj
    have hiff := h.u_exact i hi j hj
    have := hcnt i j
    by_cases hxy : (((v.x == (i : Int)) && (v.y == (j : Int))) = true)
    · have hxi : v.x = (i : Int) := by
        simp only [Bool.and_eq_true, beq_iff_eq] at hxy
        exact hxy.1
      have hyj : v.y = (j : Int) := by
        simp only [Bool.and_eq_true, beq_iff_eq] at hxy
        exact hxy.2
      have hzero : unitCountAt s i j = 0 := by
        have hnot : ¬ (gridGet s.unit_placeable_map i j = false) := by
          rw [← hxi, ← hyj, hfree]
          simp
        have : ¬ (unitCountAt s i j = 1) := fun hc => hnot (hiff.mpr hc)
        omega
      simp only [hxy, if_pos] at this
      omega
    · rw [if_neg hxy] at this
      omega
  · intro i hi j hj hcb hcr
    rw [hmap] at hi hj hcb hcr
    rw [hbg, hbcnt]
    exact h.b_exact i hi j hj hcb hcr
  · intro i hi j hj hcb hcr
    rw [hmap] at hi hj hcb hcr
    rw [hbcnt]
    exact h.b_atmost i hi j hj hcb hcr
  · refine ⟨by omega, Nat.le_of_eq hbc.symm, ?_, fun k hk => Or.inl (hbids ▸ hk)⟩
    intro k hk
    rcases List.mem_cons.mp ((List.Perm.mem_iff hperm).mp hk) with hk' | hk'
    · exact Or.inr (by omega)
    · exact Or.inl hk'

/-- What a passing is_unit_placeable check guarantees. -/
theorem is_unit_placeable_facts (s : GameState) (ut : UnitType) (x y : Int)
    (hg : s.is_unit_placeable ut x y = true) :
    s.map.in_bounds x y = true ∧ gridGet s.unit_placeable_map x y = true := by
  unfold GameState.is_unit_placeable at hg
  by_cases h1 : s.map.in_bounds x y = true
  · by_cases h2 : gridGet s.unit_placeable_map x y = true
    · exact ⟨h1, h2⟩
    · simp [h1, h2] at hg
  · simp [h1] at hg

/-- What a passing is_building_placeable check guarantees. -/
theorem is_building_placeable_facts (s : GameState) (bt : BuildingType) (x y : Int)
    (hg : s.is_building_placeable bt x y = true) :
    s.map.in_bounds x y = true ∧ gridGet s.building_placeable_map x y = true := by
  unfold GameState.is_building_placeable at hg
  by_cases h1 : s.map.in_bounds x y = true
  · by_cases h2 : gridGet s.building_placeable_map x y = true
    · exact ⟨h1, h2⟩
    · simp [h1, h2] at hg
  · simp [h1] at hg

/-- place_unit preserves the state invariant and allocates fresh ids only. -/
theorem wf_place_unit (s : GameState) (team : Team) (ut : UnitType) (x y level : Int)
    (h : StateWF s) :
    StateWF (s.place_unit team ut x y level).2 ∧
    IdEvo s (s.place_unit team ut x y level).2 := by
  unfold GameState.place_unit
  by_cases hg : s.is_unit_placeable ut x y = true
  case neg =>
    rw [if_pos (by simp [hg])]
    exact ⟨h, idEvo_refl s⟩
  case pos =>
    rw [if_neg (by simp [hg])]
    obtain ⟨hbounds, hfree⟩ := is_unit_placeable_facts s ut x y hg
    cases team
    case BLUE =>
      show StateWF { s with
                     unit_id_counter := s.unit_id_counter + 1,
                     units_blue := ainsert s.units_blue s.unit_id_counter
                       (Unit'.create s.unit_id_counter .BLUE ut x y level),
                     unit_placeable_map := gridSet s.unit_placeable_map x y false } ∧
        IdEvo s { s with
                  unit_id_counter := s.unit_id_counter + 1,
                  units_blue := ainsert s.units_blue s.unit_id_counter
                    (Unit'.create s.unit_id_counter .BLUE ut x y level),
                  unit_placeable_map := gridSet s.unit_placeable_map x y false }
      apply wf_insert_unit_general s
        { s with
          unit_id_counter := s.unit_id_counter + 1,
          units_blue := ainsert s.units_blue s.unit_id_counter
            (Unit'.create s.unit_id_counter .BLUE ut x y level),
          unit_placeable_map := gridSet s.unit_placeable_map x y false }
        (Unit'.create s.unit_id_counter .BLUE ut x y level)
        rfl rfl rfl rfl rfl rfl rfl rfl ?_ ?_ ?_ hfree hbounds h
      · show List.Perm (((s.units_blue ++ [(s.unit_id_counter,
            Unit'.create s.unit_id_counter .BLUE ut x y level)]) ++ s.units_red).map Prod.fst)
          (s.unit_id_counter :: (s.units_blue ++ s.units_red).map Prod.fst)
        rw [List.map_append, List.map_append, List.map_append]
        exact List.Perm.append_right _ (List.perm_append_singleton _ _)
      · intro p hp
        rcases List.mem_append.mp hp with hp | hp
        · rcases List.mem_append.mp hp with hp | hp
          · exact Or.inl (List.mem_append_left _ hp)
          · rcases List.mem_singleton.mp hp with rfl
            exact Or.inr rfl
        · exact Or.inl (List.mem_append_right _ hp)
      · intro a b
        show ((avalues (s.units_blue ++ [(s.unit_id_counter,
            Unit'.create s.unit_id_counter .BLUE ut x y level)])) ++ avalues s.units_red).countP _
          = ((avalues s.units_blue) ++ avalues s.units_red).countP _ + _
        unfold avalues
        rw [List.map_append, List.countP_append, List.countP_append, List.countP_append,
          List.map_singleton, List.countP_singleton]
        ring
    case RED =>
      show StateWF { s with
                     unit_id_counter := s.unit_id_counter + 1,
                     units_red := ainsert s.units_red s.unit_id_counter
                       (Unit'.create s.unit_id_counter .RED ut x y level),
                     unit_placeable_map := gridSet s.unit_placeable_map x y false } ∧
        IdEvo s { s with
                  unit_id_counter := s.unit_id_counter + 1,
                  units_red := ainsert s.units_red s.unit_id_counter
                    (Unit'.create s.unit_id_counter .RED ut x y level),
                  unit_placeable_map := gridSet s.unit_placeable_map x y false }
      apply wf_insert_unit_general s
        { s with
          unit_id_counter := s.unit_id_counter + 1,
          units_red := ainsert s.units_red s.unit_id_counter
            (Unit'.create s.unit_id_counter .RED ut x y level),
          unit_placeable_map := gridSet s.unit_placeable_map x y false }
        (Unit'.create s.unit_id_counter .RED ut x y level)
        rfl rfl rfl rfl rfl rfl rfl rfl ?_ ?_ ?_ hfree hbounds h
      · show List.Perm ((s.units_blue ++ (s.units_red ++ [(s.unit_id_counter,
            Unit'.create s.unit_id_counter .RED ut x y level)])).map Prod.fst)
          (s.unit_id_counter :: (s.units_blue ++ s.units_red).map Prod.fst)
        rw [List.map_append, List.map_append, List.map_append]
        refine List.Perm.trans (List.Perm.append_left _ (List.perm_append_singleton _ _)) ?_
        exact List.perm_middle
      · intro p hp
        rcases List.mem_append.mp hp with hp | hp
        · exact Or.inl (List.mem_append_left _ hp)
        · rcases List.mem_append.mp hp with hp | hp
          · exact Or.inl (List.mem_append_right _ hp)
          · rcases List.mem_singleton.mp hp with rfl
            exact Or.inr rfl
      · intro a b
        show ((avalues s.units_blue) ++ avalues (s.units_red ++ [(s.unit_id_counter,
            Unit'.create s.unit_id_counter .RED ut x y level)])).countP _
          = ((avalues s.units_blue) ++ avalues s.units_red).countP _ + _
        unfold avalues
        rw [List.map_append, List.countP_append, List.countP_append, List.countP_append,
          List.map_singleton, List.countP_singleton]
        ring

/-! Further toolbox: frame rules, permutation invariance of the invariant,
and the building-side analogues of the unit-side preservation lemmas. -/

/-- Keys characterise acontains. -/
theorem acontains_iff {α : Type} (l : List (Nat × α)) (k : Nat) :
    acontains l k = true ↔ k ∈ l.map Prod.fst := by
  unfold acontains
  rw [List.any_eq_true]
  constructor
  · rintro ⟨p, hp, hpk⟩
    exact List.mem_map.mpr ⟨p, hp, beq_iff_eq.mp hpk⟩
  · intro hk
    rcases List.mem_map.mp hk with ⟨p, hp, hpk⟩
    exact ⟨p, hp, beq_iff_eq.mpr hpk⟩

/-- aupdate of an absent key does nothing. -/
theorem aupdate_of_not_mem {α : Type} {l : List (Nat × α)} {k : Nat} (f : α → α)
    (h : ∀ p ∈ l, p.1 ≠ k) : aupdate l k f = l := by
  induction l with
  | nil => rfl
  | cons q rest ih =>
    have hq : ¬ ((q.1 == k) = true) := by
      simpa using h q (List.mem_cons_self _ _)
    rw [aupdate, if_neg hq, ih (fun p hp => h p (List.mem_cons_of_mem _ hp))]

/-- aerase of an absent key does nothing. -/
theorem aerase_of_not_mem {α : Type} {l : List (Nat × α)} {k : Nat}
    (h : ∀ p ∈ l, p.1 ≠ k) : aerase l k = l := by
  apply List.filter_eq_self.mpr
  intro p hp
  simpa [bne_iff_ne] using h p hp

/-- Erasing the updated key erases the original entries. -/
theorem aerase_aupdate {α : Type} (l : List (Nat × α)) (k : Nat) (f : α → α) :
    aerase (aupdate l k f) k = aerase l k := by
  induction l with
  | nil => rfl
  | cons q rest ih =>
    unfold aerase at ih ⊢
    by_cases h : (q.1 == k) = true
    · have hq : q.1 = k := beq_iff_eq.mp h
      rw [aupdate, if_pos h, List.filter_cons, List.filter_cons]
      simp only [hq, bne_self_eq_false, Bool.false_eq_true, if_false]
      exact ih
    · rw [aupdate, if_neg h, List.filter_cons, List.filter_cons, ih]

/-- With distinct keys, updating key k is, up to permutation, removing its
entry and consing the updated one in front. -/
theorem aupdate_perm {α : Type} {l : List (Nat × α)} {k : Nat} {v : α} (f : α → α)
    (hnd : (l.map Prod.fst).Nodup) (hv : alookup l k = some v) :
    List.Perm (aupdate l k f) ((k, f v) :: aerase l k) := by
  induction l with
  | nil => cases hv
  | cons q rest ih =>
    rw [List.map_cons, List.nodup_cons] at hnd
    by_cases h : (q.1 == k) = true
    · have hq : q.1 = k := beq_iff_eq.mp h
      have hqv : q.2 = v := by
        rw [alookup, if_pos h] at hv
        exact Option.some.inj hv
      have hrest : ∀ p ∈ rest, p.1 ≠ k := by
        intro p hp hpk
        exact hnd.1 (hq ▸ hpk ▸ List.mem_map_of_mem Prod.fst hp)
      have he : aerase (q :: rest) k = aerase rest k := by
        unfold aerase
        rw [List.filter_cons]
        simp [hq]
      rw [aupdate, if_pos h, aupdate_of_not_mem f hrest, he,
        aerase_of_not_mem hrest, hq, hqv]
    · have hne : q.1 ≠ k := fun hEq => h (beq_iff_eq.mpr hEq)
      have hv' : alookup rest k = some v := by rwa [alookup, if_neg h] at hv
      have he : aerase (q :: rest) k = q :: aerase rest k := by
        unfold aerase
        rw [List.filter_cons]
        simp [bne_iff_ne, hne]
      rw [aupdate, if_neg h, he]
      exact List.Perm.trans (List.Perm.cons q (ih hnd.2 hv'))
        (List.Perm.swap (k, f v) q _)

/-- A step that changes none of the fields the invariant mentions (map
dimensions and castle anchors, the two grids, the four registries and the two
counters) preserves it; this covers balance, clock, turn-counter and
tile-content changes. -/
theorem wf_frame (s s' : GameState)
    (hw : s'.map.width = s.map.width) (hh : s'.map.height = s.map.height)
    (hcb : s'.map.blue_castle_loc = s.map.blue_castle_loc)
    (hcr : s'.map.red_castle_loc = s.map.red_castle_loc)
    (hug : s'.unit_placeable_map = s.unit_placeable_map)
    (hbg : s'.building_placeable_map = s.building_placeable_map)
    (hub : s'.units_blue = s.units_blue) (hur : s'.units_red = s.units_red)
    (hbb : s'.buildings_blue = s.buildings_blue)
    (hbr : s'.buildings_red = s.buildings_red)
    (huc : s'.unit_id_counter = s.unit_id_counter)
    (hbc : s'.building_id_counter = s.building_id_counter)
    (h : StateWF s) : StateWF s' ∧ IdEvo s s' := by
  have hinb : ∀ x y : Int, s'.map.in_bounds x y = s.map.in_bounds x y := by
    intro x y
    unfold Map.in_bounds
    rw [hw, hh]
  have hua : unitsAll s' = unitsAll s := by
    unfold unitsAll
    rw [hub, hur]
  have hba : buildingsAll s' = buildingsAll s := by
    unfold buildingsAll
    rw [hbb, hbr]
  have hui : unitIds s' = unitIds s := by
    unfold unitIds
    rw [hub, hur]
  have hbi : buildingIds s' = buildingIds s := by
    unfold buildingIds
    rw [hbb, hbr]
  have hucnt : ∀ x y : Int, unitCountAt s' x y = unitCountAt s x y := by
    intro x y
    unfold unitCountAt
    rw [hua]
  have hbcnt : ∀ x y : Int, buildingCountAt s' x y = buildingCountAt s x y := by
    intro x y
    unfold buildingCountAt
    rw [hba]
  refine ⟨⟨?_, ?_, ?_, ?_, ?_, ?_, ?_, ?_, ?_, ?_, ?_, ?_, ?_, ?_, ?_, ?_⟩,
    idEvo_of_same hui hbi huc hbc⟩
  · rw [hug, hw]
    exact h.ugrid_len
  · rw [hug, hh]
    exact h.ugrid_rows
  · rw [hbg, hw]
    exact h.bgrid_len
  · rw [hbg, hh]
    exact h.bgrid_rows
  · intro u hu
    rw [hinb]
    exact h.upos_bounds u (hua ▸ hu)
  · intro b hb
    rw [hinb]
    exact h.bpos_bounds b (hba ▸ hb)
  · rw [hui]
    exact h.ukeys_nodup
  · rw [hbi]
    exact h.bkeys_nodup
  · rw [hui, huc]
    exact h.ukeys_lt
  · rw [hbi, hbc]
    exact h.bkeys_lt
  · rw [hub, hur]
    exact h.ukey_eq_id
  · rw [hbb, hbr]
    exact h.bkey_eq_id
  · intro i hi j hj
    rw [hw] at hi
    rw [hh] at hj
    rw [hug, hucnt]
    exact h.u_exact i hi j hj
  · intro i hi j hj
    rw [hw] at hi
    rw [hh] at hj
    rw [hucnt]
    exact h.u_atmost i hi j hj
  · intro i hi j hj hb1 hb2
    rw [hw] at hi
    rw [hh] at hj
    rw [hcb] at hb1
    rw [hcr] at hb2
    rw [hbg, hbcnt]
    exact h.b_exact i hi j hj hb1 hb2
  · intro i hi j hj hb1 hb2
    rw [hw] at hi
    rw [hh] at hj
    rw [hcb] at hb1
    rw [hcr] at hb2
    rw [hbcnt]
    exact h.b_atmost i hi j hj hb1 hb2

/-- Changing a team balance changes nothing the invariant sees. -/
theorem wf_setBalance (s : GameState) (team : Team) (q : Rat) (h : StateWF s) :
    StateWF (s.setBalance team q) ∧ IdEvo s (s.setBalance team q) := by
  cases team
  case BLUE =>
    exact wf_frame s (s.setBalance .BLUE q) rfl rfl rfl rfl rfl rfl rfl rfl rfl rfl rfl rfl h
  case RED =>
    exact wf_frame s (s.setBalance .RED q) rfl rfl rfl rfl rfl rfl rfl rfl rfl rfl rfl rfl h

/-- The invariant only looks at the registries up to order. -/
theorem statewf_perm (s s' : GameState)
    (hmap : s'.map = s.map)
    (hug : s'.unit_placeable_map = s.unit_placeable_map)
    (hbg : s'.building_placeable_map = s.building_placeable_map)
    (hub : List.Perm s'.units_blue s.units_blue)
    (hur : List.Perm s'.units_red s.units_red)
    (hbb : List.Perm s'.buildings_blue s.buildings_blue)
    (hbr : List.Perm s'.buildings_red s.buildings_red)
    (huc : s'.unit_id_counter = s.unit_id_counter)
    (hbc : s'.building_id_counter = s.building_id_counter)
    (h : StateWF s) : StateWF s' := by
  have hua : List.Perm (unitsAll s') (unitsAll s) :=
    List.Perm.append (hub.map Prod.snd) (hur.map Prod.snd)
  have hba : List.Perm (buildingsAll s') (buildingsAll s) :=
    List.Perm.append (hbb.map Prod.snd) (hbr.map Prod.snd)
  have hui : List.Perm (unitIds s') (unitIds s) := by
    unfold unitIds
    rw [List.map_append, List.map_append]
    exact List.Perm.append (hub.map Prod.fst) (hur.map Prod.fst)
  have hbi : List.Perm (buildingIds s') (buildingIds s) := by
    unfold buildingIds
    rw [List.map_append, List.map_append]
    exact List.Perm.append (hbb.map Prod.fst) (hbr.map Prod.fst)
  have hucnt : ∀ x y : Int, unitCountAt s' x y = unitCountAt s x y := by
    intro x y
    exact hua.countP_eq _
  have hbcnt : ∀ x y : Int, buildingCountAt s' x y = buildingCountAt s x y := by
    intro x y
    exact hba.countP_eq _
  refine ⟨?_, ?_, ?_, ?_, ?_, ?_, ?_, ?_, ?_, ?_, ?_, ?_, ?_, ?_, ?_, ?_⟩
  · rw [hug, hmap]
    exact h.ugrid_len
  · rw [hug, hmap]
    exact h.ugrid_rows
  · rw [hbg, hmap]
    exact h.bgrid_len
  · rw [hbg, hmap]
    exact h.bgrid_rows
  · intro u hu
    rw [hmap]
    exact h.upos_bounds u (hua.mem_iff.mp hu)
  · intro b hb
    rw [hmap]
    exact h.bpos_bounds b (hba.mem_iff.mp hb)
  · exact hui.nodup_iff.mpr h.ukeys_nodup
  · exact hbi.nodup_iff.mpr h.bkeys_nodup
  · intro k hk
    rw [huc]
    exact h.ukeys_lt k (hui.mem_iff.mp hk)
  · intro k hk
    rw [hbc]
    exact h.bkeys_lt k (hbi.mem_iff.mp hk)
  · intro p hp
    rcases List.mem_append.mp hp with hp | hp
    · exact h.ukey_eq_id p (List.mem_append_left _ (hub.mem_iff.mp hp))
    · exact h.ukey_eq_id p (List.mem_append_right _ (hur.mem_iff.mp hp))
  · intro p hp
    rcases List.mem_append.mp hp with hp | hp
    · exact h.bkey_eq_id p (List.mem_append_left _ (hbb.mem_iff.mp hp))
    · exact h.bkey_eq_id p (List.mem_append_right _ (hbr.mem_iff.mp hp))
  · intro i hi j hj
    rw [hmap] at hi
    rw [hmap] at hj
    rw [hug, hucnt]
    exact h.u_exact i hi j hj
  · intro i hi j hj
    rw [hmap] at hi
    rw [hmap] at hj
    rw [hucnt]
    exact h.u_atmost i hi j hj
  · intro i hi j hj hb1 hb2
    rw [hmap] at hi
    rw [hmap] at hj
    rw [hmap] at hb1
    rw [hmap] at hb2
    rw [hbg, hbcnt]
    exact h.b_exact i hi j hj hb1 hb2
  · intro i hi j hj hb1 hb2
    rw [hmap] at hi
    rw [hmap] at hj
    rw [hmap] at hb1
    rw [hmap] at hb2
    rw [hbcnt]
    exact h.b_atmost i hi j hj hb1 hb2

/-- Updating a stored blue building in place, by a function that moves
neither the position nor the id, preserves the state invariant. -/
theorem wf_update_bb (s : GameState) (k : Nat) (f : Building → Building)
    (hf : ∀ a, (f a).x = a.x ∧ (f a).y = a.y ∧ (f a).id = a.id)
    (h : StateWF s) :
    StateWF { s with buildings_blue := aupdate s.buildings_blue k f } ∧
    IdEvo s { s with buildings_blue := aupdate s.buildings_blue k f } := by
  have hp : ∀ (x y : Int) (a : Building),
      (((f a).x == x) && ((f a).y == y)) = ((a.x == x) && (a.y == y)) := by
    intro x y a
    rw [(hf a).1, (hf a).2.1]
  have hkeys : buildingIds { s with buildings_blue := aupdate s.buildings_blue k f }
      = buildingIds s := by
    unfold buildingIds
    dsimp only
    rw [List.map_append, aupdate_keys, ← List.map_append]
  have hcnt : ∀ x y : Int,
      buildingCountAt { s with buildings_blue := aupdate s.buildings_blue k f } x y
        = buildingCountAt s x y := by
    intro x y
    unfold buildingCountAt buildingsAll
    dsimp only
    rw [List.countP_append, List.countP_append, aupdate_countP _ _ _ _ (hp x y)]
  refine ⟨⟨h.ugrid_len, h.ugrid_rows, h.bgrid_len, h.bgrid_rows, h.upos_bounds, ?_,
      h.ukeys_nodup, ?_, h.ukeys_lt, ?_, h.ukey_eq_id, ?_, h.u_exact, h.u_atmost,
      ?_, ?_⟩, ?_⟩
  · intro b hb
    rcases List.mem_append.mp hb with hb | hb
    · rcases mem_avalues_aupdate hb with hb' | ⟨w, hw, hw'⟩
      · exact h.bpos_bounds b (List.mem_append_left _ hb')
      · have hbnd := h.bpos_bounds w (List.mem_append_left _ hw)
        rw [hw']
        show s.map.in_bounds (f w).x (f w).y = true
        rw [(hf w).1, (hf w).2.1]
        exact hbnd
    · exact h.bpos_bounds b (List.mem_append_right _ hb)
  · rw [hkeys]
    exact h.bkeys_nodup
  · rw [hkeys]
    exact h.bkeys_lt
  · intro p hp'
    rcases List.mem_append.mp hp' with hp' | hp'
    · rcases mem_aupdate hp' with hp'' | ⟨q, hq, hq'⟩
      · exact h.bkey_eq_id p (List.mem_append_left _ hp'')
      · rw [hq']
        show q.1 = (f q.2).id
        rw [(hf q.2).2.2]
        exact h.bkey_eq_id q (List.mem_append_left _ hq)
    · exact h.bkey_eq_id p (List.mem_append_right _ hp')
  · intro i hi j hj hb1 hb2
    rw [hcnt]
    exact h.b_exact i hi j hj hb1 hb2
  · intro i hi j hj hb1 hb2
    rw [hcnt]
    exact h.b_atmost i hi j hj hb1 hb2
  · exact idEvo_of_same rfl hkeys rfl rfl

/-- The red-team counterpart of wf_update_bb. -/
theorem wf_update_br (s : GameState) (k : Nat) (f : Building → Building)
    (hf : ∀ a, (f a).x = a.x ∧ (f a).y = a.y ∧ (f a).id = a.id)
    (h : StateWF s) :
    StateWF { s with buildings_red := aupdate s.buildings_red k f } ∧
    IdEvo s { s with buildings_red := aupdate s.buildings_red k f } := by
  have hp : ∀ (x y : Int) (a : Building),
      (((f a).x == x) && ((f a).y == y)) = ((a.x == x) && (a.y == y)) := by
    intro x y a
    rw [(hf a).1, (hf a).2.1]
  have hkeys : buildingIds { s with buildings_red := aupdate s.buildings_red k f }
      = buildingIds s := by
    unfold buildingIds
    dsimp only
    rw [List.map_append, List.map_append, aupdate_keys]
  have hcnt : ∀ x y : Int,
      buildingCountAt { s with buildings_red := aupdate s.buildings_red k f } x y
        = buildingCountAt s x y := by
    intro x y
    unfold buildingCountAt buildingsAll
    dsimp only
    rw [List.countP_append, List.countP_append, aupdate_countP _ _ _ _ (hp x y)]
  refine ⟨⟨h.ugrid_len, h.ugrid_rows, h.bgrid_len, h.bgrid_rows, h.upos_bounds, ?_,
      h.ukeys_nodup, ?_, h.ukeys_lt, ?_, h.ukey_eq_id, ?_, h.u_exact, h.u_atmost,
      ?_, ?_⟩, ?_⟩
  · intro b hb
    rcases List.mem_append.mp hb with hb | hb
    · exact h.bpos_bounds b (List.mem_append_left _ hb)
    · rcases mem_avalues_aupdate hb with hb' | ⟨w, hw, hw'⟩
      · exact h.bpos_bounds b (List.mem_append_right _ hb')
      · have hbnd := h.bpos_bounds w (List.mem_append_right _ hw)
        rw [hw']
        show s.map.in_bounds (f w).x (f w).y = true
        rw [(hf w).1, (hf w).2.1]
        exact hbnd
  · rw [hkeys]
    exact h.bkeys_nodup
  · rw [hkeys]
    exact h.bkeys_lt
  · intro p hp'
    rcases List.mem_append.mp hp' with hp' | hp'
    · exact h.bkey_eq_id p (List.mem_append_left _ hp')
    · rcases mem_aupdate hp' with hp'' | ⟨q, hq, hq'⟩
      · exact h.bkey_eq_id p (List.mem_append_right _ hp'')
      · rw [hq']
        show q.1 = (f q.2).id
        rw [(hf q.2).2.2]
        exact h.bkey_eq_id q (List.mem_append_right _ hq)
  · intro i hi j hj hb1 hb2
    rw [hcnt]
    exact h.b_exact i hi j hj hb1 hb2
  · intro i hi j hj hb1 hb2
    rw [hcnt]
    exact h.b_atmost i hi j hj hb1 hb2
  · exact idEvo_of_same rfl hkeys rfl rfl

/-- Under distinct unit keys, team lookup answers the team whose dict holds
the id. -/
theorem get_team_of_unit_eq (s : GameState) (team : Team) (k : Nat)
    (hnd : (unitIds s).Nodup)
    (hk : acontains (s.units team) k = true) :
    s.get_team_of_unit k = some team := by
  unfold GameState.get_team_of_unit
  cases team
  case RED => rw [if_pos hk]
  case BLUE =>
    have hnr : ¬ (acontains (s.units .RED) k = true) := by
      intro hr
      have hmb : k ∈ s.units_blue.map Prod.fst := (acontains_iff _ _).mp hk
      have hmr : k ∈ s.units_red.map Prod.fst := (acontains_iff _ _).mp hr
      unfold unitIds at hnd
      rw [List.map_append] at hnd
      exact (List.nodup_append.mp hnd).2.2 hmb hmr
    rw [if_neg hnr, if_pos hk]

/-- Under distinct building keys, team lookup answers the team whose dict
holds the id. -/
theorem get_team_of_building_eq (s : GameState) (team : Team) (k : Nat)
    (hnd : (buildingIds s).Nodup)
    (hk : acontains (s.buildings team) k = true) :
    s.get_team_of_building k = some team := by
  unfold GameState.get_team_of_building
  cases team
  case RED => rw [if_pos hk]
  case BLUE =>
    have hnr : ¬ (acontains (s.buildings .RED) k = true) := by
      intro hr
      have hmb : k ∈ s.buildings_blue.map Prod.fst := (acontains_iff _ _).mp hk
      have hmr : k ∈ s.buildings_red.map Prod.fst := (acontains_iff _ _).mp hr
      unfold buildingIds at hnd
      rw [List.map_append] at hnd
      exact (List.nodup_append.mp hnd).2.2 hmb hmr
    rw [if_neg hnr, if_pos hk]

/-- mutate_unit by a pose- and id-preserving function preserves the
invariant. -/
theorem wf_mutate_unit (s : GameState) (k : Nat) (f : Unit' → Unit')
    (hf : ∀ a, (f a).x = a.x ∧ (f a).y = a.y ∧ (f a).id = a.id)
    (h : StateWF s) :
    StateWF (s.mutate_unit k f) ∧ IdEvo s (s.mutate_unit k f) := by
  unfold GameState.mutate_unit
  cases ht : s.get_team_of_unit k with
  | none => exact ⟨h, idEvo_refl s⟩
  | some team =>
    cases team
    case BLUE =>
      show StateWF { s with units_blue := aupdate s.units_blue k f } ∧
        IdEvo s { s with units_blue := aupdate s.units_blue k f }
      exact wf_update_ub s k f hf h
    case RED =>
      show StateWF { s with units_red := aupdate s.units_red k f } ∧
        IdEvo s { s with units_red := aupdate s.units_red k f }
      exact wf_update_ur s k f hf h

/-- mutate_building by a pose- and id-preserving function preserves the
invariant. -/
theorem wf_mutate_building (s : GameState) (k : Nat) (f : Building → Building)
    (hf : ∀ a, (f a).x = a.x ∧ (f a).y = a.y ∧ (f a).id = a.id)
    (h : StateWF s) :
    StateWF (s.mutate_building k f) ∧ IdEvo s (s.mutate_building k f) := by
  unfold GameState.mutate_building
  cases ht : s.get_team_of_building k with
  | none => exact ⟨h, idEvo_refl s⟩
  | some team =>
    cases team
    case BLUE =>
      show StateWF { s with buildings_blue := aupdate s.buildings_blue k f } ∧
        IdEvo s { s with buildings_blue := aupdate s.buildings_blue k f }
      exact wf_update_bb s k f hf h
    case RED =>
      show StateWF { s with buildings_red := aupdate s.buildings_red k f } ∧
        IdEvo s { s with buildings_red := aupdate s.buildings_red k f }
      exact wf_update_br s k f hf h

/-- The core argument for deleting one building: a state that differs from a
well-formed one by freeing the deleted building's grid cell and dropping
exactly that building is well-formed again. -/
theorem wf_delete_building_general (s s' : GameState) (b : Building)
    (hmap : s'.map = s.map)
    (hbgset : s'.building_placeable_map = gridSet s.building_placeable_map b.x b.y true)
    (hug : s'.unit_placeable_map = s.unit_placeable_map)
    (hub : s'.units_blue = s.units_blue)
    (hur : s'.units_red = s.units_red)
    (huc : s'.unit_id_counter = s.unit_id_counter)
    (hbc : s'.building_id_counter = s.building_id_counter)
    (hids : List.Sublist (buildingIds s') (buildingIds s))
    (hpairs : ∀ p ∈ s'.buildings_blue ++ s'.buildings_red,
      p ∈ s.buildings_blue ++ s.buildings_red)
    (hcnt : ∀ x y : Int, buildingCountAt s x y
      = buildingCountAt s' x y + (if ((b.x == x) && (b.y == y)) = true then 1 else 0))
    (hbmem : b ∈ buildingsAll s)
    (h : StateWF s) :
    StateWF s' ∧ IdEvo s s' := by
  have huall : unitsAll s' = unitsAll s := by
    unfold unitsAll
    rw [hub, hur]
  have huids : unitIds s' = unitIds s := by
    unfold unitIds
    rw [hub, hur]
  have hucnt : ∀ x y : Int, unitCountAt s' x y = unitCountAt s x y := by
    intro x y
    unfold unitCountAt
    rw [huall]
  have hvals : ∀ w ∈ buildingsAll s', w ∈ buildingsAll s := by
    intro w hw
    unfold buildingsAll avalues at hw ⊢
    rw [← List.map_append] at hw ⊢
    rcases List.mem_map.mp hw with ⟨p, hp, hpv⟩
    exact List.mem_map.mpr ⟨p, hpairs p hp, hpv⟩
  have hbb := h.bpos_bounds b hbmem
  rw [in_bounds_iff] at hbb
  obtain ⟨hx0, hxw, hy0, hyh⟩ := hbb
  refine ⟨⟨?_, ?_, ?_, ?_, ?_, ?_, ?_, ?_, ?_, ?_, ?_, ?_, ?_, ?_, ?_, ?_⟩, ?_⟩
  · rw [hug, hmap]
    exact h.ugrid_len
  · rw [hug, hmap]
    exact h.ugrid_rows
  · rw [hbgset, hmap, gridSet_length]
    exact h.bgrid_len
  · rw [hbgset, hmap]
    exact gridSet_row_length _ b.x b.y true _ h.bgrid_rows
  · intro v hv
    rw [hmap]
    rw [huall] at hv
    exact h.upos_bounds v hv
  · intro w hw
    rw [hmap]
    exact h.bpos_bounds w (hvals w hw)
  · rw [huids]
    exact h.ukeys_nodup
  · exact List.Nodup.sublist hids h.bkeys_nodup
  · intro k hk
    rw [huids] at hk
    rw [huc]
    exact h.ukeys_lt k hk
  · intro k hk
    rw [hbc]
    exact h.bkeys_lt k (hids.subset hk)
  · intro p hp
    rw [hub, hur] at hp
    exact h.ukey_eq_id p hp
  · intro p hp
    exact h.bkey_eq_id p (hpairs p hp)
  · intro i hi j hj
    rw [hmap] at hi hj
    rw [hug, hucnt]
    exact h.u_exact i hi j hj
  · intro i hi j hj
    rw [hmap] at hi hj
    rw [hucnt]
    exact h.u_atmost i hi j hj
  · intro i hi j hj hc1 hc2
    rw [hmap] at hi hj hc1 hc2
    by_cases hxy : ((i : Int) = b.x ∧ (j : Int) = b.y)
    · obtain ⟨hix, hjy⟩ := hxy
      have hgt : gridGet s'.building_placeable_map i j = true := by
        rw [hbgset, hix, hjy]
        refine gridGet_gridSet_self _ _ _ _ ?_ ?_
        · rw [h.bgrid_len]
          omega
        · rw [grid_row_len _ _ _ _ h.bgrid_len h.bgrid_rows (by omega)]
          omega
      have hpos : 0 < buildingCountAt s i j := by
        apply List.countP_pos_iff.mpr
        refine ⟨b, hbmem, ?_⟩
        simp [← hix, ← hjy]
      have hone : buildingCountAt s i j = 1 := by
        have := h.b_atmost i hi j hj hc1 hc2
        omega
      have hite : (if ((b.x == (i : Int)) && (b.y == (j : Int))) = true then 1 else 0)
          = 1 := by
        simp [← hix, ← hjy]
      have hzero : buildingCountAt s' i j = 0 := by
        have := hcnt i j
        omega
      rw [hgt, hzero]
      simp
    · have hne : ((i : Int)).toNat ≠ (b.x).toNat ∨ ((j : Int)).toNat ≠ (b.y).toNat := by
        by_cases hxx : (i : Int) = b.x
        · refine Or.inr ?_
          have hyy : (j : Int) ≠ b.y := fun hEq => hxy ⟨hxx, hEq⟩
          omega
        · exact Or.inl (by omega)
      have hgeq : gridGet s'.building_placeable_map i j
          = gridGet s.building_placeable_map i j := by
        rw [hbgset]
        exact gridGet_gridSet_ne _ b.x b.y i j true hne
      have hite : (if ((b.x == (i : Int)) && (b.y == (j : Int))) = true then 1 else 0)
          = 0 := by
        have : ¬ (((b.x == (i : Int)) && (b.y == (j : Int))) = true) := by
          intro hT
          simp only [Bool.and_eq_true, beq_iff_eq] at hT
          exact hxy ⟨hT.1.symm, hT.2.symm⟩
        rw [if_neg this]
      have hceq : buildingCountAt s' i j = buildingCountAt s i j := by
        have := hcnt i j
        omega
      rw [hgeq, hceq]
      exact h.b_exact i hi j hj hc1 hc2
  · intro i hi j hj hc1 hc2
    rw [hmap] at hi hj hc1 hc2
    have := hcnt i j
    have := h.b_atmost i hi j hj hc1 hc2
    omega
  · exact ⟨Nat.le_of_eq huc.symm, Nat.le_of_eq hbc.symm,
      fun k hk => Or.inl (huids ▸ hk),
      fun k hk => Or.inl (hids.subset hk)⟩

/-- Deleting a building preserves the state invariant. -/
theorem wf_delete_building (s : GameState) (team : Team) (k : Nat)
    (h : StateWF s) :
    StateWF (s.delete_building team k) ∧ IdEvo s (s.delete_building team k) := by
  have hnd : ((s.buildings_blue.map Prod.fst).Nodup ∧
      (s.buildings_red.map Prod.fst).Nodup) := by
    have := h.bkeys_nodup
    unfold buildingIds at this
    rw [List.map_append] at this
    exact ⟨(List.nodup_append.mp this).1, (List.nodup_append.mp this).2.1⟩
  unfold GameState.delete_building
  cases team
  case BLUE =>
    cases hb : alookup (s.buildings Team.BLUE) k with
    | none => exact ⟨h, idEvo_refl s⟩
    | some b =>
      have hb' : alookup s.buildings_blue k = some b := hb
      have hbmem : b ∈ buildingsAll s := by
        apply List.mem_append_left
        exact List.mem_map.mpr ⟨(k, b), alookup_mem hb', rfl⟩
      show StateWF { s with
                     building_placeable_map := gridSet s.building_placeable_map b.x b.y true,
                     buildings_blue := aerase s.buildings_blue k } ∧
        IdEvo s { s with
                  building_placeable_map := gridSet s.building_placeable_map b.x b.y true,
                  buildings_blue := aerase s.buildings_blue k }
      apply wf_delete_building_general s
        { s with
          building_placeable_map := gridSet s.building_placeable_map b.x b.y true,
          buildings_blue := aerase s.buildings_blue k } b rfl rfl rfl rfl rfl rfl rfl
        ?_ ?_ ?_ hbmem h
      · show List.Sublist ((aerase s.buildings_blue k ++ s.buildings_red).map Prod.fst)
          ((s.buildings_blue ++ s.buildings_red).map Prod.fst)
        rw [List.map_append, List.map_append]
        exact List.Sublist.append_right (aerase_keys_sublist _ _) _
      · intro p hp
        rcases List.mem_append.mp hp with hp | hp
        · exact List.mem_append_left _ (List.mem_of_mem_filter hp)
        · exact List.mem_append_right _ hp
      · intro x y
        show (avalues (s.buildings_blue) ++ avalues (s.buildings_red)).countP _
          = (avalues (aerase s.buildings_blue k) ++ avalues (s.buildings_red)).countP _ + _
        rw [List.countP_append, List.countP_append,
          aerase_countP _ hnd.1 hb']
        ring
  case RED =>
    cases hb : alookup (s.buildings Team.RED) k with
    | none => exact ⟨h, idEvo_refl s⟩
    | some b =>
      have hb' : alookup s.buildings_red k = some b := hb
      have hbmem : b ∈ buildingsAll s := by
        apply List.mem_append_right
        exact List.mem_map.mpr ⟨(k, b), alookup_mem hb', rfl⟩
      show StateWF { s with
                     building_placeable_map := gridSet s.building_placeable_map b.x b.y true,
                     buildings_red := aerase s.buildings_red k } ∧
        IdEvo s { s with
                  building_placeable_map := gridSet s.building_placeable_map b.x b.y true,
                  buildings_red := aerase s.buildings_red k }
      apply wf_delete_building_general s
        { s with
          building_placeable_map := gridSet s.building_placeable_map b.x b.y true,
          buildings_red := aerase s.buildings_red k } b rfl rfl rfl rfl rfl rfl rfl
        ?_ ?_ ?_ hbmem h
      · show List.Sublist ((s.buildings_blue ++ aerase s.buildings_red k).map Prod.fst)
          ((s.buildings_blue ++ s.buildings_red).map Prod.fst)
        rw [List.map_append, List.map_append]
        exact List.Sublist.append_left (aerase_keys_sublist _ _) _
      · intro p hp
        rcases List.mem_append.mp hp with hp | hp
        · exact List.mem_append_left _ hp
        · exact List.mem_append_right _ (List.mem_of_mem_filter hp)
      · intro x y
        show (avalues (s.buildings_blue) ++ avalues (s.buildings_red)).countP _
          = (avalues (s.buildings_blue) ++ avalues (aerase s.buildings_red k)).countP _ + _
        rw [List.countP_append, List.countP_append,
          aerase_countP _ hnd.2 hb']
        ring

/-- The core argument for inserting one freshly created building on a free,
in-bounds tile: marking the tile and appending the building (whose id is the
current counter, with the counter bumped) is well-formed again. -/
theorem wf_insert_building_general (s s' : GameState) (v : Building)
    (hmap : s'.map = s.map)
    (hbgset : s'.building_placeable_map = gridSet s.building_placeable_map v.x v.y false)
    (hug : s'.unit_placeable_map = s.unit_placeable_map)
    (hub : s'.units_blue = s.units_blue)
    (hur : s'.units_red = s.units_red)
    (hbcctr : s'.building_id_counter = s.building_id_counter + 1)
    (huc : s'.unit_id_counter = s.unit_id_counter)
    (hvid : v.id = s.building_id_counter)
    (hperm : List.Perm (buildingIds s') (v.id :: buildingIds s))
    (hpairs : ∀ p ∈ s'.buildings_blue ++ s'.buildings_red,
      p ∈ s.buildings_blue ++ s.buildings_red ∨ p = (v.id, v))
    (hcnt : ∀ a b : Int, buildingCountAt s' a b
      = buildingCountAt s a b + (if ((v.x == a) && (v.y == b)) = true then 1 else 0))
    (hfree : gridGet s.building_placeable_map v.x v.y = true)
    (hbounds : s.map.in_bounds v.x v.y = true)
    (h : StateWF s) :
    StateWF s' ∧ IdEvo s s' := by
  have huall : unitsAll s' = unitsAll s := by
    unfold unitsAll
    rw [hub, hur]
  have huids : unitIds s' = unitIds s := by
    unfold unitIds
    rw [hub, hur]
  have hucnt : ∀ x y : Int, unitCountAt s' x y = unitCountAt s x y := by
    intro x y
    unfold unitCountAt
    rw [huall]
  have hvals : ∀ w ∈ buildingsAll s', w ∈ buildingsAll s ∨ w = v := by
    intro w hw
    unfold buildingsAll avalues at hw ⊢
    rw [← List.map_append] at hw ⊢
    rcases List.mem_map.mp hw with ⟨p, hp, hpv⟩
    rcases hpairs p hp with hp' | hp'
    · exact Or.inl (List.mem_map.mpr ⟨p, hp', hpv⟩)
    · right
      rw [← hpv, hp']
  have hvb := hbounds
  rw [in_bounds_iff] at hvb
  obtain ⟨hx0, hxw, hy0, hyh⟩ := hvb
  have hnotmem : v.id ∉ buildingIds s := by
    intro hmem
    have := h.bkeys_lt v.id hmem
    omega
  refine ⟨⟨?_, ?_, ?_, ?_, ?_, ?_, ?_, ?_, ?_, ?_, ?_, ?_, ?_, ?_, ?_, ?_⟩, ?_⟩
  · rw [hug, hmap]
    exact h.ugrid_len
  · rw [hug, hmap]
    exact h.ugrid_rows
  · rw [hbgset, hmap, gridSet_length]
    exact h.bgrid_len
  · rw [hbgset, hmap]
    exact gridSet_row_length _ v.x v.y false _ h.bgrid_rows
  · intro w hw
    rw [hmap]
    rw [huall] at hw
    exact h.upos_bounds w hw
  · intro w hw
    rw [hmap]
    rcases hvals w hw with hw' | hw'
    · exact h.bpos_bounds w hw'
    · rw [hw']
      exact hbounds
  · rw [huids]
    exact h.ukeys_nodup
  · rw [List.Perm.nodup_iff hperm]
    exact List.nodup_cons.mpr ⟨hnotmem, h.bkeys_nodup⟩
  · intro k hk
    rw [huids] at hk
    rw [huc]
    exact h.ukeys_lt k hk
  · intro k hk
    rw [hbcctr]
    rcases List.mem_cons.mp ((List.Perm.mem_iff hperm).mp hk) with hk' | hk'
    · omega
    · have := h.bkeys_lt k hk'
      omega
  · intro p hp
    rw [hub, hur] at hp
    exact h.ukey_eq_id p hp
  · intro p hp
    rcases hpairs p hp with hp' | hp'
    · exact h.bkey_eq_id p hp'
    · rw [hp']
  · intro i hi j hj
    rw [hmap] at hi hj
    rw [hug, hucnt]
    exact h.u_exact i hi j hj
  · intro i hi j hj
    rw [hmap] at hi hj
    rw [hucnt]
    exact h.u_atmost i hi j hj
  · intro i hi j hj hc1 hc2
    rw [hmap] at hi hj hc1 hc2
    by_cases hxy : ((i : Int) = v.x ∧ (j : Int) = v.y)
    · obtain ⟨hix, hjy⟩ := hxy
      have hgf : gridGet s'.building_placeable_map i j = false := by
        rw [hbgset, hix, hjy]
        refine gridGet_gridSet_self _ _ _ _ ?_ ?_
        · rw [h.bgrid_len]
          omega
        · rw [grid_row_len _ _ _ _ h.bgrid_len h.bgrid_rows (by omega)]
          omega
      have hzero : buildingCountAt s i j = 0 := by
        have hiff := h.b_exact i hi j hj hc1 hc2
        have hle := h.b_atmost i hi j hj hc1 hc2
        rw [hix, hjy] at hiff hle ⊢
        have : ¬ (gridGet s.building_placeable_map v.x v.y = false) := by
          rw [hfree]
          simp
        have : ¬ (buildingCountAt s v.x v.y = 1) := fun hc => this (hiff.mpr hc)
        omega
      have hone : buildingCountAt s' i j = 1 := by
        have := hcnt i j
        rw [hix, hjy] at this ⊢
        simp only [beq_self_eq_true, Bool.and_self, if_pos] at this
        rw [hix, hjy] at hzero
        omega
      rw [hgf, hone]
      simp
    · have hne : ((i : Int)).toNat ≠ (v.x).toNat ∨ ((j : Int)).toNat ≠ (v.y).toNat := by
        by_cases hxx : (i : Int) = v.x
        · refine Or.inr ?_
          have hyy : (j : Int) ≠ v.y := fun hEq => hxy ⟨hxx, hEq⟩
          omega
        · exact Or.inl (by omega)
      have hgeq : gridGet s'.building_placeable_map i j
          = gridGet s.building_placeable_map i j := by
        rw [hbgset]
        exact gridGet_gridSet_ne _ v.x v.y i j false hne
      have hite : (if ((v.x == (i : Int)) && (v.y == (j : Int))) = true then 1 else 0)
          = 0 := by
        have : ¬ (((v.x == (i : Int)) && (v.y == (j : Int))) = true) := by
          intro hT
          simp only [Bool.and_eq_true, beq_iff_eq] at hT
          exact hxy ⟨hT.1.symm, hT.2.symm⟩
        rw [if_neg this]
      have hceq : buildingCountAt s' i j = buildingCountAt s i j := by
        have := hcnt i j
        omega
      rw [hgeq, hceq]
      exact h.b_exact i hi j hj hc1 hc2
  · intro i hi j hj hc1 hc2
    rw [hmap] at hi hj hc1 hc2
    have hle := h.b_atmost i hi j hj hc1 hc2
    have hiff := h.b_exact i hi j hj hc1 hc2
    have := hcnt i j
    by_cases hxy : (((v.x == (i : Int)) && (v.y == (j : Int))) = true)
    · have hxi : v.x = (i : Int) := by
        simp only [Bool.and_eq_true, beq_iff_eq] at hxy
        exact hxy.1
      have hyj : v.y = (j : Int) := by
        simp only [Bool.and_eq_true, beq_iff_eq] at hxy
        exact hxy.2
      have hzero : buildingCountAt s i j = 0 := by
        have hnot : ¬ (gridGet s.building_placeable_map i j = false) := by
          rw [← hxi, ← hyj, hfree]
          simp
        have : ¬ (buildingCountAt s i j = 1) := fun hc => hnot (hiff.mpr hc)
        omega
      simp only [hxy, if_pos] at this
      omega
    · rw [if_neg hxy] at this
      omega
  · refine ⟨Nat.le_of_eq huc.symm, by omega, fun k hk => Or.inl (huids ▸ hk), ?_⟩
    intro k hk
    rcases List.mem_cons.mp ((List.Perm.mem_iff hperm).mp hk) with hk' | hk'
    · exact Or.inr (by omega)
    · exact Or.inl hk'

/-- place_building preserves the state invariant and allocates fresh ids
only. -/
theorem wf_place_building (s : GameState) (team : Team) (bt : BuildingType)
    (x y level : Int) (h : StateWF s) :
    StateWF (s.place_building team bt x y level).2 ∧
    IdEvo s (s.place_building team bt x y level).2 := by
  unfold GameState.place_building
  by_cases hmc : (bt == BuildingType.MAIN_CASTLE) = true
  case pos =>
    rw [if_pos hmc]
    exact ⟨h, idEvo_refl s⟩
  case neg =>
    rw [if_neg hmc]
    by_cases hg : s.is_building_placeable bt x y = true
    case neg =>
      rw [if_pos (by simp [hg])]
      exact ⟨h, idEvo_refl s⟩
    case pos =>
      rw [if_neg (by simp [hg])]
      obtain ⟨hbounds, hfree⟩ := is_building_placeable_facts s bt x y hg
      cases team
      case BLUE =>
        show StateWF { s with
                       building_id_counter := s.building_id_counter + 1,
                       buildings_blue := ainsert s.buildings_blue s.building_id_counter
                         (Building.create s.building_id_counter .BLUE bt x y level),
                       building_placeable_map := gridSet s.building_placeable_map x y false } ∧
          IdEvo s { s with
                    building_id_counter := s.building_id_counter + 1,
                    buildings_blue := ainsert s.buildings_blue s.building_id_counter
                      (Building.create s.building_id_counter .BLUE bt x y level),
                    building_placeable_map := gridSet s.building_placeable_map x y false }
        apply wf_insert_building_general s
          { s with
            building_id_counter := s.building_id_counter + 1,
            buildings_blue := ainsert s.buildings_blue s.building_id_counter
              (Building.create s.building_id_counter .BLUE bt x y level),
            building_placeable_map := gridSet s.building_placeable_map x y false }
          (Building.create s.building_id_counter .BLUE bt x y level)
          rfl rfl rfl rfl rfl rfl rfl rfl ?_ ?_ ?_ hfree hbounds h
        · show List.Perm (((s.buildings_blue ++ [(s.building_id_counter,
              Building.create s.building_id_counter .BLUE bt x y level)])
                ++ s.buildings_red).map Prod.fst)
            (s.building_id_counter :: (s.buildings_blue ++ s.buildings_red).map Prod.fst)
          rw [List.map_append, List.map_append, List.map_append]
          exact List.Perm.append_right _ (List.perm_append_singleton _ _)
        · intro p hp
          rcases List.mem_append.mp hp with hp | hp
          · rcases List.mem_append.mp hp with hp | hp
            · exact Or.inl (List.mem_append_left _ hp)
            · rcases List.mem_singleton.mp hp with rfl
              exact Or.inr rfl
          · exact Or.inl (List.mem_append_right _ hp)
        · intro a b
          show ((avalues (s.buildings_blue ++ [(s.building_id_counter,
              Building.create s.building_id_counter .BLUE bt x y level)]))
                ++ avalues s.buildings_red).countP _
            = ((avalues s.buildings_blue) ++ avalues s.buildings_red).countP _ + _
          unfold avalues
          rw [List.map_append, List.countP_append, List.countP_append, List.countP_append,
            List.map_singleton, List.countP_singleton]
          ring
      case RED =>
        show StateWF { s with
                       building_id_counter := s.building_id_counter + 1,
                       buildings_red := ainsert s.buildings_red s.building_id_counter
                         (Building.create s.building_id_counter .RED bt x y level),
                       building_placeable_map := gridSet s.building_placeable_map x y false } ∧
          IdEvo s { s with
                    building_id_counter := s.building_id_counter + 1,
                    buildings_red := ainsert s.buildings_red s.building_id_counter
                      (Building.create s.building_id_counter .RED bt x y level),
                    building_placeable_map := gridSet s.building_placeable_map x y false }
        apply wf_insert_building_general s
          { s with
            building_id_counter := s.building_id_counter + 1,
            buildings_red := ainsert s.buildings_red s.building_id_counter
              (Building.create s.building_id_counter .RED bt x y level),
            building_placeable_map := gridSet s.building_placeable_map x y false }
          (Building.create s.building_id_counter .RED bt x y level)
          rfl rfl rfl rfl rfl rfl rfl rfl ?_ ?_ ?_ hfree hbounds h
        · show List.Perm ((s.buildings_blue ++ (s.buildings_red ++ [(s.building_id_counter,
              Building.create s.building_id_counter .RED bt x y level)])).map Prod.fst)
            (s.building_id_counter :: (s.buildings_blue ++ s.buildings_red).map Prod.fst)
          rw [List.map_append, List.map_append, List.map_append]
          refine List.Perm.trans (List.Perm.append_left _ (List.perm_append_singleton _ _)) ?_
          exact List.perm_middle
        · intro p hp
          rcases List.mem_append.mp hp with hp | hp
          · exact Or.inl (List.mem_append_left _ hp)
          · rcases List.mem_append.mp hp with hp | hp
            · exact Or.inl (List.mem_append_right _ hp)
            · rcases List.mem_singleton.mp hp with rfl
              exact Or.inr rfl
        · intro a b
          show ((avalues s.buildings_blue) ++ avalues (s.buildings_red
                ++ [(s.building_id_counter,
              Building.create s.building_id_counter .RED bt x y level)])).countP _
            = ((avalues s.buildings_blue) ++ avalues s.buildings_red).countP _ + _
          unfold avalues
          rw [List.map_append, List.countP_append, List.countP_append, List.countP_append,
            List.map_singleton, List.countP_singleton]
          ring

/-- The health-adjusting dict write of damage_unit, phrased on the setter. -/
theorem wf_setUnits_aupdate (s : GameState) (team : Team) (k : Nat) (f : Unit' → Unit')
    (hf : ∀ a, (f a).x = a.x ∧ (f a).y = a.y ∧ (f a).id = a.id)
    (h : StateWF s) :
    StateWF (s.setUnits team (aupdate (s.units team) k f)) ∧
    IdEvo s (s.setUnits team (aupdate (s.units team) k f)) := by
  cases team
  case BLUE =>
    show StateWF { s with units_blue := aupdate s.units_blue k f } ∧
      IdEvo s { s with units_blue := aupdate s.units_blue k f }
    exact wf_update_ub s k f hf h
  case RED =>
    show StateWF { s with units_red := aupdate s.units_red k f } ∧
      IdEvo s { s with units_red := aupdate s.units_red k f }
    exact wf_update_ur s k f hf h

/-- The health-adjusting dict write of damage_building, phrased on the
setter. -/
theorem wf_setBuildings_aupdate (s : GameState) (team : Team) (k : Nat)
    (f : Building → Building)
    (hf : ∀ a, (f a).x = a.x ∧ (f a).y = a.y ∧ (f a).id = a.id)
    (h : StateWF s) :
    StateWF (s.setBuildings team (aupdate (s.buildings team) k f)) ∧
    IdEvo s (s.setBuildings team (aupdate (s.buildings team) k f)) := by
  cases team
  case BLUE =>
    show StateWF { s with buildings_blue := aupdate s.buildings_blue k f } ∧
      IdEvo s { s with buildings_blue := aupdate s.buildings_blue k f }
    exact wf_update_bb s k f hf h
  case RED =>
    show StateWF { s with buildings_red := aupdate s.buildings_red k f } ∧
      IdEvo s { s with buildings_red := aupdate s.buildings_red k f }
    exact wf_update_br s k f hf h

/-- Any non-raising damage_unit call preserves the invariant: it either
leaves the state alone, subtracts health in place, or additionally deletes
the victim. -/
theorem wf_damage_unit (s : GameState) (uid : Nat) (dmg : Int) (h : StateWF s) :
    ∀ r s', s.damage_unit uid dmg = .ok (r, s') → StateWF s' ∧ IdEvo s s' := by
  unfold GameState.damage_unit
  by_cases hd : dmg < 0
  · rw [if_pos hd]
    intro r s' hres
    exact Except.noConfusion hres
  · rw [if_neg hd]
    cases ht : s.get_team_of_unit uid with
    | none =>
      dsimp only
      intro r s' hres
      injection hres with h1
      injection h1 with h2 h3
      subst h3
      exact ⟨h, idEvo_refl s⟩
    | some team =>
      dsimp only
      have hwf1 := wf_setUnits_aupdate s team uid
        (fun u => { u with health := u.health - dmg }) (fun a => ⟨rfl, rfl, rfl⟩) h
      cases hu : alookup ((s.setUnits team (aupdate (s.units team) uid
          (fun u => { u with health := u.health - dmg }))).units team) uid with
      | none =>
        intro r s' hres
        injection hres with h1
        injection h1 with h2 h3
        subst h3
        exact hwf1
      | some u =>
        dsimp only
        by_cases hh : u.health ≤ 0
        · rw [if_pos hh]
          intro r s' hres
          injection hres with h1
          injection h1 with h2 h3
          subst h3
          have hwf2 := wf_delete_unit _ team uid hwf1.1
          exact ⟨hwf2.1, idEvo_trans hwf1.2 hwf2.2⟩
        · rw [if_neg hh]
          intro r s' hres
          injection hres with h1
          injection h1 with h2 h3
          subst h3
          exact hwf1

/-- Any non-raising damage_building call preserves the invariant. -/
theorem wf_damage_building (s : GameState) (bid : Nat) (dmg : Int) (h : StateWF s) :
    ∀ r s', s.damage_building bid dmg = .ok (r, s') → StateWF s' ∧ IdEvo s s' := by
  unfold GameState.damage_building
  by_cases hd : dmg < 0
  · rw [if_pos hd]
    intro r s' hres
    exact Except.noConfusion hres
  · rw [if_neg hd]
    cases ht : s.get_team_of_building bid with
    | none =>
      dsimp only
      intro r s' hres
      injection hres with h1
      injection h1 with h2 h3
      subst h3
      exact ⟨h, idEvo_refl s⟩
    | some team =>
      dsimp only
      have hwf1 := wf_setBuildings_aupdate s team bid
        (fun b => { b with health := b.health - dmg }) (fun a => ⟨rfl, rfl, rfl⟩) h
      cases hb : alookup ((s.setBuildings team (aupdate (s.buildings team) bid
          (fun b => { b with health := b.health - dmg }))).buildings team) bid with
      | none =>
        intro r s' hres
        injection hres with h1
        injection h1 with h2 h3
        subst h3
        exact hwf1
      | some b =>
        dsimp only
        by_cases hh : b.health ≤ 0
        · rw [if_pos hh]
          intro r s' hres
          injection hres with h1
          injection h1 with h2 h3
          subst h3
          have hwf2 := wf_delete_building _ team bid hwf1.1
          exact ⟨hwf2.1, idEvo_trans hwf1.2 hwf2.2⟩
        · rw [if_neg hh]
          intro r s' hres
          injection hres with h1
          injection h1 with h2 h3
          subst h3
          exact hwf1

/-- Generic preservation through a foldlM over the Except monad whose
accumulator carries a GameState component. -/
theorem wf_foldlM {β σ : Type} (proj : σ → GameState)
    (step : σ → β → Except Exn σ)
    (hstep : ∀ acc b out, StateWF (proj acc) → step acc b = .ok out →
      StateWF (proj out) ∧ IdEvo (proj acc) (proj out)) :
    ∀ (l : List β) (acc : σ) (out : σ), StateWF (proj acc) →
      List.foldlM step acc l = .ok out →
      StateWF (proj out) ∧ IdEvo (proj acc) (proj out) := by
  intro l
  induction l with
  | nil =>
    intro acc out hwf hres
    rw [List.foldlM_nil] at hres
    injection hres with h1
    subst h1
    exact ⟨hwf, idEvo_refl _⟩
  | cons a rest ih =>
    intro acc out hwf hres
    rw [List.foldlM_cons] at hres
    cases hs : step acc a with
    | error e =>
      rw [hs] at hres
      exact Except.noConfusion hres
    | ok m =>
      rw [hs, except_bind_ok] at hres
      have h1 := hstep acc a m hwf hs
      have h2 := ih m out h1.1 hres
      exact ⟨h2.1, idEvo_trans h1.2 h2.2⟩

/-- The unit damage pass of unit_attack_location preserves the invariant. -/
theorem wf_damage_units_pass (dmg : Int) (ids : List Nat) (s : GameState)
    (h : StateWF s) :
    ∀ dead s', RobotController.damage_units_pass dmg ids s = .ok (dead, s') →
      StateWF s' ∧ IdEvo s s' := by
  intro dead s' hres
  unfold RobotController.damage_units_pass at hres
  refine wf_foldlM Prod.snd _ ?_ (List.range ids.length) ([], s) (dead, s') h hres
  intro acc i out hwf hst
  dsimp only at hst
  cases hd : acc.2.damage_unit (ids.getD i 0) dmg with
  | error e =>
    rw [hd] at hst
    exact Except.noConfusion hst
  | ok p =>
    rw [hd, except_bind_ok] at hst
    obtain ⟨r, s₁⟩ := p
    dsimp only at hst
    have hdu := wf_damage_unit acc.2 (ids.getD i 0) dmg hwf r s₁ hd
    by_cases htr : truthy r = true
    · rw [if_pos htr] at hst
      injection hst with h1
      subst h1
      exact hdu
    · rw [if_neg htr] at hst
      injection hst with h1
      subst h1
      exact hdu

/-- The building damage pass of unit_attack_location preserves the
invariant. -/
theorem wf_damage_buildings_pass (dmg : Int) (ids : List Nat) (s : GameState)
    (h : StateWF s) :
    ∀ dead s', RobotController.damage_buildings_pass dmg ids s = .ok (dead, s') →
      StateWF s' ∧ IdEvo s s' := by
  intro dead s' hres
  unfold RobotController.damage_buildings_pass at hres
  refine wf_foldlM Prod.snd _ ?_ (List.range ids.length) ([], s) (dead, s') h hres
  intro acc i out hwf hst
  dsimp only at hst
  cases hd : acc.2.damage_building (ids.getD i 0) dmg with
  | error e =>
    rw [hd] at hst
    exact Except.noConfusion hst
  | ok p =>
    rw [hd, except_bind_ok] at hst
    obtain ⟨r, s₁⟩ := p
    dsimp only at hst
    have hdb := wf_damage_building acc.2 (ids.getD i 0) dmg hwf r s₁ hd
    by_cases htr : r = true
    · rw [if_pos htr] at hst
      injection hst with h1
      subst h1
      exact hdb
    · rw [if_neg htr] at hst
      injection hst with h1
      subst h1
      exact hdb

/-- The in-place-deleting damage loop of building_attack_location preserves
the invariant. -/
theorem wf_building_damage_pass (dmg : Int) (ids : List Nat) (s : GameState)
    (h : StateWF s) :
    ∀ rest s', RobotController.building_damage_pass dmg ids s = .ok (rest, s') →
      StateWF s' ∧ IdEvo s s' := by
  intro rest s' hres
  unfold RobotController.building_damage_pass at hres
  refine wf_foldlM Prod.snd _ ?_ (List.range ids.length) (ids, s) (rest, s') h hres
  intro acc i out hwf hst
  by_cases hlt : i < acc.1.length
  · rw [dif_pos hlt] at hst
    dsimp only at hst
    cases hd : acc.2.damage_unit (acc.1.get ⟨i, hlt⟩) dmg with
    | error e =>
      rw [hd] at hst
      exact Except.noConfusion hst
    | ok p =>
      rw [hd, except_bind_ok] at hst
      obtain ⟨r, s₁⟩ := p
      dsimp only at hst
      have hdu := wf_damage_unit acc.2 (acc.1.get ⟨i, hlt⟩) dmg hwf r s₁ hd
      by_cases htr : truthy r = true
      · rw [if_pos htr] at hst
        injection hst with h1
        subst h1
        exact hdu
      · rw [if_neg htr] at hst
        injection hst with h1
        subst h1
        exact hdu
  · rw [dif_neg hlt] at hst
    exact Except.noConfusion hst

/-- One-step unfolding of the unit retaliation loop. -/
theorem retaliate_units_cons (a e : Nat) (rest : List Nat) (s : GameState) :
    RobotController.retaliate_units a (e :: rest) s =
      match s.get_unit_from_id e with
      | none => .ok (some (some false), s)
      | some eu =>
        s.damage_unit a eu.defense >>= fun p =>
          if truthy p.1 then .ok (some (some true), p.2)
          else RobotController.retaliate_units a rest p.2 := by
  rw [RobotController.retaliate_units]

/-- One-step unfolding of the building retaliation loop. -/
theorem retaliate_buildings_cons (a e : Nat) (rest : List Nat) (s : GameState) :
    RobotController.retaliate_buildings a (e :: rest) s =
      match s.get_building_from_id e with
      | none => .ok (some (some false), s)
      | some eb =>
        s.damage_unit a eb.defense >>= fun p =>
          if truthy p.1 then .ok (some (some true), p.2)
          else RobotController.retaliate_buildings a rest p.2 := by
  rw [RobotController.retaliate_buildings]

/-- The unit retaliation loop preserves the invariant. -/
theorem wf_retaliate_units (a : Nat) :
    ∀ (l : List Nat) (s : GameState), StateWF s →
      ∀ r s', RobotController.retaliate_units a l s = .ok (r, s') →
        StateWF s' ∧ IdEvo s s' := by
  intro l
  induction l with
  | nil =>
    intro s hwf r s' hres
    rw [retaliate_units_nil] at hres
    injection hres with h1
    injection h1 with h2 h3
    subst h3
    exact ⟨hwf, idEvo_refl s⟩
  | cons e rest ih =>
    intro s hwf r s' hres
    rw [retaliate_units_cons] at hres
    cases hg : s.get_unit_from_id e with
    | none =>
      rw [hg] at hres
      dsimp only at hres
      injection hres with h1
      injection h1 with h2 h3
      subst h3
      exact ⟨hwf, idEvo_refl s⟩
    | some eu =>
      rw [hg] at hres
      dsimp only at hres
      cases hd : s.damage_unit a eu.defense with
      | error ex =>
        rw [hd] at hres
        exact Except.noConfusion hres
      | ok p =>
        rw [hd, except_bind_ok] at hres
        obtain ⟨rr, s₁⟩ := p
        dsimp only at hres
        have hdu := wf_damage_unit s a eu.defense hwf rr s₁ hd
        by_cases htr : truthy rr = true
        · rw [if_pos htr] at hres
          injection hres with h1
          injection h1 with h2 h3
          subst h3
          exact hdu
        · rw [if_neg htr] at hres
          have hrec := ih s₁ hdu.1 r s' hres
          exact ⟨hrec.1, idEvo_trans hdu.2 hrec.2⟩

/-- The building retaliation loop preserves the invariant. -/
theorem wf_retaliate_buildings (a : Nat) :
    ∀ (l : List Nat) (s : GameState), StateWF s →
      ∀ r s', RobotController.retaliate_buildings a l s = .ok (r, s') →
        StateWF s' ∧ IdEvo s s' := by
  intro l
  induction l with
  | nil =>
    intro s hwf r s' hres
    rw [retaliate_buildings_nil] at hres
    injection hres with h1
    injection h1 with h2 h3
    subst h3
    exact ⟨hwf, idEvo_refl s⟩
  | cons e rest ih =>
    intro s hwf r s' hres
    rw [retaliate_buildings_cons] at hres
    cases hg : s.get_building_from_id e with
    | none =>
      rw [hg] at hres
      dsimp only at hres
      injection hres with h1
      injection h1 with h2 h3
      subst h3
      exact ⟨hwf, idEvo_refl s⟩
    | some eb =>
      rw [hg] at hres
      dsimp only at hres
      cases hd : s.damage_unit a eb.defense with
      | error ex =>
        rw [hd] at hres
        exact Except.noConfusion hres
      | ok p =>
        rw [hd, except_bind_ok] at hres
        obtain ⟨rr, s₁⟩ := p
        dsimp only at hres
        have hdu := wf_damage_unit s a eb.defense hwf rr s₁ hd
        by_cases htr : truthy rr = true
        · rw [if_pos htr] at hres
          injection hres with h1
          injection h1 with h2 h3
          subst h3
          exact hdu
        · rw [if_neg htr] at hres
          have hrec := ih s₁ hdu.1 r s' hres
          exact ⟨hrec.1, idEvo_trans hdu.2 hrec.2⟩

/-- GameState.spawn_unit preserves the invariant. -/
theorem wf_spawn_unit_gs (s : GameState) (team : Team) (ut : UnitType) (bid : Nat)
    (lvl : Int) (h : StateWF s) :
    StateWF (s.spawn_unit team ut bid lvl).2 ∧
    IdEvo s (s.spawn_unit team ut bid lvl).2 := by
  unfold GameState.spawn_unit
  cases hb : s.get_building_from_id bid with
  | none => exact ⟨h, idEvo_refl s⟩
  | some b => exact wf_place_unit s team ut b.x b.y lvl h

/-- The spawn gateway preserves the invariant. -/
theorem wf_rc_spawn_unit (team : Team) (ut : UnitType) (bid : Nat) (s : GameState)
    (h : StateWF s) :
    StateWF (RobotController.spawn_unit team ut bid s).2 ∧
    IdEvo s (RobotController.spawn_unit team ut bid s).2 := by
  unfold RobotController.spawn_unit
  by_cases hc : RobotController.can_spawn_unit team ut bid s = true
  · rw [if_neg (by simp [hc])]
    have hsp := wf_spawn_unit_gs s team ut bid 1 h
    cases hp : s.spawn_unit team ut bid 1 with
    | mk bres st =>
      rw [hp] at hsp
      cases bres
      · dsimp only
        exact hsp
      · dsimp only
        have hsb := wf_setBalance st team (st.balance team - ut.cost) hsp.1
        exact ⟨hsb.1, idEvo_trans hsp.2 hsb.2⟩
  · rw [if_pos (by simp [hc])]
    exact ⟨h, idEvo_refl s⟩

/-- The build gateway preserves the invariant. -/
theorem wf_rc_build_building (team : Team) (bt : BuildingType) (x y : Int)
    (s : GameState) (h : StateWF s) :
    StateWF (RobotController.build_building team bt x y s).2 ∧
    IdEvo s (RobotController.build_building team bt x y s).2 := by
  unfold RobotController.build_building
  by_cases hc : RobotController.can_build_building team bt x y s = true
  · rw [if_neg (by simp [hc])]
    have hsp := wf_place_building s team bt x y 1 h
    cases hp : s.place_building team bt x y 1 with
    | mk bres st =>
      rw [hp] at hsp
      cases bres
      · dsimp only
        exact hsp
      · dsimp only
        have hsb := wf_setBalance st team (st.balance team - bt.cost) hsp.1
        exact ⟨hsb.1, idEvo_trans hsp.2 hsb.2⟩
  · rw [if_pos (by simp [hc])]
    exact ⟨h, idEvo_refl s⟩

/-- The unit sell gateway preserves the invariant on every non-raising
path. -/
theorem wf_rc_sell_unit (team : Team) (uid : Nat) (s : GameState) (h : StateWF s) :
    ∀ r s', RobotController.sell_unit team uid s = .ok (r, s') →
      StateWF s' ∧ IdEvo s s' := by
  unfold RobotController.sell_unit GameState.sell_unit
  cases hu : alookup (s.units team) uid with
  | none =>
    intro r s' hres
    exact Except.noConfusion hres
  | some u =>
    dsimp only
    by_cases hh : (u.health : Rat) < SELL_HEALTH_PERCENT * (u.type.health : Rat)
    · rw [if_pos hh]
      intro r s' hres
      injection hres with h1
      injection h1 with h2 h3
      subst h3
      exact ⟨h, idEvo_refl s⟩
    · rw [if_neg hh]
      intro r s' hres
      injection hres with h1
      injection h1 with h2 h3
      subst h3
      have h1' := wf_setBalance s team (s.balance team + u.type.cost * UNIT_SELL_DISCOUNT) h
      have h2' := wf_delete_unit _ team uid h1'.1
      exact ⟨h2'.1, idEvo_trans h1'.2 h2'.2⟩

/-- The building sell gateway preserves the invariant on every non-raising
path. -/
theorem wf_rc_sell_building (team : Team) (bid : Nat) (s : GameState) (h : StateWF s) :
    ∀ r s', RobotController.sell_building team bid s = .ok (r, s') →
      StateWF s' ∧ IdEvo s s' := by
  unfold RobotController.sell_building GameState.sell_building
  cases hb : alookup (s.buildings team) bid with
  | none =>
    intro r s' hres
    exact Except.noConfusion hres
  | some b =>
    dsimp only
    by_cases hh : (b.health : Rat) < SELL_HEALTH_PERCENT * (b.type.health : Rat)
    · rw [if_pos hh]
      intro r s' hres
      injection hres with h1
      injection h1 with h2 h3
      subst h3
      exact ⟨h, idEvo_refl s⟩
    · rw [if_neg hh]
      intro r s' hres
      injection hres with h1
      injection h1 with h2 h3
      subst h3
      have h1' := wf_setBalance s team (s.balance team + b.type.cost * UNIT_SELL_DISCOUNT) h
      have h2' := wf_delete_building _ team bid h1'.1
      exact ⟨h2'.1, idEvo_trans h1'.2 h2'.2⟩

/-- The disband gateway preserves the invariant. -/
theorem wf_disband_unit (team : Team) (uid : Nat) (s : GameState) (h : StateWF s) :
    StateWF (RobotController.disband_unit team uid s).2 ∧
    IdEvo s (RobotController.disband_unit team uid s).2 := by
  unfold RobotController.disband_unit
  by_cases hc : acontains (s.units team) uid = true
  · rw [if_neg (by simp [hc])]
    exact wf_delete_unit s team uid h
  · rw [if_pos (by simp [hc])]
    exact ⟨h, idEvo_refl s⟩

/-- The destroy gateway preserves the invariant. -/
theorem wf_destroy_building (team : Team) (bid : Nat) (s : GameState) (h : StateWF s) :
    StateWF (RobotController.destroy_building team bid s).2 ∧
    IdEvo s (RobotController.destroy_building team bid s).2 := by
  unfold RobotController.destroy_building
  by_cases hc : acontains (s.buildings team) bid = true
  · rw [if_neg (by simp [hc])]
    by_cases hm : (bid == s.main_castle_ids team) = true
    · rw [if_pos hm]
      exact ⟨h, idEvo_refl s⟩
    · rw [if_neg hm]
      exact wf_delete_building s team bid h
  · rw [if_pos (by simp [hc])]
    exact ⟨h, idEvo_refl s⟩

/-- The gold exploration gateway preserves the invariant. -/
theorem wf_explore_gold (team : Team) (e b : Nat) (s : GameState) (h : StateWF s) :
    StateWF (RobotController.explore_for_gold team e b s).2 ∧
    IdEvo s (RobotController.explore_for_gold team e b s).2 := by
  unfold RobotController.explore_for_gold
  by_cases hc : RobotController.can_explore team e b s = true
  · rw [if_neg (by simp [hc])]
    have hdb := wf_disband_unit team e s h
    cases hp : RobotController.disband_unit team e s with
    | mk bres st =>
      rw [hp] at hdb
      cases bres
      · dsimp only
        exact hdb
      · dsimp only
        have hsb := wf_setBalance st team
          (st.balance team + RobotController.floordiv2 (st.balance team)) hdb.1
        exact ⟨hsb.1, idEvo_trans hdb.2 hsb.2⟩
  · rw [if_pos (by simp [hc])]
    exact ⟨h, idEvo_refl s⟩

/-- The health exploration gateway preserves the invariant. -/
theorem wf_explore_health (team : Team) (e b t : Nat) (s : GameState) (h : StateWF s) :
    StateWF (RobotController.explore_for_health team e b t s).2 ∧
    IdEvo s (RobotController.explore_for_health team e b t s).2 := by
  unfold RobotController.explore_for_health
  by_cases hc : RobotController.can_explore team e b s = true
  · rw [if_neg (by simp [hc])]
    have hdb := wf_disband_unit team e s h
    cases hp : RobotController.disband_unit team e s with
    | mk bres st =>
      rw [hp] at hdb
      cases bres
      · dsimp only
        exact hdb
      · dsimp only
        by_cases ha : acontains (st.units team) t = true
        · rw [if_neg (by simp [ha])]
          cases hg : st.get_unit_from_id t with
          | none => exact hdb
          | some u =>
            dsimp only
            have hmu := wf_mutate_unit st t
              (fun u => { u with health := ⌈(u.type.health : Rat) * (3 / 2)⌉ }) (fun a => ⟨rfl, rfl, rfl⟩) hdb.1
            exact ⟨hmu.1, idEvo_trans hdb.2 hmu.2⟩
        · rw [if_pos (by simp [ha])]
          exact hdb
  · rw [if_pos (by simp [hc])]
    exact ⟨h, idEvo_refl s⟩

/-- The attack exploration gateway preserves the invariant. -/
theorem wf_explore_attack (team : Team) (e b t : Nat) (s : GameState) (h : StateWF s) :
    StateWF (RobotController.explore_for_attack team e b t s).2 ∧
    IdEvo s (RobotController.explore_for_attack team e b t s).2 := by
  unfold RobotController.explore_for_attack
  by_cases hc : RobotController.can_explore team e b s = true
  · rw [if_neg (by simp [hc])]
    have hdb := wf_disband_unit team e s h
    cases hp : RobotController.disband_unit team e s with
    | mk bres st =>
      rw [hp] at hdb
      cases bres
      · dsimp only
        exact hdb
      · dsimp only
        by_cases ha : acontains (st.units team) t = true
        · rw [if_neg (by simp [ha])]
          cases hg : st.get_unit_from_id t with
          | none => exact hdb
          | some u =>
            dsimp only
            have hmu := wf_mutate_unit st t
              (fun u => { u with damage := u.damage + 2 }) (fun a => ⟨rfl, rfl, rfl⟩) hdb.1
            exact ⟨hmu.1, idEvo_trans hdb.2 hmu.2⟩
        · rw [if_pos (by simp [ha])]
          exact hdb
  · rw [if_pos (by simp [hc])]
    exact ⟨h, idEvo_refl s⟩

/-- The defense exploration gateway preserves the invariant. -/
theorem wf_explore_defense (team : Team) (e b t : Nat) (s : GameState) (h : StateWF s) :
    StateWF (RobotController.explore_for_defense team e b t s).2 ∧
    IdEvo s (RobotController.explore_for_defense team e b t s).2 := by
  unfold RobotController.explore_for_defense
  by_cases hc : RobotController.can_explore team e b s = true
  · rw [if_neg (by simp [hc])]
    have hdb := wf_disband_unit team e s h
    cases hp : RobotController.disband_unit team e s with
    | mk bres st =>
      rw [hp] at hdb
      cases bres
      · dsimp only
        exact hdb
      · dsimp only
        by_cases ha : acontains (st.units team) t = true
        · rw [if_neg (by simp [ha])]
          cases hg : st.get_unit_from_id t with
          | none => exact hdb
          | some u =>
            dsimp only
            have hmu := wf_mutate_unit st t
              (fun u => { u with defense := u.defense + 2 }) (fun a => ⟨rfl, rfl, rfl⟩) hdb.1
            exact ⟨hmu.1, idEvo_trans hdb.2 hmu.2⟩
        · rw [if_pos (by simp [ha])]
          exact hdb
  · rw [if_pos (by simp [hc])]
    exact ⟨h, idEvo_refl s⟩

/-- The bridge-building gateway preserves the invariant: retiling the map
does not move its dimensions or castle anchors, and the engineer is then
disbanded. -/
theorem wf_build_bridge (team : Team) (e : Nat) (s : GameState) (h : StateWF s) :
    StateWF (RobotController.build_bridge team e s).2 ∧
    IdEvo s (RobotController.build_bridge team e s).2 := by
  unfold RobotController.build_bridge
  by_cases hc : RobotController.can_build_bridge team e s = true
  · rw [if_neg (by simp [hc])]
    cases hg : s.get_unit_from_id e with
    | none => exact ⟨h, idEvo_refl s⟩
    | some eng =>
      dsimp only
      have hfr := wf_frame s { s with map := s.map.setTile eng.x eng.y .BRIDGE }
        rfl rfl rfl rfl rfl rfl rfl rfl rfl rfl rfl rfl h
      have hdb := wf_disband_unit team e
        { s with map := s.map.setTile eng.x eng.y .BRIDGE } hfr.1
      cases hp : RobotController.disband_unit team e
          { s with map := s.map.setTile eng.x eng.y .BRIDGE } with
      | mk bres st =>
        rw [hp] at hdb
        cases bres
        · dsimp only
          exact ⟨hdb.1, idEvo_trans hfr.2 hdb.2⟩
        · dsimp only
          exact ⟨hdb.1, idEvo_trans hfr.2 hdb.2⟩
  · rw [if_pos (by simp [hc])]
    exact ⟨h, idEvo_refl s⟩

/-- Preservation through the tail of unit_attack_location: both damage
passes, the hit-list deletions and both retaliation loops, over arbitrary
hit lists. -/
theorem wf_attack_tail (a : Nat) (dmg : Int) (hitU hitB : List Nat) (s₁ : GameState)
    (h : StateWF s₁) :
    ∀ r s',
      (RobotController.damage_units_pass dmg hitU s₁ >>= fun p1 =>
        RobotController.del_indices p1.1 hitU >>= fun hitU2 =>
        RobotController.damage_buildings_pass dmg hitB p1.2 >>= fun p2 =>
        RobotController.del_indices p2.1 hitB >>= fun hitB2 =>
        RobotController.retaliate_units a hitU2 p2.2 >>= fun p3 =>
        match p3.1 with
        | some res => pure (res, p3.2)
        | none =>
          RobotController.retaliate_buildings a hitB2 p3.2 >>= fun p4 =>
          match p4.1 with
          | some res => pure (res, p4.2)
          | none => pure (some true, p4.2)) = .ok (r, s') →
      StateWF s' ∧ IdEvo s₁ s' := by
  intro r s' hres
  cases hd1 : RobotController.damage_units_pass dmg hitU s₁ with
  | error e =>
    rw [hd1] at hres
    exact Except.noConfusion hres
  | ok p1 =>
    rw [hd1, except_bind_ok] at hres
    obtain ⟨dead1, s₂⟩ := p1
    dsimp only at hres
    have h1 := wf_damage_units_pass dmg hitU s₁ h dead1 s₂ hd1
    cases he1 : RobotController.del_indices dead1 hitU with
    | error e =>
      rw [he1] at hres
      exact Except.noConfusion hres
    | ok hitU2 =>
      rw [he1, except_bind_ok] at hres
      cases hd2 : RobotController.damage_buildings_pass dmg hitB s₂ with
      | error e =>
        rw [hd2] at hres
        exact Except.noConfusion hres
      | ok p2 =>
        rw [hd2, except_bind_ok] at hres
        obtain ⟨dead2, s₃⟩ := p2
        dsimp only at hres
        have h2 := wf_damage_buildings_pass dmg hitB s₂ h1.1 dead2 s₃ hd2
        cases he2 : RobotController.del_indices dead2 hitB with
        | error e =>
          rw [he2] at hres
          exact Except.noConfusion hres
        | ok hitB2 =>
          rw [he2, except_bind_ok] at hres
          cases hr1 : RobotController.retaliate_units a hitU2 s₃ with
          | error e =>
            rw [hr1] at hres
            exact Except.noConfusion hres
          | ok p3 =>
            rw [hr1, except_bind_ok] at hres
            obtain ⟨r1, s₄⟩ := p3
            dsimp only at hres
            have h3 := wf_retaliate_units a hitU2 s₃ h2.1 r1 s₄ hr1
            have hEvo3 : IdEvo s₁ s₄ := idEvo_trans h1.2 (idEvo_trans h2.2 h3.2)
            cases r1 with
            | some res =>
              dsimp only at hres
              injection hres with hp1
              injection hp1 with hp2 hp3
              subst hp3
              exact ⟨h3.1, hEvo3⟩
            | none =>
              dsimp only at hres
              cases hr2 : RobotController.retaliate_buildings a hitB2 s₄ with
              | error e =>
                rw [hr2] at hres
                exact Except.noConfusion hres
              | ok p4 =>
                rw [hr2, except_bind_ok] at hres
                obtain ⟨r2, s₅⟩ := p4
                dsimp only at hres
                have h4 := wf_retaliate_buildings a hitB2 s₄ h3.1 r2 s₅ hr2
                have hEvo4 : IdEvo s₁ s₅ := idEvo_trans hEvo3 h4.2
                cases r2 with
                | some res =>
                  dsimp only at hres
                  injection hres with hp1
                  injection hp1 with hp2 hp3
                  subst hp3
                  exact ⟨h4.1, hEvo4⟩
                | none =>
                  dsimp only at hres
                  injection hres with hp1
                  injection hp1 with hp2 hp3
                  subst hp3
                  exact ⟨h4.1, hEvo4⟩

/-- unit_attack_location preserves the invariant on every non-raising
path. -/
theorem wf_unit_attack_location (team : Team) (a : Nat) (x y : Int) (s : GameState)
    (h : StateWF s) :
    ∀ r s', RobotController.unit_attack_location team a x y s = .ok (r, s') →
      StateWF s' ∧ IdEvo s s' := by
  unfold RobotController.unit_attack_location
  by_cases hc : RobotController.can_unit_attack_location team a x y s = true
  case neg =>
    rw [if_pos (by simp [hc])]
    intro r s' hres
    injection hres with h1
    injection h1 with h2 h3
    subst h3
    exact ⟨h, idEvo_refl s⟩
  case pos =>
    rw [if_neg (by simp [hc])]
    cases hg : s.get_unit_from_id a with
    | none =>
      dsimp only
      intro r s' hres
      injection hres with h1
      injection h1 with h2 h3
      subst h3
      exact ⟨h, idEvo_refl s⟩
    | some au =>
      dsimp only
      intro r s' hres
      have hmu := wf_mutate_unit s a
        (fun u => { u with turn_actions_remaining := u.turn_actions_remaining - 1 })
        (fun u => ⟨rfl, rfl, rfl⟩) h
      refine (fun ht => ⟨ht.1, idEvo_trans hmu.2 ht.2⟩)
        (wf_attack_tail a au.damage _ _ _ hmu.1 r s' hres)

/-- unit_attack_unit preserves the invariant on every non-raising path. -/
theorem wf_unit_attack_unit (team : Team) (a t : Nat) (s : GameState) (h : StateWF s) :
    ∀ r s', RobotController.unit_attack_unit team a t s = .ok (r, s') →
      StateWF s' ∧ IdEvo s s' := by
  unfold RobotController.unit_attack_unit
  by_cases hc : RobotController.can_unit_attack_unit team a t s = true
  · rw [if_neg (by simp [hc])]
    cases hg : s.get_unit_from_id t with
    | none =>
      dsimp only
      intro r s' hres
      injection hres with h1
      injection h1 with h2 h3
      subst h3
      exact ⟨h, idEvo_refl s⟩
    | some tu =>
      dsimp only
      exact wf_unit_attack_location team a tu.x tu.y s h
  · rw [if_pos (by simp [hc])]
    intro r s' hres
    injection hres with h1
    injection h1 with h2 h3
    subst h3
    exact ⟨h, idEvo_refl s⟩

/-- unit_attack_building preserves the invariant on every non-raising
path. -/
theorem wf_unit_attack_building (team : Team) (a t : Nat) (s : GameState)
    (h : StateWF s) :
    ∀ r s', RobotController.unit_attack_building team a t s = .ok (r, s') →
      StateWF s' ∧ IdEvo s s' := by
  unfold RobotController.unit_attack_building
  by_cases hc : RobotController.can_unit_attack_building team a t s = true
  · rw [if_neg (by simp [hc])]
    cases hg : s.get_building_from_id t with
    | none =>
      dsimp only
      intro r s' hres
      injection hres with h1
      injection h1 with h2 h3
      subst h3
      exact ⟨h, idEvo_refl s⟩
    | some tb =>
      dsimp only
      exact wf_unit_attack_location team a tb.x tb.y s h
  · rw [if_pos (by simp [hc])]
    intro r s' hres
    injection hres with h1
    injection h1 with h2 h3
    subst h3
    exact ⟨h, idEvo_refl s⟩

/-- Preservation through the tail of building_attack_location. -/
theorem wf_battack_tail (dmg : Int) (hitU : List Nat) (s₁ : GameState)
    (h : StateWF s₁) :
    ∀ r s',
      (RobotController.building_damage_pass dmg hitU s₁ >>= fun p =>
        pure (some true, p.2)) = .ok (r, s') →
      StateWF s' ∧ IdEvo s₁ s' := by
  intro r s' hres
  cases hd : RobotController.building_damage_pass dmg hitU s₁ with
  | error e =>
    rw [hd] at hres
    exact Except.noConfusion hres
  | ok p =>
    rw [hd, except_bind_ok] at hres
    obtain ⟨rest, s₂⟩ := p
    dsimp only at hres
    injection hres with h1
    injection h1 with h2 h3
    subst h3
    exact wf_building_damage_pass dmg hitU s₁ h rest s₂ hd

/-- building_attack_location preserves the invariant on every non-raising
path. -/
theorem wf_building_attack_location (team : Team) (a : Nat) (x y : Int)
    (s : GameState) (h : StateWF s) :
    ∀ r s', RobotController.building_attack_location team a x y s = .ok (r, s') →
      StateWF s' ∧ IdEvo s s' := by
  unfold RobotController.building_attack_location
  by_cases hc : RobotController.can_building_attack_location team a x y s = true
  · rw [if_neg (by simp [hc])]
    cases hg : s.get_building_from_id a with
    | none =>
      dsimp only
      intro r s' hres
      injection hres with h1
      injection h1 with h2 h3
      subst h3
      exact ⟨h, idEvo_refl s⟩
    | some ab =>
      dsimp only
      intro r s' hres
      have hmb := wf_mutate_building s a
        (fun b => { b with turn_actions_remaining := b.turn_actions_remaining - 1 })
        (fun b => ⟨rfl, rfl, rfl⟩) h
      refine (fun ht => ⟨ht.1, idEvo_trans hmb.2 ht.2⟩)
        (wf_battack_tail ab.damage _ _ hmb.1 r s' hres)
  · rw [if_pos (by simp [hc])]
    intro r s' hres
    injection hres with h1
    injection h1 with h2 h3
    subst h3
    exact ⟨h, idEvo_refl s⟩

/-- building_attack_unit preserves the invariant on every non-raising
path. -/
theorem wf_building_attack_unit (team : Team) (a t : Nat) (s : GameState)
    (h : StateWF s) :
    ∀ r s', RobotController.building_attack_unit team a t s = .ok (r, s') →
      StateWF s' ∧ IdEvo s s' := by
  unfold RobotController.building_attack_unit
  by_cases hc : RobotController.can_building_attack_unit team a t s = true
  · rw [if_neg (by simp [hc])]
    cases hg : s.get_unit_from_id t with
    | none =>
      dsimp only
      intro r s' hres
      injection hres with h1
      injection h1 with h2 h3
      subst h3
      exact ⟨h, idEvo_refl s⟩
    | some tu =>
      dsimp only
      exact wf_building_attack_location team a tu.x tu.y s h
  · rw [if_pos (by simp [hc])]
    intro r s' hres
    injection hres with h1
    injection h1 with h2 h3
    subst h3
    exact ⟨h, idEvo_refl s⟩

/-- aupdate does not change which keys acontains sees. -/
theorem acontains_aupdate {α : Type} (l : List (Nat × α)) (k0 k : Nat) (f : α → α) :
    acontains (aupdate l k0 f) k = acontains l k := by
  induction l with
  | nil => rfl
  | cons q rest ih =>
    unfold acontains at ih ⊢
    by_cases h : (q.1 == k0) = true
    · rw [aupdate, if_pos h, List.any_cons, List.any_cons, ih]
    · rw [aupdate, if_neg h, List.any_cons, List.any_cons, ih]

/-- The erased key is gone from the keys. -/
theorem aerase_key_not_mem {α : Type} (l : List (Nat × α)) (k : Nat) :
    k ∉ (aerase l k).map Prod.fst := by
  intro hk
  rcases List.mem_map.mp hk with ⟨p, hp, hpk⟩
  have := List.of_mem_filter hp
  rw [bne_iff_ne] at this
  exact this (hpk.trans rfl)

/-- gridGet only looks at the toNat images of the coordinates. -/
theorem gridGet_congr (g : List (List Bool)) (x y x' y' : Int)
    (hx : x.toNat = x'.toNat) (hy : y.toNat = y'.toNat) :
    gridGet g x y = gridGet g x' y' := by
  unfold gridGet
  rw [hx, hy]

/-- A direction other than STAY displaces at least one coordinate. -/
theorem dir_moves (dir : Direction) (h : (dir == Direction.STAY) = false) :
    ¬ (dir.dx = 0 ∧ dir.dy = 0) := by
  cases dir <;> simp_all [Direction.dx, Direction.dy]

/-- What a passing can_move_unit_in_direction check guarantees, given the
unit it resolved. -/
theorem can_move_facts (team : Team) (k : Nat) (dir : Direction) (s : GameState)
    (u : Unit') (hg : s.get_unit_from_id k = some u)
    (hc : RobotController.can_move_unit_in_direction team k dir s = true) :
    acontains (s.units team) k = true ∧
    s.map.in_bounds (u.x + dir.dx) (u.y + dir.dy) = true ∧
    ((dir == Direction.STAY) = true ∨
      ((dir == Direction.STAY) = false ∧
        gridGet s.unit_placeable_map (u.x + dir.dx) (u.y + dir.dy) = true)) := by
  unfold RobotController.can_move_unit_in_direction at hc
  by_cases ha : acontains (s.units team) k = true
  case neg =>
    rw [if_pos (by simp [ha])] at hc
    exact absurd hc (by simp)
  case pos =>
    rw [if_neg (by simp [ha])] at hc
    rw [hg] at hc
    dsimp only [RobotController.new_location] at hc
    by_cases hb : s.map.in_bounds (u.x + dir.dx) (u.y + dir.dy) = true
    case neg =>
      rw [if_pos (by simp [hb])] at hc
      exact absurd hc (by simp)
    case pos =>
      rw [if_neg (by simp [hb])] at hc
      refine ⟨ha, hb, ?_⟩
      by_cases hw : u.walkable_tiles.contains
          (s.map.tileAt (u.x + dir.dx) (u.y + dir.dy)) = true
      case neg =>
        rw [if_pos hw] at hc
        exact absurd hc (by simp)
      case pos =>
        rw [if_neg (not_not_intro hw)] at hc
        cases hstay : (dir == Direction.STAY) with
        | true => exact Or.inl rfl
        | false =>
          right
          refine ⟨rfl, ?_⟩
          by_cases hgg : gridGet s.unit_placeable_map (u.x + dir.dx) (u.y + dir.dy) = true
          · exact hgg
          · have hgf : gridGet s.unit_placeable_map (u.x + dir.dx) (u.y + dir.dy)
                = false := by
              cases hv : gridGet s.unit_placeable_map (u.x + dir.dx) (u.y + dir.dy)
              · rfl
              · exact absurd hv hgg
            rw [if_pos (by rw [hstay, hgf]; rfl)] at hc
            exact absurd hc (by simp)

/-- The core argument for re-inserting a live unit (its id already allocated
below the counter but absent from the registry) on a free, in-bounds tile. -/
theorem wf_reinsert_unit_general (t t' : GameState) (v : Unit')
    (hmap : t'.map = t.map)
    (hug : t'.unit_placeable_map = gridSet t.unit_placeable_map v.x v.y false)
    (hbg : t'.building_placeable_map = t.building_placeable_map)
    (hbb : t'.buildings_blue = t.buildings_blue)
    (hbr : t'.buildings_red = t.buildings_red)
    (huc : t'.unit_id_counter = t.unit_id_counter)
    (hbc : t'.building_id_counter = t.building_id_counter)
    (hvlt : v.id < t.unit_id_counter)
    (hnotmem : v.id ∉ unitIds t)
    (hperm : List.Perm (unitIds t') (v.id :: unitIds t))
    (hpairs : ∀ p ∈ t'.units_blue ++ t'.units_red,
      p ∈ t.units_blue ++ t.units_red ∨ p = (v.id, v))
    (hcnt : ∀ a b : Int, unitCountAt t' a b
      = unitCountAt t a b + (if ((v.x == a) && (v.y == b)) = true then 1 else 0))
    (hfree : gridGet t.unit_placeable_map v.x v.y = true)
    (hbounds : t.map.in_bounds v.x v.y = true)
    (h : StateWF t) : StateWF t' := by
  have hball : buildingsAll t' = buildingsAll t := by
    unfold buildingsAll
    rw [hbb, hbr]
  have hbids : buildingIds t' = buildingIds t := by
    unfold buildingIds
    rw [hbb, hbr]
  have hbcnt : ∀ a b : Int, buildingCountAt t' a b = buildingCountAt t a b := by
    intro a b
    unfold buildingCountAt
    rw [hball]
  have hvals : ∀ w ∈ unitsAll t', w ∈ unitsAll t ∨ w = v := by
    intro w hw
    unfold unitsAll avalues at hw ⊢
    rw [← List.map_append] at hw ⊢
    rcases List.mem_map.mp hw with ⟨p, hp, hpv⟩
    rcases hpairs p hp with hp' | hp'
    · exact Or.inl (List.mem_map.mpr ⟨p, hp', hpv⟩)
    · right
      rw [← hpv, hp']
  have hvb := hbounds
  rw [in_bounds_iff] at hvb
  obtain ⟨hx0, hxw, hy0, hyh⟩ := hvb
  refine ⟨?_, ?_, ?_, ?_, ?_, ?_, ?_, ?_, ?_, ?_, ?_, ?_, ?_, ?_, ?_, ?_⟩
  · rw [hug, hmap, gridSet_length]
    exact h.ugrid_len
  · rw [hug, hmap]
    exact gridSet_row_length _ v.x v.y false _ h.ugrid_rows
  · rw [hbg, hmap]
    exact h.bgrid_len
  · rw [hbg, hmap]
    exact h.bgrid_rows
  · intro w hw
    rw [hmap]
    rcases hvals w hw with hw' | hw'
    · exact h.upos_bounds w hw'
    · rw [hw']
      exact hbounds
  · intro b hb
    rw [hmap]
    rw [hball] at hb
    exact h.bpos_bounds b hb
  · rw [List.Perm.nodup_iff hperm]
    exact List.nodup_cons.mpr ⟨hnotmem, h.ukeys_nodup⟩
  · rw [hbids]
    exact h.bkeys_nodup
  · intro k hk
    rw [huc]
    rcases List.mem_cons.mp ((List.Perm.mem_iff hperm).mp hk) with hk' | hk'
    · omega
    · exact h.ukeys_lt k hk'
  · intro k hk
    rw [hbids] at hk
    rw [hbc]
    exact h.bkeys_lt k hk
  · intro p hp
    rcases hpairs p hp with hp' | hp'
    · exact h.ukey_eq_id p hp'
    · rw [hp']
  · intro p hp
    rw [hbb, hbr] at hp
    exact h.bkey_eq_id p hp
  · intro i hi j hj
    rw [hmap] at hi hj
    by_cases hxy : ((i : Int) = v.x ∧ (j : Int) = v.y)
    · obtain ⟨hix, hjy⟩ := hxy
      have hgf : gridGet t'.unit_placeable_map i j = false := by
        rw [hug, hix, hjy]
        refine gridGet_gridSet_self _ _ _ _ ?_ ?_
        · rw [h.ugrid_len]
          omega
        · rw [grid_row_len _ _ _ _ h.ugrid_len h.ugrid_rows (by omega)]
          omega
      have hzero : unitCountAt t i j = 0 := by
        have hiff := h.u_exact i hi j hj
        have hle := h.u_atmost i hi j hj
        rw [hix, hjy] at hiff hle ⊢
        have : ¬ (gridGet t.unit_placeable_map v.x v.y = false) := by
          rw [hfree]
          simp
        have : ¬ (unitCountAt t v.x v.y = 1) := fun hcount => this (hiff.mpr hcount)
        omega
      have hone : unitCountAt t' i j = 1 := by
        have := hcnt i j
        rw [hix, hjy] at this ⊢
        simp only [beq_self_eq_true, Bool.and_self, if_pos] at this
        rw [hix, hjy] at hzero
        omega
      rw [hgf, hone]
      simp
    · have hne : ((i : Int)).toNat ≠ (v.x).toNat ∨ ((j : Int)).toNat ≠ (v.y).toNat := by
        by_cases hxx : (i : Int) = v.x
        · refine Or.inr ?_
          have hyy : (j : Int) ≠ v.y := fun hEq => hxy ⟨hxx, hEq⟩
          omega
        · exact Or.inl (by omega)
      have hgeq : gridGet t'.unit_placeable_map i j = gridGet t.unit_placeable_map i j := by
        rw [hug]
        exact gridGet_gridSet_ne _ v.x v.y i j false hne
      have hite : (if ((v.x == (i : Int)) && (v.y == (j : Int))) = true then 1 else 0)
          = 0 := by
        have : ¬ (((v.x == (i : Int)) && (v.y == (j : Int))) = true) := by
          intro hT
          simp only [Bool.and_eq_true, beq_iff_eq] at hT
          exact hxy ⟨hT.1.symm, hT.2.symm⟩
        rw [if_neg this]
      have hceq : unitCountAt t' i j = unitCountAt t i j := by
        have := hcnt i j
        omega
      rw [hgeq, hceq]
      exact h.u_exact i hi j hj
  · intro i hi j hj
    rw [hmap] at hi hj
    have hle := h.u_atmost i hi j hj
    have hiff := h.u_exact i hi j hj
    have := hcnt i j
    by_cases hxy : (((v.x == (i : Int)) && (v.y == (j : Int))) = true)
    · have hxi : v.x = (i : Int) := by
        simp only [Bool.and_eq_true, beq_iff_eq] at hxy
        exact hxy.1
      have hyj : v.y = (j : Int) := by
        simp only [Bool.and_eq_true, beq_iff_eq] at hxy
        exact hxy.2
      have hzero : unitCountAt t i j = 0 := by
        have hnot : ¬ (gridGet t.unit_placeable_map i j = false) := by
          rw [← hxi, ← hyj, hfree]
          simp
        have : ¬ (unitCountAt t i j = 1) := fun hcount => hnot (hiff.mpr hcount)
        omega
      simp only [hxy, if_pos] at this
      omega
    · rw [if_neg hxy] at this
      omega
  · intro i hi j hj hc1 hc2
    rw [hmap] at hi hj hc1 hc2
    rw [hbg, hbcnt]
    exact h.b_exact i hi j hj hc1 hc2
  · intro i hi j hj hc1 hc2
    rw [hmap] at hi hj hc1 hc2
    rw [hbcnt]
    exact h.b_atmost i hi j hj hc1 hc2

/-- move_unit_in_direction preserves the invariant: the source frees the old
cell, rewrites the stored coordinates in place and marks the destination, so
the net effect permutes the stored unit into its new pose. -/
theorem wf_move_unit (team : Team) (k : Nat) (dir : Direction) (s : GameState)
    (h : StateWF s) :
    StateWF (RobotController.move_unit_in_direction team k dir s).2 ∧
    IdEvo s (RobotController.move_unit_in_direction team k dir s).2 := by
  unfold RobotController.move_unit_in_direction
  by_cases hc : RobotController.can_move_unit_in_direction team k dir s = true
  case neg =>
    rw [if_pos (by simp [hc])]
    exact ⟨h, idEvo_refl s⟩
  case pos =>
    rw [if_neg (by simp [hc])]
    cases hg : s.get_unit_from_id k with
    | none => exact ⟨h, idEvo_refl s⟩
    | some u =>
      dsimp only [RobotController.new_location]
      obtain ⟨hacont, hbounds, hstay_or_free⟩ := can_move_facts team k dir s u hg hc
      have htm : s.get_team_of_unit k = some team :=
        get_team_of_unit_eq s team k h.ukeys_nodup hacont
      have hlk : alookup (s.units team) k = some u := by
        have hg' := hg
        unfold GameState.get_unit_from_id at hg'
        rw [htm] at hg'
        exact hg'
      cases team
      case BLUE =>
        have hkid : k = u.id := h.ukey_eq_id (k, u) (List.mem_append_left _ (alookup_mem hlk))
        have humem : u ∈ unitsAll s := by
          refine List.mem_append_left _ ?_
          exact List.mem_map.mpr ⟨(k, u), alookup_mem hlk, rfl⟩
        have hub' := h.upos_bounds u humem
        rw [in_bounds_iff] at hub'
        obtain ⟨hux0, huxw, huy0, huyh⟩ := hub'
        have hdb' := hbounds
        rw [in_bounds_iff] at hdb'
        obtain ⟨hdx0, hdxw, hdy0, hdyh⟩ := hdb'
        have hnd3 := List.nodup_append.mp (by
            have := h.ukeys_nodup
            unfold unitIds at this
            rwa [List.map_append] at this)
        have hkteam : k ∈ s.units_blue.map Prod.fst :=
          List.mem_map.mpr ⟨(k, u), alookup_mem hlk, rfl⟩
        have hkids : k ∈ unitIds s :=
          List.mem_map.mpr ⟨(k, u), List.mem_append_left _ (alookup_mem hlk), rfl⟩
        have hm1 : s.mutate_unit k (fun (w : Unit') => { w with turn_movement_remaining := w.turn_movement_remaining - (s.map.tileAt (u.x + dir.dx) (u.y + dir.dy)).movement_cost }) = { s with units_blue := aupdate s.units_blue k (fun (w : Unit') => { w with turn_movement_remaining := w.turn_movement_remaining - (s.map.tileAt (u.x + dir.dx) (u.y + dir.dy)).movement_cost }) } := by
          unfold GameState.mutate_unit
          rw [htm]
          rfl
        rw [hm1]
        dsimp only
        have htm2 : GameState.get_team_of_unit { s with units_blue := aupdate s.units_blue k (fun (w : Unit') => { w with turn_movement_remaining := w.turn_movement_remaining - (s.map.tileAt (u.x + dir.dx) (u.y + dir.dy)).movement_cost }), unit_placeable_map := gridSet s.unit_placeable_map u.x u.y true } k = some Team.BLUE := by
          show (if acontains s.units_red k = true then some Team.RED else if acontains (aupdate s.units_blue k (fun (w : Unit') => { w with turn_movement_remaining := w.turn_movement_remaining - (s.map.tileAt (u.x + dir.dx) (u.y + dir.dy)).movement_cost })) k = true then some Team.BLUE else none) = some Team.BLUE
          have hnr : acontains s.units_red k = false := by
            cases hval : acontains s.units_red k
            · rfl
            · exact absurd ((acontains_iff _ _).mp hval) (fun hmr => hnd3.2.2 hkteam hmr)
          have hab : acontains (aupdate s.units_blue k (fun (w : Unit') => { w with turn_movement_remaining := w.turn_movement_remaining - (s.map.tileAt (u.x + dir.dx) (u.y + dir.dy)).movement_cost })) k = true := by
            rw [acontains_aupdate]
            exact (acontains_iff _ _).mpr hkteam
          rw [if_neg (by simp [hnr]), if_pos hab]
        have hm2 : GameState.mutate_unit { s with units_blue := aupdate s.units_blue k (fun (w : Unit') => { w with turn_movement_remaining := w.turn_movement_remaining - (s.map.tileAt (u.x + dir.dx) (u.y + dir.dy)).movement_cost }), unit_placeable_map := gridSet s.unit_placeable_map u.x u.y true } k (fun (w : Unit') => { w with x := u.x + dir.dx, y := u.y + dir.dy }) = { s with units_blue := aupdate (aupdate s.units_blue k (fun (w : Unit') => { w with turn_movement_remaining := w.turn_movement_remaining - (s.map.tileAt (u.x + dir.dx) (u.y + dir.dy)).movement_cost })) k (fun (w : Unit') => { w with x := u.x + dir.dx, y := u.y + dir.dy }), unit_placeable_map := gridSet s.unit_placeable_map u.x u.y true } := by
          unfold GameState.mutate_unit
          rw [htm2]
          rfl
        rw [hm2]
        dsimp only
        have hdel : s.delete_unit Team.BLUE k = { s with units_blue := aerase s.units_blue k, unit_placeable_map := gridSet s.unit_placeable_map u.x u.y true } := by
          unfold GameState.delete_unit
          rw [show alookup (s.units Team.BLUE) k = some u from hlk]
          rfl
        have hwt : StateWF { s with units_blue := aerase s.units_blue k, unit_placeable_map := gridSet s.unit_placeable_map u.x u.y true } := by
          rw [← hdel]
          exact (wf_delete_unit s Team.BLUE k h).1
        have hwDp : StateWF { s with units_blue := ainsert (aerase s.units_blue k) k ((fun (w : Unit') => { w with x := u.x + dir.dx, y := u.y + dir.dy }) ((fun (w : Unit') => { w with turn_movement_remaining := w.turn_movement_remaining - (s.map.tileAt (u.x + dir.dx) (u.y + dir.dy)).movement_cost }) u)), unit_placeable_map := gridSet (gridSet s.unit_placeable_map u.x u.y true) (u.x + dir.dx) (u.y + dir.dy) false } := by
          refine wf_reinsert_unit_general { s with units_blue := aerase s.units_blue k, unit_placeable_map := gridSet s.unit_placeable_map u.x u.y true } { s with units_blue := ainsert (aerase s.units_blue k) k ((fun (w : Unit') => { w with x := u.x + dir.dx, y := u.y + dir.dy }) ((fun (w : Unit') => { w with turn_movement_remaining := w.turn_movement_remaining - (s.map.tileAt (u.x + dir.dx) (u.y + dir.dy)).movement_cost }) u)), unit_placeable_map := gridSet (gridSet s.unit_placeable_map u.x u.y true) (u.x + dir.dx) (u.y + dir.dy) false } ((fun (w : Unit') => { w with x := u.x + dir.dx, y := u.y + dir.dy }) ((fun (w : Unit') => { w with turn_movement_remaining := w.turn_movement_remaining - (s.map.tileAt (u.x + dir.dx) (u.y + dir.dy)).movement_cost }) u)) rfl rfl rfl rfl rfl rfl rfl ?_ ?_ ?_ ?_ ?_ ?_ ?_ hwt
          · show u.id < s.unit_id_counter
            exact hkid ▸ h.ukeys_lt k hkids
          · show u.id ∉ ((aerase s.units_blue k ++ s.units_red).map Prod.fst)
            intro hmem
            rw [List.map_append] at hmem
            rcases List.mem_append.mp hmem with hm | hm
            · rw [← hkid] at hm
              exact aerase_key_not_mem s.units_blue k hm
            · rw [← hkid] at hm
              exact hnd3.2.2 hkteam hm
          · show List.Perm (((aerase s.units_blue k ++ [(k, ((fun (w : Unit') => { w with x := u.x + dir.dx, y := u.y + dir.dy }) ((fun (w : Unit') => { w with turn_movement_remaining := w.turn_movement_remaining - (s.map.tileAt (u.x + dir.dx) (u.y + dir.dy)).movement_cost }) u)))]) ++ s.units_red).map Prod.fst) (u.id :: ((aerase s.units_blue k ++ s.units_red).map Prod.fst))
            rw [← hkid]
            rw [List.map_append, List.map_append, List.map_append]
            exact List.Perm.append_right _ (List.perm_append_singleton _ _)
          · intro p hp
            rcases List.mem_append.mp hp with hp | hp
            · rcases List.mem_append.mp hp with hp | hp
              · exact Or.inl (List.mem_append_left _ hp)
              · rcases List.mem_singleton.mp hp with rfl
                right
                show ((k, ((fun (w : Unit') => { w with x := u.x + dir.dx, y := u.y + dir.dy }) ((fun (w : Unit') => { w with turn_movement_remaining := w.turn_movement_remaining - (s.map.tileAt (u.x + dir.dx) (u.y + dir.dy)).movement_cost }) u))) : Nat × Unit') = (u.id, ((fun (w : Unit') => { w with x := u.x + dir.dx, y := u.y + dir.dy }) ((fun (w : Unit') => { w with turn_movement_remaining := w.turn_movement_remaining - (s.map.tileAt (u.x + dir.dx) (u.y + dir.dy)).movement_cost }) u)))
                rw [← hkid]
            · exact Or.inl (List.mem_append_right _ hp)
          · intro a b
            show ((avalues (aerase s.units_blue k ++ [(k, ((fun (w : Unit') => { w with x := u.x + dir.dx, y := u.y + dir.dy }) ((fun (w : Unit') => { w with turn_movement_remaining := w.turn_movement_remaining - (s.map.tileAt (u.x + dir.dx) (u.y + dir.dy)).movement_cost }) u)))])) ++ avalues s.units_red).countP _ = ((avalues (aerase s.units_blue k)) ++ avalues s.units_red).countP _ + _
            unfold avalues
            rw [List.map_append, List.countP_append, List.countP_append, List.countP_append, List.map_singleton, List.countP_singleton]
            ring
          · show gridGet (gridSet s.unit_placeable_map u.x u.y true) (u.x + dir.dx) (u.y + dir.dy) = true
            rcases hstay_or_free with hstay | ⟨hnstay, hfree2⟩
            · have hdd : dir = Direction.STAY := by
                have := hstay
                rwa [beq_iff_eq] at this
              subst hdd
              rw [gridGet_congr (gridSet s.unit_placeable_map u.x u.y true) (u.x + Direction.STAY.dx) (u.y + Direction.STAY.dy) u.x u.y (by show (u.x + (0 : Int)).toNat = u.x.toNat; omega) (by show (u.y + (0 : Int)).toNat = u.y.toNat; omega)]
              refine gridGet_gridSet_self _ _ _ _ ?_ ?_
              · rw [h.ugrid_len]
                omega
              · rw [grid_row_len _ _ _ _ h.ugrid_len h.ugrid_rows (by omega)]
                omega
            · have hmoves := dir_moves dir hnstay
              have hne : (u.x + dir.dx).toNat ≠ (u.x).toNat ∨ (u.y + dir.dy).toNat ≠ (u.y).toNat := by
                by_cases hdx : dir.dx = 0
                · have hdy : dir.dy ≠ 0 := fun hdy => hmoves ⟨hdx, hdy⟩
                  right
                  omega
                · left
                  omega
              rw [gridGet_gridSet_ne s.unit_placeable_map u.x u.y (u.x + dir.dx) (u.y + dir.dy) true hne]
              exact hfree2
          · exact hbounds
        have hlk2 : alookup (aupdate s.units_blue k (fun (w : Unit') => { w with turn_movement_remaining := w.turn_movement_remaining - (s.map.tileAt (u.x + dir.dx) (u.y + dir.dy)).movement_cost })) k = some ((fun (w : Unit') => { w with turn_movement_remaining := w.turn_movement_remaining - (s.map.tileAt (u.x + dir.dx) (u.y + dir.dy)).movement_cost }) u) := by
          rw [alookup_aupdate_self, show alookup s.units_blue k = some u from hlk]
          rfl
        have hnd2 : ((aupdate s.units_blue k (fun (w : Unit') => { w with turn_movement_remaining := w.turn_movement_remaining - (s.map.tileAt (u.x + dir.dx) (u.y + dir.dy)).movement_cost })).map Prod.fst).Nodup := by
          rw [aupdate_keys]
          exact hnd3.1
        have hpermD : List.Perm (aupdate (aupdate s.units_blue k (fun (w : Unit') => { w with turn_movement_remaining := w.turn_movement_remaining - (s.map.tileAt (u.x + dir.dx) (u.y + dir.dy)).movement_cost })) k (fun (w : Unit') => { w with x := u.x + dir.dx, y := u.y + dir.dy })) ((k, ((fun (w : Unit') => { w with x := u.x + dir.dx, y := u.y + dir.dy }) ((fun (w : Unit') => { w with turn_movement_remaining := w.turn_movement_remaining - (s.map.tileAt (u.x + dir.dx) (u.y + dir.dy)).movement_cost }) u))) :: aerase s.units_blue k) := by
          have hp1 := aupdate_perm (fun (w : Unit') => { w with x := u.x + dir.dx, y := u.y + dir.dy }) hnd2 hlk2
          rw [aerase_aupdate] at hp1
          exact hp1
        have hwD : StateWF { s with units_blue := aupdate (aupdate s.units_blue k (fun (w : Unit') => { w with turn_movement_remaining := w.turn_movement_remaining - (s.map.tileAt (u.x + dir.dx) (u.y + dir.dy)).movement_cost })) k (fun (w : Unit') => { w with x := u.x + dir.dx, y := u.y + dir.dy }), unit_placeable_map := gridSet (gridSet s.unit_placeable_map u.x u.y true) (u.x + dir.dx) (u.y + dir.dy) false } :=
          statewf_perm { s with units_blue := ainsert (aerase s.units_blue k) k ((fun (w : Unit') => { w with x := u.x + dir.dx, y := u.y + dir.dy }) ((fun (w : Unit') => { w with turn_movement_remaining := w.turn_movement_remaining - (s.map.tileAt (u.x + dir.dx) (u.y + dir.dy)).movement_cost }) u)), unit_placeable_map := gridSet (gridSet s.unit_placeable_map u.x u.y true) (u.x + dir.dx) (u.y + dir.dy) false } { s with units_blue := aupdate (aupdate s.units_blue k (fun (w : Unit') => { w with turn_movement_remaining := w.turn_movement_remaining - (s.map.tileAt (u.x + dir.dx) (u.y + dir.dy)).movement_cost })) k (fun (w : Unit') => { w with x := u.x + dir.dx, y := u.y + dir.dy }), unit_placeable_map := gridSet (gridSet s.unit_placeable_map u.x u.y true) (u.x + dir.dx) (u.y + dir.dy) false } rfl rfl rfl (hpermD.trans (List.perm_append_singleton _ _).symm) (List.Perm.refl _) (List.Perm.refl _) (List.Perm.refl _) rfl rfl hwDp
        have hevo : ((aupdate (aupdate s.units_blue k (fun (w : Unit') => { w with turn_movement_remaining := w.turn_movement_remaining - (s.map.tileAt (u.x + dir.dx) (u.y + dir.dy)).movement_cost })) k (fun (w : Unit') => { w with x := u.x + dir.dx, y := u.y + dir.dy })) ++ s.units_red).map Prod.fst = (s.units_blue ++ s.units_red).map Prod.fst := by
          rw [List.map_append, aupdate_keys, aupdate_keys, ← List.map_append]
        exact ⟨hwD, idEvo_of_same hevo rfl rfl rfl⟩
      case RED =>
        have hkid : k = u.id := h.ukey_eq_id (k, u) (List.mem_append_right _ (alookup_mem hlk))
        have humem : u ∈ unitsAll s := by
          refine List.mem_append_right _ ?_
          exact List.mem_map.mpr ⟨(k, u), alookup_mem hlk, rfl⟩
        have hub' := h.upos_bounds u humem
        rw [in_bounds_iff] at hub'
        obtain ⟨hux0, huxw, huy0, huyh⟩ := hub'
        have hdb' := hbounds
        rw [in_bounds_iff] at hdb'
        obtain ⟨hdx0, hdxw, hdy0, hdyh⟩ := hdb'
        have hnd3 := List.nodup_append.mp (by
            have := h.ukeys_nodup
            unfold unitIds at this
            rwa [List.map_append] at this)
        have hkteam : k ∈ s.units_red.map Prod.fst :=
          List.mem_map.mpr ⟨(k, u), alookup_mem hlk, rfl⟩
        have hkids : k ∈ unitIds s :=
          List.mem_map.mpr ⟨(k, u), List.mem_append_right _ (alookup_mem hlk), rfl⟩
        have hm1 : s.mutate_unit k (fun (w : Unit') => { w with turn_movement_remaining := w.turn_movement_remaining - (s.map.tileAt (u.x + dir.dx) (u.y + dir.dy)).movement_cost }) = { s with units_red := aupdate s.units_red k (fun (w : Unit') => { w with turn_movement_remaining := w.turn_movement_remaining - (s.map.tileAt (u.x + dir.dx) (u.y + dir.dy)).movement_cost }) } := by
          unfold GameState.mutate_unit
          rw [htm]
          rfl
        rw [hm1]
        dsimp only
        have htm2 : GameState.get_team_of_unit { s with units_red := aupdate s.units_red k (fun (w : Unit') => { w with turn_movement_remaining := w.turn_movement_remaining - (s.map.tileAt (u.x + dir.dx) (u.y + dir.dy)).movement_cost }), unit_placeable_map := gridSet s.unit_placeable_map u.x u.y true } k = some Team.RED := by
          show (if acontains (aupdate s.units_red k (fun (w : Unit') => { w with turn_movement_remaining := w.turn_movement_remaining - (s.map.tileAt (u.x + dir.dx) (u.y + dir.dy)).movement_cost })) k = true then some Team.RED else if acontains s.units_blue k = true then some Team.BLUE else none) = some Team.RED
          have hab : acontains (aupdate s.units_red k (fun (w : Unit') => { w with turn_movement_remaining := w.turn_movement_remaining - (s.map.tileAt (u.x + dir.dx) (u.y + dir.dy)).movement_cost })) k = true := by
            rw [acontains_aupdate]
            exact (acontains_iff _ _).mpr hkteam
          rw [if_pos hab]
        have hm2 : GameState.mutate_unit { s with units_red := aupdate s.units_red k (fun (w : Unit') => { w with turn_movement_remaining := w.turn_movement_remaining - (s.map.tileAt (u.x + dir.dx) (u.y + dir.dy)).movement_cost }), unit_placeable_map := gridSet s.unit_placeable_map u.x u.y true } k (fun (w : Unit') => { w with x := u.x + dir.dx, y := u.y + dir.dy }) = { s with units_red := aupdate (aupdate s.units_red k (fun (w : Unit') => { w with turn_movement_remaining := w.turn_movement_remaining - (s.map.tileAt (u.x + dir.dx) (u.y + dir.dy)).movement_cost })) k (fun (w : Unit') => { w with x := u.x + dir.dx, y := u.y + dir.dy }), unit_placeable_map := gridSet s.unit_placeable_map u.x u.y true } := by
          unfold GameState.mutate_unit
          rw [htm2]
          rfl
        rw [hm2]
        dsimp only
        have hdel : s.delete_unit Team.RED k = { s with units_red := aerase s.units_red k, unit_placeable_map := gridSet s.unit_placeable_map u.x u.y true } := by
          unfold GameState.delete_unit
          rw [show alookup (s.units Team.RED) k = some u from hlk]
          rfl
        have hwt : StateWF { s with units_red := aerase s.units_red k, unit_placeable_map := gridSet s.unit_placeable_map u.x u.y true } := by
          rw [← hdel]
          exact (wf_delete_unit s Team.RED k h).1
        have hwDp : StateWF { s with units_red := ainsert (aerase s.units_red k) k ((fun (w : Unit') => { w with x := u.x + dir.dx, y := u.y + dir.dy }) ((fun (w : Unit') => { w with turn_movement_remaining := w.turn_movement_remaining - (s.map.tileAt (u.x + dir.dx) (u.y + dir.dy)).movement_cost }) u)), unit_placeable_map := gridSet (gridSet s.unit_placeable_map u.x u.y true) (u.x + dir.dx) (u.y + dir.dy) false } := by
          refine wf_reinsert_unit_general { s with units_red := aerase s.units_red k, unit_placeable_map := gridSet s.unit_placeable_map u.x u.y true } { s with units_red := ainsert (aerase s.units_red k) k ((fun (w : Unit') => { w with x := u.x + dir.dx, y := u.y + dir.dy }) ((fun (w : Unit') => { w with turn_movement_remaining := w.turn_movement_remaining - (s.map.tileAt (u.x + dir.dx) (u.y + dir.dy)).movement_cost }) u)), unit_placeable_map := gridSet (gridSet s.unit_placeable_map u.x u.y true) (u.x + dir.dx) (u.y + dir.dy) false } ((fun (w : Unit') => { w with x := u.x + dir.dx, y := u.y + dir.dy }) ((fun (w : Unit') => { w with turn_movement_remaining := w.turn_movement_remaining - (s.map.tileAt (u.x + dir.dx) (u.y + dir.dy)).movement_cost }) u)) rfl rfl rfl rfl rfl rfl rfl ?_ ?_ ?_ ?_ ?_ ?_ ?_ hwt
          · show u.id < s.unit_id_counter
            exact hkid ▸ h.ukeys_lt k hkids
          · show u.id ∉ ((s.units_blue ++ aerase s.units_red k).map Prod.fst)
            intro hmem
            rw [List.map_append] at hmem
            rcases List.mem_append.mp hmem with hm | hm
            · rw [← hkid] at hm
              exact hnd3.2.2 hm hkteam
            · rw [← hkid] at hm
              exact aerase_key_not_mem s.units_red k hm
          · show List.Perm ((s.units_blue ++ (aerase s.units_red k ++ [(k, ((fun (w : Unit') => { w with x := u.x + dir.dx, y := u.y + dir.dy }) ((fun (w : Unit') => { w with turn_movement_remaining := w.turn_movement_remaining - (s.map.tileAt (u.x + dir.dx) (u.y + dir.dy)).movement_cost }) u)))])).map Prod.fst) (u.id :: ((s.units_blue ++ aerase s.units_red k).map Prod.fst))
            rw [← hkid]
            rw [List.map_append, List.map_append, List.map_append]
            refine List.Perm.trans (List.Perm.append_left _ (List.perm_append_singleton _ _)) ?_
            exact List.perm_middle
          · intro p hp
            rcases List.mem_append.mp hp with hp | hp
            · exact Or.inl (List.mem_append_left _ hp)
            · rcases List.mem_append.mp hp with hp | hp
              · exact Or.inl (List.mem_append_right _ hp)
              · rcases List.mem_singleton.mp hp with rfl
                right
                show ((k, ((fun (w : Unit') => { w with x := u.x + dir.dx, y := u.y + dir.dy }) ((fun (w : Unit') => { w with turn_movement_remaining := w.turn_movement_remaining - (s.map.tileAt (u.x + dir.dx) (u.y + dir.dy)).movement_cost }) u))) : Nat × Unit') = (u.id, ((fun (w : Unit') => { w with x := u.x + dir.dx, y := u.y + dir.dy }) ((fun (w : Unit') => { w with turn_movement_remaining := w.turn_movement_remaining - (s.map.tileAt (u.x + dir.dx) (u.y + dir.dy)).movement_cost }) u)))
                rw [← hkid]
          · intro a b
            show ((avalues s.units_blue) ++ avalues (aerase s.units_red k ++ [(k, ((fun (w : Unit') => { w with x := u.x + dir.dx, y := u.y + dir.dy }) ((fun (w : Unit') => { w with turn_movement_remaining := w.turn_movement_remaining - (s.map.tileAt (u.x + dir.dx) (u.y + dir.dy)).movement_cost }) u)))])).countP _ = ((avalues s.units_blue) ++ avalues (aerase s.units_red k)).countP _ + _
            unfold avalues
            rw [List.map_append, List.countP_append, List.countP_append, List.countP_append, List.map_singleton, List.countP_singleton]
            ring
          · show gridGet (gridSet s.unit_placeable_map u.x u.y true) (u.x + dir.dx) (u.y + dir.dy) = true
            rcases hstay_or_free with hstay | ⟨hnstay, hfree2⟩
            · have hdd : dir = Direction.STAY := by
                have := hstay
                rwa [beq_iff_eq] at this
              subst hdd
              rw [gridGet_congr (gridSet s.unit_placeable_map u.x u.y true) (u.x + Direction.STAY.dx) (u.y + Direction.STAY.dy) u.x u.y (by show (u.x + (0 : Int)).toNat = u.x.toNat; omega) (by show (u.y + (0 : Int)).toNat = u.y.toNat; omega)]
              refine gridGet_gridSet_self _ _ _ _ ?_ ?_
              · rw [h.ugrid_len]
                omega
              · rw [grid_row_len _ _ _ _ h.ugrid_len h.ugrid_rows (by omega)]
                omega
            · have hmoves := dir_moves dir hnstay
              have hne : (u.x + dir.dx).toNat ≠ (u.x).toNat ∨ (u.y + dir.dy).toNat ≠ (u.y).toNat := by
                by_cases hdx : dir.dx = 0
                · have hdy : dir.dy ≠ 0 := fun hdy => hmoves ⟨hdx, hdy⟩
                  right
                  omega
                · left
                  omega
              rw [gridGet_gridSet_ne s.unit_placeable_map u.x u.y (u.x + dir.dx) (u.y + dir.dy) true hne]
              exact hfree2
          · exact hbounds
        have hlk2 : alookup (aupdate s.units_red k (fun (w : Unit') => { w with turn_movement_remaining := w.turn_movement_remaining - (s.map.tileAt (u.x + dir.dx) (u.y + dir.dy)).movement_cost })) k = some ((fun (w : Unit') => { w with turn_movement_remaining := w.turn_movement_remaining - (s.map.tileAt (u.x + dir.dx) (u.y + dir.dy)).movement_cost }) u) := by
          rw [alookup_aupdate_self, show alookup s.units_red k = some u from hlk]
          rfl
        have hnd2 : ((aupdate s.units_red k (fun (w : Unit') => { w with turn_movement_remaining := w.turn_movement_remaining - (s.map.tileAt (u.x + dir.dx) (u.y + dir.dy)).movement_cost })).map Prod.fst).Nodup := by
          rw [aupdate_keys]
          exact hnd3.2.1
        have hpermD : List.Perm (aupdate (aupdate s.units_red k (fun (w : Unit') => { w with turn_movement_remaining := w.turn_movement_remaining - (s.map.tileAt (u.x + dir.dx) (u.y + dir.dy)).movement_cost })) k (fun (w : Unit') => { w with x := u.x + dir.dx, y := u.y + dir.dy })) ((k, ((fun (w : Unit') => { w with x := u.x + dir.dx, y := u.y + dir.dy }) ((fun (w : Unit') => { w with turn_movement_remaining := w.turn_movement_remaining - (s.map.tileAt (u.x + dir.dx) (u.y + dir.dy)).movement_cost }) u))) :: aerase s.units_red k) := by
          have hp1 := aupdate_perm (fun (w : Unit') => { w with x := u.x + dir.dx, y := u.y + dir.dy }) hnd2 hlk2
          rw [aerase_aupdate] at hp1
          exact hp1
        have hwD : StateWF { s with units_red := aupdate (aupdate s.units_red k (fun (w : Unit') => { w with turn_movement_remaining := w.turn_movement_remaining - (s.map.tileAt (u.x + dir.dx) (u.y + dir.dy)).movement_cost })) k (fun (w : Unit') => { w with x := u.x + dir.dx, y := u.y + dir.dy }), unit_placeable_map := gridSet (gridSet s.unit_placeable_map u.x u.y true) (u.x + dir.dx) (u.y + dir.dy) false } :=
          statewf_perm { s with units_red := ainsert (aerase s.units_red k) k ((fun (w : Unit') => { w with x := u.x + dir.dx, y := u.y + dir.dy }) ((fun (w : Unit') => { w with turn_movement_remaining := w.turn_movement_remaining - (s.map.tileAt (u.x + dir.dx) (u.y + dir.dy)).movement_cost }) u)), unit_placeable_map := gridSet (gridSet s.unit_placeable_map u.x u.y true) (u.x + dir.dx) (u.y + dir.dy) false } { s with units_red := aupdate (aupdate s.units_red k (fun (w : Unit') => { w with turn_movement_remaining := w.turn_movement_remaining - (s.map.tileAt (u.x + dir.dx) (u.y + dir.dy)).movement_cost })) k (fun (w : Unit') => { w with x := u.x + dir.dx, y := u.y + dir.dy }), unit_placeable_map := gridSet (gridSet s.unit_placeable_map u.x u.y true) (u.x + dir.dx) (u.y + dir.dy) false } rfl rfl rfl (List.Perm.refl _) (hpermD.trans (List.perm_append_singleton _ _).symm) (List.Perm.refl _) (List.Perm.refl _) rfl rfl hwDp
        have hevo : (s.units_blue ++ (aupdate (aupdate s.units_red k (fun (w : Unit') => { w with turn_movement_remaining := w.turn_movement_remaining - (s.map.tileAt (u.x + dir.dx) (u.y + dir.dy)).movement_cost })) k (fun (w : Unit') => { w with x := u.x + dir.dx, y := u.y + dir.dy }))).map Prod.fst = (s.units_blue ++ s.units_red).map Prod.fst := by
          rw [List.map_append, aupdate_keys, aupdate_keys, ← List.map_append]
        exact ⟨hwD, idEvo_of_same hevo rfl rfl rfl⟩

/-- Every gateway operation that returns (rather than raising) preserves the
state invariant and evolves the id space monotonically. -/
theorem wf_applyOp (team : Team) (op : GatewayOp) (s s' : GameState)
    (h : StateWF s) (hop : applyOp team op s = some s') :
    StateWF s' ∧ IdEvo s s' := by
  cases op with
  | spawn ut bid =>
    injection hop with h1
    subst h1
    exact wf_rc_spawn_unit team ut bid s h
  | build bt x y =>
    injection hop with h1
    subst h1
    exact wf_rc_build_building team bt x y s h
  | move uid dir =>
    injection hop with h1
    subst h1
    exact wf_move_unit team uid dir s h
  | attackUnit a t =>
    unfold applyOp at hop
    dsimp only at hop
    cases hr : RobotController.unit_attack_unit team a t s with
    | ok p =>
      rw [hr] at hop
      obtain ⟨r, st⟩ := p
      dsimp only at hop
      injection hop with h1
      subst h1
      exact wf_unit_attack_unit team a t s h r st hr
    | error e =>
      rw [hr] at hop
      exact Option.noConfusion hop
  | attackBuilding a t =>
    unfold applyOp at hop
    dsimp only at hop
    cases hr : RobotController.unit_attack_building team a t s with
    | ok p =>
      rw [hr] at hop
      obtain ⟨r, st⟩ := p
      dsimp only at hop
      injection hop with h1
      subst h1
      exact wf_unit_attack_building team a t s h r st hr
    | error e =>
      rw [hr] at hop
      exact Option.noConfusion hop
  | attackLocation a x y =>
    unfold applyOp at hop
    dsimp only at hop
    cases hr : RobotController.unit_attack_location team a x y s with
    | ok p =>
      rw [hr] at hop
      obtain ⟨r, st⟩ := p
      dsimp only at hop
      injection hop with h1
      subst h1
      exact wf_unit_attack_location team a x y s h r st hr
    | error e =>
      rw [hr] at hop
      exact Option.noConfusion hop
  | bAttackUnit a t =>
    unfold applyOp at hop
    dsimp only at hop
    cases hr : RobotController.building_attack_unit team a t s with
    | ok p =>
      rw [hr] at hop
      obtain ⟨r, st⟩ := p
      dsimp only at hop
      injection hop with h1
      subst h1
      exact wf_building_attack_unit team a t s h r st hr
    | error e =>
      rw [hr] at hop
      exact Option.noConfusion hop
  | bAttackLocation a x y =>
    unfold applyOp at hop
    dsimp only at hop
    cases hr : RobotController.building_attack_location team a x y s with
    | ok p =>
      rw [hr] at hop
      obtain ⟨r, st⟩ := p
      dsimp only at hop
      injection hop with h1
      subst h1
      exact wf_building_attack_location team a x y s h r st hr
    | error e =>
      rw [hr] at hop
      exact Option.noConfusion hop
  | sellU uid =>
    unfold applyOp at hop
    dsimp only at hop
    cases hr : RobotController.sell_unit team uid s with
    | ok p =>
      rw [hr] at hop
      obtain ⟨r, st⟩ := p
      dsimp only at hop
      injection hop with h1
      subst h1
      exact wf_rc_sell_unit team uid s h r st hr
    | error e =>
      rw [hr] at hop
      exact Option.noConfusion hop
  | sellB bid =>
    unfold applyOp at hop
    dsimp only at hop
    cases hr : RobotController.sell_building team bid s with
    | ok p =>
      rw [hr] at hop
      obtain ⟨r, st⟩ := p
      dsimp only at hop
      injection hop with h1
      subst h1
      exact wf_rc_sell_building team bid s h r st hr
    | error e =>
      rw [hr] at hop
      exact Option.noConfusion hop
  | disband uid =>
    injection hop with h1
    subst h1
    exact wf_disband_unit team uid s h
  | destroy bid =>
    injection hop with h1
    subst h1
    exact wf_destroy_building team bid s h
  | exploreGold e b =>
    injection hop with h1
    subst h1
    exact wf_explore_gold team e b s h
  | exploreHealth e b t =>
    injection hop with h1
    subst h1
    exact wf_explore_health team e b t s h
  | exploreAttack e b t =>
    injection hop with h1
    subst h1
    exact wf_explore_attack team e b t s h
  | exploreDefense e b t =>
    injection hop with h1
    subst h1
    exact wf_explore_defense team e b t s h
  | bridge e =>
    injection hop with h1
    subst h1
    exact wf_build_bridge team e s h

/-- The initial state built by GameState.__init__ satisfies the invariant,
provided the map anchors its two castles in bounds: the unit side is empty
over an all-true grid, and the two castles are exactly the buildings sitting
on the two (exempted) castle tiles. -/
theorem wf_init (m : Map)
    (hb : m.in_bounds m.blue_castle_loc.1 m.blue_castle_loc.2 = true)
    (hr : m.in_bounds m.red_castle_loc.1 m.red_castle_loc.2 = true) :
    StateWF (GameState.init m) := by
  refine ⟨?_, ?_, ?_, ?_, ?_, ?_, ?_, ?_, ?_, ?_, ?_, ?_, ?_, ?_, ?_, ?_⟩
  · show (trueGrid m.width m.height).length = m.width.toNat
    unfold trueGrid
    rw [List.length_replicate]
  · intro row hrow
    have hrow' : row ∈ trueGrid m.width m.height := hrow
    unfold trueGrid at hrow'
    rw [List.eq_of_mem_replicate hrow']
    show (List.replicate m.height.toNat true).length = m.height.toNat
    rw [List.length_replicate]
  · show (trueGrid m.width m.height).length = m.width.toNat
    unfold trueGrid
    rw [List.length_replicate]
  · intro row hrow
    have hrow' : row ∈ trueGrid m.width m.height := hrow
    unfold trueGrid at hrow'
    rw [List.eq_of_mem_replicate hrow']
    show (List.replicate m.height.toNat true).length = m.height.toNat
    rw [List.length_replicate]
  · intro u hu
    exact absurd hu (List.not_mem_nil u)
  · intro b hbmem
    rcases List.mem_append.mp hbmem with h1 | h1
    · rw [List.mem_singleton.mp h1]
      exact hb
    · rw [List.mem_singleton.mp h1]
      exact hr
  · exact List.nodup_nil
  · show ([1, 0] : List Nat).Nodup
    decide
  · intro kk hkk
    exact absurd hkk (List.not_mem_nil kk)
  · intro kk hkk
    have hkk' : kk ∈ ([1, 0] : List Nat) := hkk
    show kk < 2
    rcases List.mem_cons.mp hkk' with rfl | h2
    · decide
    · rcases List.mem_cons.mp h2 with rfl | h3
      · decide
      · exact absurd h3 (List.not_mem_nil kk)
  · intro p hp
    exact absurd hp (List.not_mem_nil p)
  · intro p hp
    rcases List.mem_append.mp hp with h1 | h1
    · rw [List.mem_singleton.mp h1]
    · rw [List.mem_singleton.mp h1]
  · intro i hi j hj
    have hg : gridGet (trueGrid m.width m.height) ((i : Int)) ((j : Int)) = true :=
      gridGet_trueGrid m.width m.height _ _
    constructor
    · intro hfalse
      have : (true : Bool) = false := hg ▸ hfalse
      exact absurd this (by simp)
    · intro hcnt
      exact absurd (show (0 : Nat) = 1 from hcnt) (by decide)
  · intro i hi j hj
    exact Nat.zero_le 1
  · intro i hi j hj hc1 hc2
    have hcb' : ¬ (m.blue_castle_loc.1 = ((i : Int)) ∧ m.blue_castle_loc.2 = ((j : Int))) := by
      rintro ⟨e1, e2⟩
      exact hc1 (by rw [← e1, ← e2]; rfl)
    have hcr' : ¬ (m.red_castle_loc.1 = ((i : Int)) ∧ m.red_castle_loc.2 = ((j : Int))) := by
      rintro ⟨e1, e2⟩
      exact hc2 (by rw [← e1, ← e2]; rfl)
    have hcnt0 : buildingCountAt (GameState.init m) i j = 0 := by
      apply List.countP_eq_zero.mpr
      intro b hbmem
      rcases List.mem_append.mp hbmem with h1 | h1
      · rw [List.mem_singleton.mp h1]
        intro hT
        simp only [Bool.and_eq_true, beq_iff_eq] at hT
        exact hcb' ⟨hT.1, hT.2⟩
      · rw [List.mem_singleton.mp h1]
        intro hT
        simp only [Bool.and_eq_true, beq_iff_eq] at hT
        exact hcr' ⟨hT.1, hT.2⟩
    have hg : gridGet (trueGrid m.width m.height) ((i : Int)) ((j : Int)) = true :=
      gridGet_trueGrid m.width m.height _ _
    constructor
    · intro hfalse
      have : (true : Bool) = false := hg ▸ hfalse
      exact absurd this (by simp)
    · intro hcnt
      rw [hcnt0] at hcnt
      exact absurd hcnt (by decide)
  · intro i hi j hj hc1 hc2
    have hcb' : ¬ (m.blue_castle_loc.1 = ((i : Int)) ∧ m.blue_castle_loc.2 = ((j : Int))) := by
      rintro ⟨e1, e2⟩
      exact hc1 (by rw [← e1, ← e2]; rfl)
    have hcr' : ¬ (m.red_castle_loc.1 = ((i : Int)) ∧ m.red_castle_loc.2 = ((j : Int))) := by
      rintro ⟨e1, e2⟩
      exact hc2 (by rw [← e1, ← e2]; rfl)
    have hcnt0 : buildingCountAt (GameState.init m) i j = 0 := by
      apply List.countP_eq_zero.mpr
      intro b hbmem
      rcases List.mem_append.mp hbmem with h1 | h1
      · rw [List.mem_singleton.mp h1]
        intro hT
        simp only [Bool.and_eq_true, beq_iff_eq] at hT
        exact hcb' ⟨hT.1, hT.2⟩
      · rw [List.mem_singleton.mp h1]
        intro hT
        simp only [Bool.and_eq_true, beq_iff_eq] at hT
        exact hcr' ⟨hT.1, hT.2⟩
    omega

/-- Unfolding lemma for a can_spawn_unit call in which every check passes. -/
theorem can_spawn_unit_true (team : Team) (ut : UnitType) (bid : Nat)
    (s : GameState) (b : Building)
    (hb : s.get_building_from_id bid = some b)
    (hteam : b.team = team)
    (hspb : (match ut.spawnable_buildings with
             | none => false
             | some bs => ! bs.contains b.type) = false)
    (hsp : b.spawnable = true)
    (hpl : s.is_unit_placeable ut b.x b.y = true)
    (hbal : ¬ (s.balance team < ut.cost)) :
    RobotController.can_spawn_unit team ut bid s = true := by
  unfold RobotController.can_spawn_unit
  rw [hb]
  have hspb' : (match ut.spawnable_buildings with
                | none => false
                | some bs => !decide (b.type ∈ bs)) = false := by
    simpa using hspb
  simp [hteam, hspb', hsp, hpl, hbal]

/-- C1: the claim asserts that a target killed by a unit attack is removed
immediately, is excluded from retaliation, and that the attack still reports
success. Evaluating the code on a blue KNIGHT killing a red EXPLORER: the
victim IS removed (its id no longer resolves) and the attacker takes no
retaliation (health still 10), but the call returns False, not True —
damage_unit falls off its end returning None instead of the documented True,
so the kill is never removed from the hit list and the retaliation loop then
bails out with `return False` on the dangling id. -/
theorem C1_kill_attack_returns_false :
    (RobotController.unit_attack_unit .BLUE 0 1 sKill).map
      (fun p => (p.1, (p.2.get_unit_from_id 1).isSome,
        (p.2.get_unit_from_id 0).map Unit'.health)) =
    .ok (some false, false, some 10) := by
  decide

/-- C2: the claim asserts that whenever `can_X(args)` is true, `X(args)`
immediately afterwards returns True. Counterexample on the embedded code:
can_unit_attack_unit is true for the blue KNIGHT against the adjacent red
EXPLORER, yet unit_attack_unit returns False because the attack kills the
target and the stale hit list aborts the retaliation step. -/
theorem C2_can_true_but_exec_fails :
    RobotController.can_unit_attack_unit .BLUE 0 1 sKill = true ∧
    (RobotController.unit_attack_unit .BLUE 0 1 sKill).map Prod.fst = .ok (some false) := by
  constructor
  · decide
  · decide

/-- C3 counterexample: a callback that raises inside its thread 1 second
into a 10-second pool is reported as a SUCCESS by call_player_code, with the
elapsed second deducted — the pool is not zeroed, the turn is not marked
failed, and (both flags being true) run_turn awards nothing to the opponent.
The claim's "exception ⇒ forfeiture" is therefore false on the code: an
exception in the spawned thread is swallowed by Python's threading module. -/
theorem C3_exception_swallowed :
    call_player_code (.runs true 1) 10 = (true, 9) ∧
    run_turn_outcome true true s0 = none := by
  constructor
  · show call_player_code (.runs true 1) 10 = (true, 9)
    simp only [call_player_code]
    norm_num
  · decide

/-- C3 (amended): call_player_code forfeits only when the callback cannot be
started (returns False with the pool UNTOUCHED) or when its wall-clock
duration exceeds the pool (returns False and zeroes the pool); a callback
that raises inside its thread but finishes within the pool counts as a
success and merely has its elapsed time deducted. When exactly one side's
call fails, run_turn does award the turn to the other side immediately. -/
theorem C3_forfeit_only_on_timeout :
    (∀ (raises : Bool) (elapsed pool : Rat), elapsed ≤ pool →
      call_player_code (.runs raises elapsed) pool = (true, pool - elapsed)) ∧
    (∀ (raises : Bool) (elapsed pool : Rat), pool < elapsed →
      call_player_code (.runs raises elapsed) pool = (false, 0)) ∧
    (∀ pool : Rat, call_player_code .attrError pool = (false, pool)) ∧
    (∀ s : GameState, run_turn_outcome false true s = some .RED) ∧
    (∀ s : GameState, run_turn_outcome true false s = some .BLUE) := by
  refine ⟨?_, ?_, ?_, ?_, ?_⟩
  · intro raises elapsed pool h
    have h1 : ¬ (elapsed > pool) := not_lt.mpr h
    simp [call_player_code, h, h1]
  · intro raises elapsed pool h
    have h1 : ¬ (elapsed ≤ pool) := not_le.mpr h
    simp [call_player_code, h, h1]
  · intro pool
    rfl
  · intro s
    unfold run_turn_outcome
    simp
  · intro s
    unfold run_turn_outcome
    simp

/-- C3 witness: the amended statement applied at concrete inputs. -/
theorem C3_forfeit_only_on_timeout_witness :
    call_player_code (.runs true 1) 10 = (true, 10 - 1) ∧
    call_player_code (.runs false 5) 2 = (false, 0) ∧
    call_player_code .attrError 7 = (false, 7) ∧
    run_turn_outcome false true s0 = some .RED ∧
    run_turn_outcome true false s0 = some .BLUE :=
  ⟨C3_forfeit_only_on_timeout.1 true 1 10 (by norm_num),
   C3_forfeit_only_on_timeout.2.1 false 5 2 (by norm_num),
   C3_forfeit_only_on_timeout.2.2.1 7,
   C3_forfeit_only_on_timeout.2.2.2.1 s0,
   C3_forfeit_only_on_timeout.2.2.2.2 s0⟩

/-- C4 counterexample: the claim says rule violations, in particular an id
not present in the caller's team, surface only as boolean False and are
never thrown, and that can_heal_unit returns a boolean for every valid-typed
input. On the code, sell_unit with an absent id raises GameException, and
can_heal_unit with two perfectly valid ids raises AttributeError (it reads
the nonexistent enum member UnitType.LAND_HEALER). -/
theorem C4_sells_and_can_heal_raise :
    RobotController.sell_unit .BLUE 99 s0 = .error (.gameException "unit_id not valid") ∧
    RobotController.sell_building .BLUE 99 s0 = .error (.gameException "building_id not valid") ∧
    RobotController.can_heal_unit .BLUE 0 1 sHeal = .error .attributeError := by
  refine ⟨?_, ?_, ?_⟩ <;> decide

/-- C4 (amended): rule violations are surfaced as booleans with two
exceptions: sell_unit / sell_building raise GameException whenever the id is
not present in the caller's own team, and can_heal_unit raises
AttributeError for EVERY pair of resolvable ids (healer in the caller's
team, target in the enemy team), because it dereferences an enum member that
does not exist before any further check. -/
theorem C4_sell_invalid_id_raises :
    (∀ (s : GameState) (team : Team) (uid : Nat),
      alookup (s.units team) uid = none →
      RobotController.sell_unit team uid s = .error (.gameException "unit_id not valid")) ∧
    (∀ (s : GameState) (team : Team) (bid : Nat),
      alookup (s.buildings team) bid = none →
      RobotController.sell_building team bid s = .error (.gameException "building_id not valid")) ∧
    (∀ (s : GameState) (team : Team) (hid tid : Nat) (hu tu : Unit'),
      acontains (s.units team) hid = true →
      acontains (s.units (RobotController.get_enemy_team team)) tid = true →
      s.get_unit_from_id hid = some hu →
      s.get_unit_from_id tid = some tu →
      RobotController.can_heal_unit team hid tid s = .error .attributeError) := by
  refine ⟨?_, ?_, ?_⟩
  · intro s team uid h
    unfold RobotController.sell_unit GameState.sell_unit
    rw [h]
  · intro s team bid h
    unfold RobotController.sell_building GameState.sell_building
    rw [h]
  · intro s team hid tid hu tu h1 h2 h3 h4
    unfold RobotController.can_heal_unit
    rw [h1, h2, h3, h4]
    simp

/-- C4 witness: the amended statement applied at concrete inputs. -/
theorem C4_sell_invalid_id_raises_witness :
    RobotController.sell_unit .RED 99 s0 = .error (.gameException "unit_id not valid") ∧
    RobotController.sell_building .RED 99 s0 = .error (.gameException "building_id not valid") ∧
    RobotController.can_heal_unit .RED 1 0 sHeal = .error .attributeError :=
  ⟨C4_sell_invalid_id_raises.1 s0 .RED 99 (by decide),
   C4_sell_invalid_id_raises.2.1 s0 .RED 99 (by decide),
   C4_sell_invalid_id_raises.2.2 sHeal .RED 1 0
     { Unit'.create 1 .RED .KNIGHT 1 0 1 with
         turn_actions_remaining := 1, turn_movement_remaining := 1 }
     { Unit'.create 0 .BLUE .LAND_HEALER_1 0 1 1 with
         turn_actions_remaining := 1, turn_movement_remaining := 2 }
     (by decide) (by decide) (by decide) (by decide)⟩

/-- C5 counterexample: the claim says the team's own main castle can never
be removed by its own voluntary actions, naming sell_building. On the code
sell_building has no main-castle exemption: from the initial state, blue
sells its own full-health main castle — the call returns True, the castle
disappears from the registry and the ledger moves (by the castle's cost −1
times the 0.5 discount, i.e. balance 10 becomes 19/2). -/
theorem C5_sell_own_castle_succeeds :
    (RobotController.sell_building .BLUE (s0.main_castle_ids .BLUE) s0).map
      (fun p => (p.1, acontains (p.2.buildings .BLUE) s0.blue_main_castle_id))
      = .ok (true, false) := by
  rw [sell_building_ok s0 .BLUE (s0.main_castle_ids .BLUE)
        (Building.create 1 .BLUE .MAIN_CASTLE 0 0 1) (by decide) ?_]
  · decide
  · show ¬ (((30 : Int) : Rat) < SELL_HEALTH_PERCENT * ((30 : Int) : Rat))
    norm_num [SELL_HEALTH_PERCENT]

/-- C5 (amended): destroy_building does protect the main castle — for every
state and team, destroying the caller's own main-castle id returns False
and leaves the state entirely unchanged — but sell_building carries no such
exemption, so a main castle at ≥ 75% health can be voluntarily sold. -/
theorem C5_destroy_never_removes_castle (s : GameState) (team : Team) :
    RobotController.destroy_building team (s.main_castle_ids team) s = (false, s) := by
  unfold RobotController.destroy_building
  split
  · rfl
  · simp

/-- C6: the claim asserts heal_unit caps the healed health at the archetype
maximum, so a full-health target is left unchanged. On the code the clamp is
inverted (`max` instead of `min`): healing the full-health red KNIGHT
(health 10 = its archetype maximum) raises it to 15 = 10 + the healer's heal
amount 5, while the healer does consume exactly one action; heal_unit also
falls off its end returning None. -/
theorem C6_overheal_at_full_health :
    (sHeal.get_unit_from_id 1).map (fun u => (u.health, u.type.health)) = some (10, 10) ∧
    (RobotController.heal_unit .BLUE 0 1 sHeal).1 = none ∧
    ((RobotController.heal_unit .BLUE 0 1 sHeal).2.get_unit_from_id 1).map Unit'.health
      = some 15 ∧
    ((RobotController.heal_unit .BLUE 0 1 sHeal).2.get_unit_from_id 0).map
      Unit'.turn_actions_remaining = some 0 := by
  refine ⟨?_, ?_, ?_, ?_⟩ <;> decide

/-- C7 counterexample: the claim says that after every gateway operation
every tile holds at most one building and the building grid is exact.
GameState.__init__ never marks the castle tiles in building_placeable_map,
so from the initial state the gateway build_building call happily erects a
FARM_1 on blue's own castle tile (0,0): the call returns True and two
living buildings then stand on one tile. -/
theorem C7_two_buildings_on_castle_tile :
    (RobotController.build_building .BLUE .FARM_1 0 0 s0).1 = true ∧
    buildingCountAt (RobotController.build_building .BLUE .FARM_1 0 0 s0).2 0 0 = 2 := by
  constructor
  · decide
  · decide

/-- C8 counterexample: the claim says no two entities ever created in one
game share an id, jointly across units and buildings. Unit ids and building
ids are drawn from two independent counters that both start at 0: in the
initial state the red main castle already holds building id 0, and the first
unit ever placed receives unit id 0 as well. -/
theorem C8_unit_and_building_share_id_zero :
    (s0.place_unit .BLUE .KNIGHT 0 1 1).1 = true ∧
    ((s0.place_unit .BLUE .KNIGHT 0 1 1).2.get_unit_from_id 0).map Unit'.id = some 0 ∧
    ((s0.place_unit .BLUE .KNIGHT 0 1 1).2.get_building_from_id 0).map Building.id
      = some 0 := by
  refine ⟨?_, ?_, ?_⟩ <;> decide

/-- C10 counterexample: the claim says a newly created entity can neither
move, attack, heal nor spawn on the turn of its creation. The spawn gateway
never consults the building's action budget: a FARM_1 built this turn (its
turn_actions_remaining is 0) immediately satisfies can_spawn_unit for a
KNIGHT. -/
theorem C10_fresh_building_can_spawn :
    (RobotController.build_building .BLUE .FARM_1 0 1 s0).1 = true ∧
    (alookup (sFarm.buildings .BLUE) 2).map Building.turn_actions_remaining = some 0 ∧
    RobotController.can_spawn_unit .BLUE .KNIGHT 2 sFarm = true := by
  refine ⟨by decide, by decide, ?_⟩
  refine can_spawn_unit_true .BLUE .KNIGHT 2 sFarm
    (Building.create 2 .BLUE .FARM_1 0 1 1) (by decide) (by decide) (by decide)
    (by decide) (by decide) ?_
  have hbal : sFarm.balance .BLUE = 7 := by
    show (10 : Rat) - 3 = 7
    norm_num
  rw [hbal]
  show ¬ ((7 : Rat) < 1)
  norm_num

/-- C9: a unit with at least one remaining action attacking an in-range
location with no enemy unit or building inside its damage radius gets back
True, pays exactly one action, and nothing else in the game state changes:
the result state is literally the input state with that single unit's
turn_actions_remaining decremented. -/
theorem C9_attack_empty_point (team : Team) (uid : Nat) (x y : Int)
    (s : GameState) (u : Unit')
    (hc : acontains (s.units team) uid = true)
    (ht : s.get_team_of_unit uid = some team)
    (hu : alookup (s.units team) uid = some u)
    (hact : 0 < u.turn_actions_remaining)
    (hb : s.map.in_bounds x y = true)
    (hr : RobotController.chebyshev_distance_valid u.x u.y x y u.attack_range = true)
    (hnu : ∀ v ∈ avalues (s.units (RobotController.get_enemy_team team)),
      RobotController.chebyshev_distance_valid v.x v.y x y u.damage_range = false)
    (hnb : ∀ b ∈ avalues (s.buildings (RobotController.get_enemy_team team)),
      RobotController.chebyshev_distance_valid b.x b.y x y u.damage_range = false) :
    RobotController.unit_attack_location team uid x y s =
      .ok (some true, s.mutate_unit uid (fun w =>
        { w with turn_actions_remaining := w.turn_actions_remaining - 1 })) := by
  have hguf : s.get_unit_from_id uid = some u := by
    unfold GameState.get_unit_from_id
    rw [ht]
    exact hu
  have hact' : ¬ (u.turn_actions_remaining ≤ 0) := not_le.mpr hact
  have hcan : RobotController.can_unit_attack_location team uid x y s = true := by
    unfold RobotController.can_unit_attack_location
    rw [hguf]
    simp [hc, hb, hr, hact']
  have h1 : (avalues (s.units (RobotController.get_enemy_team team))).filterMap
      (fun v => if RobotController.chebyshev_distance_valid v.x v.y x y u.damage_range
                then some v.id else none) = [] := by
    rw [List.filterMap_eq_nil_iff]
    intro v hv
    simp [hnu v hv]
  have h2 : (avalues (s.buildings (RobotController.get_enemy_team team))).filterMap
      (fun b => if RobotController.chebyshev_distance_valid b.x b.y x y u.damage_range
                then some b.id else none) = [] := by
    rw [List.filterMap_eq_nil_iff]
    intro b hb2
    simp [hnb b hb2]
  unfold RobotController.unit_attack_location
  rw [hguf]
  simp only [hcan, not_true_eq_false, if_false, ite_false, Bool.not_eq_true]
  simp only [h1, h2, damage_units_pass_nil, damage_buildings_pass_nil,
    del_indices_nil, retaliate_units_nil, retaliate_buildings_nil, except_bind_ok]
  rfl

/-- C9 witness: the lone blue knight in sLone attacks the empty in-range
tile (0,0); the call succeeds and costs exactly their one action. -/
theorem C9_attack_empty_point_witness :
    RobotController.unit_attack_location .BLUE 0 0 0 sLone =
      .ok (some true, sLone.mutate_unit 0 (fun w =>
        { w with turn_actions_remaining := w.turn_actions_remaining - 1 })) :=
  C9_attack_empty_point .BLUE 0 0 0 sLone loneKnight (by decide) (by decide)
    (by decide) (by decide) (by decide) (by decide) (by decide) (by decide)

/-- C10 (amended): every unit created by place/spawn starts with both
per-turn budgets at 0 and every newly built building starts with 0 actions;
with those budgets the entity cannot move (every walkable tile costs at
least 1 movement) and cannot pass any can_*_attack gate, and the heal gate
can never return True for anyone (it raises on a nonexistent enum member
first); the budgets first become the archetype's allowances at the next
start_turn. The claim's "nor spawn" part is dropped: can_spawn_unit never
consults the building's action budget, so a building built this turn can
spawn at once (see the counterexample). -/
theorem C10_creation_budgets_zero :
    (∀ (uid : Nat) (team : Team) (ut : UnitType) (x y level : Int),
      (Unit'.create uid team ut x y level).turn_actions_remaining = 0 ∧
      (Unit'.create uid team ut x y level).turn_movement_remaining = 0) ∧
    (∀ (bid : Nat) (team : Team) (bt : BuildingType) (x y level : Int),
      (Building.create bid team bt x y level).turn_actions_remaining = 0) ∧
    (∀ (team : Team) (uid : Nat) (dir : Direction) (s : GameState) (u : Unit'),
      s.get_unit_from_id uid = some u →
      u.turn_movement_remaining = 0 →
      (∀ t ∈ u.walkable_tiles, 1 ≤ t.movement_cost) →
      RobotController.can_move_unit_in_direction team uid dir s = false) ∧
    (∀ (team : Team) (a tgt : Nat) (s : GameState) (u : Unit'),
      s.get_unit_from_id a = some u →
      u.turn_actions_remaining = 0 →
      RobotController.can_unit_attack_unit team a tgt s = false ∧
      RobotController.can_unit_attack_building team a tgt s = false) ∧
    (∀ (team : Team) (a : Nat) (x y : Int) (s : GameState) (u : Unit'),
      s.get_unit_from_id a = some u →
      u.turn_actions_remaining = 0 →
      RobotController.can_unit_attack_location team a x y s = false) ∧
    (∀ (team : Team) (a tgt : Nat) (s : GameState) (b : Building),
      s.get_building_from_id a = some b →
      b.turn_actions_remaining = 0 →
      RobotController.can_building_attack_unit team a tgt s = false) ∧
    (∀ (team : Team) (hid tid : Nat) (s : GameState),
      RobotController.can_heal_unit team hid tid s ≠ .ok true) ∧
    (∀ (s : GameState) (team : Team) (uid : Nat),
      alookup ((s.start_turn).units team) uid
        = (alookup (s.units team) uid).map resetUnitBudgets) ∧
    (∀ (s : GameState) (team : Team) (bid : Nat),
      alookup ((s.start_turn).buildings team) bid
        = (alookup (s.buildings team) bid).map resetBuildingBudgets) := by
  refine ⟨?_, ?_, ?_, ?_, ?_, ?_, ?_, ?_, ?_⟩
  · intro uid team ut x y level
    exact ⟨rfl, rfl⟩
  · intro bid team bt x y level
    rfl
  · intro team uid dir s u hget hmov hcost
    unfold RobotController.can_move_unit_in_direction
    rw [hget]
    by_cases hac : acontains (s.units team) uid = true
    case neg => simp [hac]
    by_cases hbnd : s.map.in_bounds (u.x + dir.dx) (u.y + dir.dy) = true
    case neg => simp [RobotController.new_location, hac, hbnd]
    by_cases hwalk :
        u.walkable_tiles.contains (s.map.tileAt (u.x + dir.dx) (u.y + dir.dy)) = true
    case neg =>
      simp [RobotController.new_location, hac, hbnd, hwalk]
      intro hmem' _
      exact absurd (List.elem_iff.mpr hmem') hwalk
    have hmem : s.map.tileAt (u.x + dir.dx) (u.y + dir.dy) ∈ u.walkable_tiles :=
      List.elem_iff.mp hwalk
    have hcost1 := hcost _ hmem
    simp only [RobotController.new_location, hac, hbnd, hwalk, not_true_eq_false,
      if_false, Bool.not_eq_true]
    split
    · rfl
    · split
      · rfl
      · rename_i hlt
        exact absurd (by omega) hlt
  · intro team a tgt s u hget hact
    constructor
    · unfold RobotController.can_unit_attack_unit
      rw [hget]
      by_cases hac : acontains (s.units team) a = true
      · by_cases htc : acontains (s.units (RobotController.get_enemy_team team)) tgt = true
        · simp only [hac, htc, not_true_eq_false, if_false]
          cases s.get_unit_from_id tgt
          · rfl
          · simp [hact]
        · simp [htc]
      · simp [hac]
    · unfold RobotController.can_unit_attack_building
      rw [hget]
      by_cases hac : acontains (s.units team) a = true
      · by_cases htc : acontains (s.buildings (RobotController.get_enemy_team team)) tgt = true
        · simp only [hac, htc, not_true_eq_false, if_false]
          cases s.get_building_from_id tgt
          · rfl
          · simp [hact]
        · simp [htc]
      · simp [hac]
  · intro team a x y s u hget hact
    unfold RobotController.can_unit_attack_location
    rw [hget]
    by_cases hac : acontains (s.units team) a = true
    · by_cases hbnd : s.map.in_bounds x y = true
      · simp [hac, hbnd, hact]
      · simp [hbnd]
    · simp [hac]
  · intro team a tgt s b hget hact
    unfold RobotController.can_building_attack_unit
    rw [hget]
    by_cases hac : acontains (s.buildings team) a = true
    · by_cases htc : acontains (s.units (RobotController.get_enemy_team team)) tgt = true
      · simp only [hac, htc, not_true_eq_false, if_false]
        cases s.get_unit_from_id tgt
        · rfl
        · simp [hact]
      · simp [htc]
    · simp [hac]
  · intro team hid tid s
    unfold RobotController.can_heal_unit
    split
    · simp
    · split
      · simp
      · split <;> simp
  · intro s team uid
    rw [start_turn_units s team, alookup_mapval]
  · intro s team bid
    rw [start_turn_buildings s team, alookup_mapval]

/-- C10 witness: the amended statement applied to the just-placed blue
knight of sFresh (budgets 0) and the initial blue main castle (budget 0). -/
theorem C10_creation_budgets_zero_witness :
    ((Unit'.create 0 .BLUE .KNIGHT 0 1 1).turn_actions_remaining = 0 ∧
      (Unit'.create 0 .BLUE .KNIGHT 0 1 1).turn_movement_remaining = 0) ∧
    (Building.create 2 .BLUE .FARM_1 0 1 1).turn_actions_remaining = 0 ∧
    RobotController.can_move_unit_in_direction .BLUE 0 .DOWN sFresh = false ∧
    RobotController.can_unit_attack_unit .BLUE 0 5 sFresh = false ∧
    RobotController.can_unit_attack_building .BLUE 0 1 sFresh = false ∧
    RobotController.can_unit_attack_location .BLUE 0 1 1 sFresh = false ∧
    RobotController.can_building_attack_unit .BLUE 1 5 sFresh = false ∧
    RobotController.can_heal_unit .BLUE 0 5 sFresh ≠ .ok true ∧
    alookup ((sFresh.start_turn).units .BLUE) 0
      = (alookup (sFresh.units .BLUE) 0).map resetUnitBudgets ∧
    alookup ((sFresh.start_turn).buildings .BLUE) 1
      = (alookup (sFresh.buildings .BLUE) 1).map resetBuildingBudgets :=
  ⟨C10_creation_budgets_zero.1 0 .BLUE .KNIGHT 0 1 1,
   C10_creation_budgets_zero.2.1 2 .BLUE .FARM_1 0 1 1,
   C10_creation_budgets_zero.2.2.1 .BLUE 0 .DOWN sFresh
     (Unit'.create 0 .BLUE .KNIGHT 0 1 1) (by decide) (by decide) (by decide),
   (C10_creation_budgets_zero.2.2.2.1 .BLUE 0 5 sFresh
     (Unit'.create 0 .BLUE .KNIGHT 0 1 1) (by decide) (by decide)).1,
   (C10_creation_budgets_zero.2.2.2.1 .BLUE 0 1 sFresh
     (Unit'.create 0 .BLUE .KNIGHT 0 1 1) (by decide) (by decide)).2,
   C10_creation_budgets_zero.2.2.2.2.1 .BLUE 0 1 1 sFresh
     (Unit'.create 0 .BLUE .KNIGHT 0 1 1) (by decide) (by decide),
   C10_creation_budgets_zero.2.2.2.2.2.1 .BLUE 1 5 sFresh
     (Building.create 1 .BLUE .MAIN_CASTLE 0 0 1) (by decide) (by decide),
   C10_creation_budgets_zero.2.2.2.2.2.2.1 .BLUE 0 5 sFresh,
   C10_creation_budgets_zero.2.2.2.2.2.2.2.1 sFresh .BLUE 0,
   C10_creation_budgets_zero.2.2.2.2.2.2.2.2 sFresh .BLUE 1⟩

/-- C7 (amended): occupancy bookkeeping. The initial state is well-formed
whenever the map anchors its castles in bounds, and from any well-formed
state every gateway operation that returns leaves every tile's unit grid
cell exact — marked occupied iff exactly one living unit stands there, and
never more than one — and leaves every tile other than the two castle
anchors with an exact building grid cell and at most one building; the two
castle tiles themselves are genuinely exempt, since __init__ never marks
them and a second building can be erected there (see the counterexample). -/
theorem C7_occupancy_exact_after_ops :
    (∀ m : Map, m.in_bounds m.blue_castle_loc.1 m.blue_castle_loc.2 = true →
      m.in_bounds m.red_castle_loc.1 m.red_castle_loc.2 = true →
      StateWF (GameState.init m)) ∧
    (∀ (team : Team) (op : GatewayOp) (s s' : GameState), StateWF s →
      applyOp team op s = some s' →
      StateWF s' ∧
      (∀ i : Nat, i < s'.map.width.toNat → ∀ j : Nat, j < s'.map.height.toNat →
        ((gridGet s'.unit_placeable_map i j = false ↔ unitCountAt s' i j = 1) ∧
          unitCountAt s' i j ≤ 1 ∧
          (((i : Int), (j : Int)) ≠ s'.map.blue_castle_loc →
            ((i : Int), (j : Int)) ≠ s'.map.red_castle_loc →
            ((gridGet s'.building_placeable_map i j = false ↔
                buildingCountAt s' i j = 1) ∧
              buildingCountAt s' i j ≤ 1))))) := by
  refine ⟨wf_init, ?_⟩
  intro team op s s' hwf hop
  have h' := (wf_applyOp team op s s' hwf hop).1
  exact ⟨h', fun i hi j hj => ⟨h'.u_exact i hi j hj, h'.u_atmost i hi j hj,
    fun hc1 hc2 => ⟨h'.b_exact i hi j hj hc1 hc2, h'.b_atmost i hi j hj hc1 hc2⟩⟩⟩

/-- Witness for C7: the theorem applied to the concrete 2×2 map and to a
disband call on the lone-knight fixture. -/
theorem C7_occupancy_exact_after_ops_witness :
    StateWF (GameState.init map2) ∧
    unitCountAt ((RobotController.disband_unit .BLUE 0 sLone).2) 0 1 ≤ 1 := by
  have hwf : StateWF sLone := by
    refine ⟨?_, ?_, ?_, ?_, ?_, ?_, ?_, ?_, ?_, ?_, ?_, ?_, ?_, ?_, ?_, ?_⟩ <;> decide
  exact ⟨C7_occupancy_exact_after_ops.1 map2 (by decide) (by decide),
    ((C7_occupancy_exact_after_ops.2 .BLUE (.disband 0) sLone
      ((RobotController.disband_unit .BLUE 0 sLone).2) hwf rfl).2
      0 (by decide) 1 (by decide)).2.1⟩

/-- C8 (amended): within each kind, ids are unique and never reused. From a
well-formed state, any returning gateway operation keeps all unit keys
distinct and all building keys distinct, moves both allocation counters only
upward, keeps every live id strictly below its counter, and any id live
afterwards was either live before or freshly drawn at or above the old
counter — so an id freed by a deletion, lying below the counter, can never
be handed out again. Uniqueness does NOT hold jointly across units and
buildings: the two counters are independent and both start at 0, so a unit
and a building share id 0 (see the counterexample). -/
theorem C8_ids_never_reused (team : Team) (op : GatewayOp) (s s' : GameState)
    (h : StateWF s) (hop : applyOp team op s = some s') :
    (unitIds s').Nodup ∧ (buildingIds s').Nodup ∧
    s.unit_id_counter ≤ s'.unit_id_counter ∧
    s.building_id_counter ≤ s'.building_id_counter ∧
    (∀ k ∈ unitIds s', k < s'.unit_id_counter) ∧
    (∀ k ∈ buildingIds s', k < s'.building_id_counter) ∧
    (∀ k ∈ unitIds s', k ∈ unitIds s ∨ s.unit_id_counter ≤ k) ∧
    (∀ k ∈ buildingIds s', k ∈ buildingIds s ∨ s.building_id_counter ≤ k) := by
  obtain ⟨hwf, hevo⟩ := wf_applyOp team op s s' h hop
  exact ⟨hwf.ukeys_nodup, hwf.bkeys_nodup, hevo.1, hevo.2.1, hwf.ukeys_lt,
    hwf.bkeys_lt, hevo.2.2.1, hevo.2.2.2⟩

/-- Witness for C8: the theorem applied to a disband call on the
just-placed-knight fixture. -/
theorem C8_ids_never_reused_witness :
    StateWF sFresh ∧
    (unitIds ((RobotController.disband_unit .BLUE 0 sFresh).2)).Nodup := by
  have hwf : StateWF sFresh := by
    refine ⟨?_, ?_, ?_, ?_, ?_, ?_, ?_, ?_, ?_, ?_, ?_, ?_, ?_, ?_, ?_, ?_⟩ <;> decide
  exact ⟨hwf, (C8_ids_never_reused .BLUE (.disband 0) sFresh
    ((RobotController.disband_unit .BLUE 0 sFresh).2) hwf rfl).1⟩

end Awap
